import Mathlib

/-!
# libgitops: frame readers and writers

A shallow embedding of `pkg/serializer/frame` (the framing strategies and the
high-level writer policy layer) together with the properties its
specification states about them.

Conventions of the embedding

* A Go byte slice is a `List UInt8`; the nil slice is the empty list.
* A Go `error` is an `Option Err`; `none` is the nil error.
* A collaborator reached through an interface (the low-level `Writer`, the
  `Sanitizer`, a content stream, a segment reader) is a record of step
  functions over an explicit state: every call takes the collaborator's state
  and returns its next state. A collaborator that is *not* called therefore
  keeps its state, for every possible implementation of it.
* `context.Context` only carries tracing and cancellation data and is dropped.
* `int64` values are integers; the one arithmetic operation of the code
  (`frameCount += 1`) wraps explicitly.
-/

namespace Libgitops

/-! ## Bytes, errors, machine integers -/

/-- A byte slice (a frame, a buffer). -/
abbrev Bytes := List UInt8

/-- The bytes of an ASCII string literal, used to write frames down readably. -/
def ascii (s : String) : Bytes := s.toList.map (fun c => c.toNat.toUInt8)

/-- The `FramingType` of the package is a Go string type. -/
abbrev FramingType := String

/-- The error values the frame package produces or passes on.
`wrap` is an error that wraps another one (what `errors.Is` unwraps);
`other` is any error value of a collaborator that the package does not know. -/
inductive Err where
  | FrameSizeOverflow (limit : Int)
  | FrameCountOverflow (limit : Int)
  | UnsupportedFramingType (t : FramingType)
  | ErrShortWrite
  | ErrClosedPipe
  | EOF
  | ErrObjectTooLarge
  | other (msg : String)
  | wrap (msg : String) (cause : Err)
  deriving DecidableEq

/-- Modelled from the spec: `content.MakeFrameSizeOverflowError` (the file
declaring the package errors is not among the sources). Spec section 7:
`FrameSizeOverflow(limit)`, a single frame exceeded the configured maximum. -/
def MakeFrameSizeOverflowError (limit : Int) : Err := Err.FrameSizeOverflow limit

/-- Modelled from the spec: `MakeFrameCountOverflowError` (the file declaring
the package errors is not among the sources). Spec section 7:
`FrameCountOverflow(limit)`, more frames were written than `MaxFrames` allows. -/
def MakeFrameCountOverflowError (limit : Int) : Err := Err.FrameCountOverflow limit

/-- The range of Go's `int64`. -/
def InInt64 (i : Int) : Prop := -(2 : Int) ^ 63 ≤ i ∧ i < (2 : Int) ^ 63

instance (i : Int) : Decidable (InInt64 i) := by unfold InInt64; infer_instance

/-- Two's complement wrap-around of an integer into `int64`. -/
def wrapInt64 (i : Int) : Int := (i + (2 : Int) ^ 63) % (2 : Int) ^ 64 - (2 : Int) ^ 63

/-- Modelled from the spec: `tracing.FromContext(ctx, obj).TraceFunc(ctx, name, fn).Register()`
(package `pkg/tracing` is not among the sources). Spec section 7:
"instrumentation records errors on the current span but does not alter them",
so the traced call returns exactly what `fn` returned. -/
def traceRegister (result : Option Err) : Option Err := result

/-! ## The collaborator interfaces -/

/-- The frame `Writer` interface (`WriteFrame`, `FramingType`, `Close`) over
the implementation's state `σ`. -/
structure Writer (σ : Type) where
  WriteFrame : σ → Bytes → σ × Option Err
  FramingType : σ → FramingType
  Close : σ → σ × Option Err

/-- The `Sanitizer` interface: `Sanitize(framingType, frame)` returns a frame
and an error; the implementation may carry state `τ`. -/
structure Sanitizer (τ : Type) where
  Sanitize : τ → FramingType → Bytes → τ × Bytes × Option Err

/-- `WriterOptions`: the three options the high-level writer reads. -/
structure WriterOptions (τ : Type) where
  MaxFrameSize : Int
  MaxFrames : Int
  Sanitizer : Sanitizer τ

/-! ## writer.go: the high-level writer -/

/-- The mutable state behind a `*highlevelWriter`: the state of the wrapped
low-level writer, the state of `opts.Sanitizer`, and `frameCount`. The mutex
serialises calls and has no state of its own in a sequential run. -/
structure highlevelWriter (σ τ : Type) where
  writer : σ
  sanitizer : τ
  frameCount : Int
  deriving DecidableEq

/-- `newHighlevelWriter`: `frameCount` starts at zero. -/
def newHighlevelWriter {σ τ : Type} (w : σ) (san : τ) : highlevelWriter σ τ :=
  { writer := w, sanitizer := san, frameCount := 0 }

/-- `highlevelWriter.FramingType`: that of the wrapped writer. -/
def highlevelWriter.FramingType {σ τ : Type} (wr : Writer σ) (w : highlevelWriter σ τ) :
    FramingType :=
  wr.FramingType w.writer

/-- `highlevelWriter.WriteFrame` (writer.go:28-66). -/
def highlevelWriter.WriteFrame {σ τ : Type} (wr : Writer σ) (opts : WriterOptions τ)
    (w : highlevelWriter σ τ) (frame : Bytes) : highlevelWriter σ τ × Option Err :=
  -- Refuse to write too large frames
  if (frame.length : Int) > opts.MaxFrameSize then
    (w, traceRegister (some (MakeFrameSizeOverflowError opts.MaxFrameSize)))
  -- Refuse to write more than the maximum amount of frames
  else if w.frameCount ≥ opts.MaxFrames then
    (w, traceRegister (some (MakeFrameCountOverflowError opts.MaxFrames)))
  else
    -- Sanitize the frame
    match opts.Sanitizer.Sanitize w.sanitizer (highlevelWriter.FramingType wr w) frame with
    | (san, _, some err) => ({ w with sanitizer := san }, traceRegister (some err))
    | (san, frame, none) =>
      -- Catch empty frames
      if frame.length = 0 then
        ({ w with sanitizer := san }, traceRegister none)
      else
        match wr.WriteFrame w.writer frame with
        -- Increase the frame counter, if the write was successful
        | (lw, none) =>
          ({ writer := lw, sanitizer := san, frameCount := wrapInt64 (w.frameCount + 1) },
            traceRegister none)
        | (lw, some err) =>
          ({ writer := lw, sanitizer := san, frameCount := w.frameCount },
            traceRegister (some err))

/-- A sequence of `WriteFrame` calls on one writer, one call per frame of the
list, whatever each call returns; the errors are collected in call order. -/
def highlevelWriter.writeCalls {σ τ : Type} (wr : Writer σ) (opts : WriterOptions τ) :
    highlevelWriter σ τ → List Bytes → highlevelWriter σ τ × List (Option Err)
  | w, [] => (w, [])
  | w, frame :: rest =>
    let r := highlevelWriter.WriteFrame wr opts w frame
    let rs := highlevelWriter.writeCalls wr opts r.1 rest
    (rs.1, r.2 :: rs.2)

/-! ## Content streams -/

/-- A Go `io.Reader` with its closer, over the state `ρ` of the implementation.
`Read s n` is a call `Read(p)` with `len(p) = n`: it returns the next state,
the bytes stored into `p` and the error. A `content.Reader` bound to a
context (`WithContext(ctx)`, reader.go:31-49 and 94-99) forwards `Read` and
`Close` to the raw stream inside a tracing span and returns their results. -/
structure IoReader (ρ : Type) where
  Read : ρ → Nat → ρ × Bytes × Option Err
  Close : ρ → ρ × Option Err

/-- A Go `io.Writer` with its closer, over the state `ω` of the implementation.
`Write s p` returns the next state, the number of bytes accepted and the
error. A `content.Writer` bound to a context (writer.go:96-132) forwards to
the raw stream inside a tracing span. -/
structure IoWriter (ω : Type) where
  Write : ω → Bytes → ω × Int × Option Err
  Close : ω → ω × Option Err

/-- The `content.RawSegmentReader` interface with the closer of the stream
beneath it: `Read()` returns one whole segment. -/
structure SegmentReader (κ : Type) where
  Read : κ → κ × Bytes × Option Err
  Close : κ → κ × Option Err

/-- Go's `bytes.Reader` / `strings.Reader` (standard library), the stream
behind `content.FromBytes` and `content.FromString`; the state is the unread
rest. `Read` returns `io.EOF` with no bytes once nothing is left and copies
`min(len(p), rest)` bytes otherwise. -/
def bytesReader : IoReader Bytes where
  Read := fun rest n =>
    if rest.length = 0 then (rest, [], some Err.EOF) else (rest.drop n, rest.take n, none)
  Close := fun rest => (rest, none)

/-- Modelled from the spec: `content.WrapLimited(stream, maxBytes)` (its file,
reader_limited.go, is not among the sources). Spec section 4.3: a counting
layer in front of the raw reader; "each read call increments the counter by
the bytes actually returned; if the counter would exceed `maxBytes`, the call
returns a frame-size-overflow error instead of more bytes, and every
subsequent call on this instance returns the same overflow error until
`resetFn()` is invoked". The state pairs the wrapped stream with the running
total of bytes consumed since the last reset. -/
def WrapLimited {ρ : Type} (rd : IoReader ρ) (maxBytes : Int) : IoReader (ρ × Int) where
  Read := fun s n =>
    if s.2 > maxBytes then
      (s, [], some (MakeFrameSizeOverflowError maxBytes))
    else
      match rd.Read s.1 n with
      | (s1, chunk, err) =>
        if s.2 + (chunk.length : Int) > maxBytes then
          ((s1, s.2 + (chunk.length : Int)), [], some (MakeFrameSizeOverflowError maxBytes))
        else
          ((s1, s.2 + (chunk.length : Int)), chunk, err)
  Close := fun s => (((rd.Close s.1).1, s.2), (rd.Close s.1).2)

/-- Modelled from the spec: the `resetFn` returned by `content.WrapLimited`
(reader_limited.go is not among the sources). Spec section 3, LimitCounter:
the running total of bytes consumed "since the last reset". -/
def WrapLimited.resetFn {ρ : Type} (s : ρ × Int) : ρ × Int := (s.1, 0)

/-- Go's `io.ReadAll` (standard library): read into the free tail of a
buffer of capacity 512, enlarging the buffer when it is full, until `Read`
returns an error; `io.EOF` is turned into nil. `grow` is the capacity `append`
picks for a full buffer (a choice of the Go runtime). The loop stops only on
an error of the stream, hence the fuel: `none` is a run that has not stopped
within `fuel` calls of `Read`. -/
def ReadAll.loop {ρ : Type} (rd : IoReader ρ) (grow : Nat → Nat) :
    Nat → ρ → Bytes → Nat → Option (ρ × Bytes × Option Err)
  | 0, _, _, _ => none
  | fuel + 1, s, b, cap =>
    let cap := if b.length = cap then grow cap else cap
    match rd.Read s (cap - b.length) with
    | (s1, chunk, some err) => some (s1, b ++ chunk, if err = Err.EOF then none else some err)
    | (s1, chunk, none) => ReadAll.loop rd grow fuel s1 (b ++ chunk) cap

/-- Go's `io.ReadAll`; see `ReadAll.loop`. -/
def ReadAll {ρ : Type} (rd : IoReader ρ) (grow : Nat → Nat) (fuel : Nat) (s : ρ) :
    Option (ρ × Bytes × Option Err) :=
  ReadAll.loop rd grow fuel s [] 512

/-! ## single.go: the single-frame reader and writer -/

/-- The mutable state of a `*singleReader`: the state of its (limited) content
stream and the `hasBeenRead` flag. -/
structure singleReader (ρ : Type) where
  r : ρ
  hasBeenRead : Bool
  deriving DecidableEq

/-- `newSingleReader` (single.go:10-17): the content stream is wrapped in the
limiting layer with `o.MaxFrameSize`; `hasBeenRead` starts false. -/
def newSingleReader {ρ : Type} (r : ρ) : singleReader (ρ × Int) :=
  { r := (r, 0), hasBeenRead := false }

/-- `singleReader.ReadFrame` (single.go:35-46) over the content stream `rd`. -/
def singleReader.ReadFrame {ρ : Type} (rd : IoReader ρ) (grow : Nat → Nat) (fuel : Nat)
    (r : singleReader ρ) : Option (singleReader ρ × Bytes × Option Err) :=
  -- Only allow reading once
  if !r.hasBeenRead then
    -- Read the whole frame from the underlying io.Reader, up to a given amount
    match ReadAll rd grow fuel r.r with
    | none => none
    -- Mark we have read the frame
    | some (s, frame, err) => some ({ r := s, hasBeenRead := true }, frame, err)
  else
    some (r, [], some Err.EOF)

/-- The state of the reader after `n` further `ReadFrame` calls (`none` when
one of them has not returned). -/
def singleReader.afterCalls {ρ : Type} (rd : IoReader ρ) (grow : Nat → Nat) (fuel : Nat) :
    Nat → singleReader ρ → Option (singleReader ρ)
  | 0, r => some r
  | n + 1, r =>
    match singleReader.ReadFrame rd grow fuel r with
    | none => none
    | some (r1, _, _) => singleReader.afterCalls rd grow fuel n r1

/-- `catchShortWrite` (writer_delegate.go:46-51). -/
def catchShortWrite (n : Int) (err : Option Err) (frame : Bytes) : Option Err :=
  if n < (frame.length : Int) ∧ err = none then some Err.ErrShortWrite else err

/-- The mutable state of a `*singleWriter`: the state of its content writer and
the `hasBeenWritten` flag. -/
structure singleWriter (ω : Type) where
  w : ω
  hasBeenWritten : Bool
  deriving DecidableEq

/-- `newSingleWriter` (single.go:19-24). -/
def newSingleWriter {ω : Type} (w : ω) : singleWriter ω :=
  { w := w, hasBeenWritten := false }

/-- `singleWriter.WriteFrame` (single.go:59-74) over the content writer `cw`. -/
def singleWriter.WriteFrame {ω : Type} (cw : IoWriter ω) (w : singleWriter ω) (frame : Bytes) :
    singleWriter ω × Option Err :=
  -- Only allow writing once
  if !w.hasBeenWritten then
    -- The first time, write the whole frame to the underlying writer
    match cw.Write w.w frame with
    -- Mark we have written the frame; guard against short frames
    | (s, n, err) => ({ w := s, hasBeenWritten := true }, catchShortWrite n err frame)
  else
    (w, some Err.ErrClosedPipe)

/-- A sequence of `WriteFrame` calls on one single-frame writer, one call per
frame of the list; the errors are collected in call order. -/
def singleWriter.writeCalls {ω : Type} (cw : IoWriter ω) :
    singleWriter ω → List Bytes → singleWriter ω × List (Option Err)
  | w, [] => (w, [])
  | w, frame :: rest =>
    let r := singleWriter.WriteFrame cw w frame
    let rs := singleWriter.writeCalls cw r.1 rest
    (rs.1, r.2 :: rs.2)

/-- A content writer that records every `Write` it receives and answers with
the next scripted result (all bytes accepted, no error, once the script is
used up). -/
def recordingIoWriter : IoWriter (List Bytes × List (Int × Option Err)) where
  Write := fun s p =>
    match s.2 with
    | [] => ((s.1 ++ [p], []), (p.length : Int), none)
    | (n, err) :: rest => ((s.1 ++ [p], rest), n, err)
  Close := fun s => (s, none)

/-! ## reader_yaml.go: the document-separated reader -/

/-- A `*yamlReader` (reader_yaml.go:52-55): the segment reader `cr`,
`maxFrameSize`, and `resetCounter`, which acts on the limiting wrapper that
lies beneath the segment reader and so on the same state `κ`. -/
structure yamlReader (κ : Type) where
  cr : SegmentReader κ
  maxFrameSize : Int
  resetCounter : κ → κ

/-- `yamlReader.ReadFrame` (reader_yaml.go:57-79). -/
def yamlReader.ReadFrame {κ : Type} (r : yamlReader κ) (s : κ) : κ × Bytes × Option Err :=
  match r.cr.Read s with
  | (s1, _, some err) => (s1, [], some err)
  | (s1, frame, none) =>
    -- Reset now that we know a good frame has been read (err == nil)
    let s2 := r.resetCounter s1
    -- Enforce this "final" frame size <= maxFrameSize
    if (frame.length : Int) > r.maxFrameSize then
      (s2, [], some (MakeFrameSizeOverflowError r.maxFrameSize))
    else
      (s2, frame, none)

/-- The state of the reader after `n` further `ReadFrame` calls. -/
def yamlReader.afterCalls {κ : Type} (r : yamlReader κ) : Nat → κ → κ
  | 0, s => s
  | n + 1, s => yamlReader.afterCalls r n (yamlReader.ReadFrame r s).1

/-- The results of `n` successive `ReadFrame` calls, in call order. -/
def yamlReader.readCalls {κ : Type} (r : yamlReader κ) : Nat → κ → List (Bytes × Option Err)
  | 0, _ => []
  | n + 1, s => (yamlReader.ReadFrame r s).2 :: yamlReader.readCalls r n (yamlReader.ReadFrame r s).1

/-- The lines `bufio.Reader.ReadLine` (Go standard library) finds in a
content: the text between line feeds without the line end (`\n` or `\r\n`);
a last line without line feed counts when it is not empty. `cur` is the line
read so far. -/
def splitLines.go : Bytes → Bytes → List Bytes
  | [], cur => if cur.length = 0 then [] else [cur]
  | c :: rest, cur =>
    if c = 10 then
      (if cur.getLast? = some 13 then cur.dropLast else cur) :: splitLines.go rest []
    else
      splitLines.go rest (cur ++ [c])

/-- The lines of a content; see `splitLines.go`. -/
def splitLines (content : Bytes) : List Bytes := splitLines.go content []

/-- ASCII white space, as `strings.TrimSpace` sees it. -/
def isSpace (c : UInt8) : Bool := c = 32 || (9 ≤ c && c ≤ 13)

/-- The upstream segment reader that `newYAMLReader` installs
(reader_yaml.go:27-35): `yaml.NewYAMLReader(bufio.NewReader(underlying))` of
k8s.io/apimachinery/pkg/util/yaml, over an in-memory content whose state is
the list of lines not yet read. Its `LineReader` returns each line followed
by `\n`, and `("\n", io.EOF)` at the end. `YAMLReader.Read` collects lines in
a buffer; a line that starts with `---` followed by nothing but white space or
a comment ends the document when the buffer is not empty, and is otherwise
put into the buffer like any other line (the separator at the beginning of a
stream stays in the document, as the comment at reader_yaml.go:19-22 notes);
any other text after `---` is a syntax error. -/
def k8sYAMLReader.loop : List Bytes → Bytes → List Bytes × Bytes × Option Err
  | [], buffer =>
    if buffer.length ≠ 0 then ([], buffer, none) else ([], [], some Err.EOF)
  | l :: rest, buffer =>
    let line := l ++ [10]
    if (ascii "---").isPrefixOf line then
      let trimmed := (line.drop 3).dropWhile isSpace
      if trimmed.length > 0 ∧ trimmed.head? ≠ some 35 then
        (rest, [], some (Err.other "invalid Yaml document separator"))
      else if buffer.length ≠ 0 then
        (rest, buffer, none)
      else
        k8sYAMLReader.loop rest (buffer ++ line)
    else
      k8sYAMLReader.loop rest (buffer ++ line)

/-- The upstream YAML segment reader over in-memory lines; see
`k8sYAMLReader.loop`. -/
def k8sYAMLReader : SegmentReader (List Bytes) where
  Read := fun lines => k8sYAMLReader.loop lines []
  Close := fun lines => (lines, none)

/-- The `*yamlReader` that `newYAMLReader` builds over an in-memory content
that stays within the budget of the limiting wrapper (`maxFrameSize + 4`
bytes per document), so that the wrapper and its counter never interfere. -/
def memYAMLReader (maxFrameSize : Int) : yamlReader (List Bytes) where
  cr := k8sYAMLReader
  maxFrameSize := maxFrameSize
  resetCounter := fun lines => lines

/-- The limiting wrapper over an in-memory content, seen as a segment reader:
every chunk it lets through is a segment. -/
def limitedChunks (maxBytes : Int) : SegmentReader (Bytes × Int) where
  Read := fun s =>
    match (WrapLimited bytesReader maxBytes).Read s 4096 with
    | (s1, _, some err) => (s1, [], some err)
    | (s1, chunk, none) => (s1, chunk, none)
  Close := fun s => (s, none)

/-! ## reader_streaming.go: the object-concatenated reader -/

/-- The `k8sStreamingReader` interface (its declaration is not among the
sources; `streamingReader` calls `Read()` and `Close()` on it). -/
structure k8sStreamingReader (κ : Type) where
  Read : κ → κ × Bytes × Option Err
  Close : κ → κ × Option Err

/-- Go's `errors.Is` on the error values of the model: the error itself or
one it wraps equals the target. -/
def errorsIs : Err → Err → Bool
  | Err.wrap msg cause, target =>
    decide (Err.wrap msg cause = target) || errorsIs cause target
  | err, target => decide (err = target)

/-- `mapError` (reader_streaming.go:57-66) over a possibly nil error; the
mappings are a list of target and maker. -/
def mapError (err : Option Err) : List (Err × (Unit → Err)) → Option Err
  | [] => err
  | (target, mkErr) :: rest =>
    match err with
    | some e => if errorsIs e target then some (mkErr ()) else mapError err rest
    | none => mapError err rest

/-- Modelled from the spec: `MakeErrFrameSizeOverflowor`, which
reader_streaming.go:50 calls and no source file declares. Spec section 4.4:
the object-too-large condition "is remapped to the same frame-size-overflow
error used by the other strategies". -/
def MakeErrFrameSizeOverflowor (limit : Int) : Err := Err.FrameSizeOverflow limit

/-- A `*streamingReader` (reader_streaming.go:38-42). -/
structure streamingReader (κ : Type) where
  streamReader : k8sStreamingReader κ
  maxFrameSize : Int

/-- `streamingReader.ReadFrame` (reader_streaming.go:44-53). -/
def streamingReader.ReadFrame {κ : Type} (r : streamingReader κ) (s : κ) :
    κ × Bytes × Option Err :=
  -- Read one frame from the streamReader
  match r.streamReader.Read s with
  | (s1, frame, err) =>
    -- Transform streaming.ErrObjectTooLarge to a ErrFrameSizeOverflow, if returned.
    (s1, frame,
      mapError err [(Err.ErrObjectTooLarge, fun _ => MakeErrFrameSizeOverflowor r.maxFrameSize)])

/-- The state of the reader after `n` further `ReadFrame` calls. -/
def streamingReader.afterCalls {κ : Type} (r : streamingReader κ) : Nat → κ → κ
  | 0, s => s
  | n + 1, s => streamingReader.afterCalls r n (streamingReader.ReadFrame r s).1

/-- Whether a possibly nil error matches `streaming.ErrObjectTooLarge` under
`errors.Is`. -/
def isObjectTooLarge : Option Err → Bool
  | some e => errorsIs e Err.ErrObjectTooLarge
  | none => false

/-- A stream reader that answers with the next scripted result, and with
`io.EOF` once the script is used up. -/
def scriptedStreamReader : k8sStreamingReader (List (Bytes × Option Err)) where
  Read := fun script =>
    match script with
    | [] => ([], [], some Err.EOF)
    | (frame, err) :: rest => (rest, frame, err)
  Close := fun script => (script, none)

/-- A stream reader that has met an object larger than its buffer and
answers every call with the object-too-large error. -/
def tooLargeStreamReader : k8sStreamingReader Nat where
  Read := fun calls => (calls + 1, [], some Err.ErrObjectTooLarge)
  Close := fun calls => (calls, none)

/-! ## writer_delegate.go: the delegating writer and the error writer -/

/-- The mutable state of a `*delegatingWriter` (writer_delegate.go:19-23): the
framing type it was built for and the state of its content writer. -/
structure delegatingWriter (ω : Type) where
  FramingTyped : FramingType
  w : ω
  deriving DecidableEq

/-- `newDelegatingWriter` (writer_delegate.go:10-16). -/
def newDelegatingWriter {ω : Type} (framingType : FramingType) (w : ω) : delegatingWriter ω :=
  { FramingTyped := framingType, w := w }

/-- `delegatingWriter.WriteFrame` (writer_delegate.go:25-30) over the content
writer `cw`. -/
def delegatingWriter.WriteFrame {ω : Type} (cw : IoWriter ω) (w : delegatingWriter ω)
    (frame : Bytes) : delegatingWriter ω × Option Err :=
  -- Write the frame to the underlying writer
  match cw.Write w.w frame with
  -- Guard against short writes
  | (s, n, err) => ({ w with w := s }, catchShortWrite n err frame)

/-- `delegatingWriter.Close` (writer_delegate.go:32). -/
def delegatingWriter.Close {ω : Type} (cw : IoWriter ω) (w : delegatingWriter ω) :
    delegatingWriter ω × Option Err :=
  ({ w with w := (cw.Close w.w).1 }, (cw.Close w.w).2)

/-- An `*errWriter` (writer_delegate.go:38-42): the framing type and the error
it returns; its closer is a `nopCloser`. It holds no content writer. -/
structure errWriter where
  FramingTyped : FramingType
  err : Err
  deriving DecidableEq

/-- `newErrWriter` (writer_delegate.go:34-36). -/
def newErrWriter (framingType : FramingType) (err : Err) : errWriter :=
  { FramingTyped := framingType, err := err }

/-- `errWriter.WriteFrame` (writer_delegate.go:44). -/
def errWriter.WriteFrame (w : errWriter) (_frame : Bytes) : errWriter × Option Err :=
  (w, some w.err)

/-- `nopCloser.Close` (reader_factory.go:88) as the closer of an `errWriter`. -/
def errWriter.Close (w : errWriter) : errWriter × Option Err := (w, none)

/-! ## reader_factory.go and writer_factory.go: the factory -/

/-- `ReaderOptions`: the options the low-level readers look at. -/
structure ReaderOptions where
  MaxFrameSize : Int
  MaxFrames : Int
  deriving DecidableEq

/-- Modelled from the spec: `MakeUnsupportedFramingTypeError` (the file
declaring the package errors is not among the sources). Spec section 7:
`UnsupportedFramingType(type)`, the requested framing kind has no strategy. -/
def MakeUnsupportedFramingTypeError (framingType : FramingType) : Err :=
  Err.UnsupportedFramingType framingType

/-- An `*errReader` (reader_factory.go:75-79): the framing type and the error
it returns; its closer is a `nopCloser`. It holds no content reader. -/
structure errReader where
  FramingTyped : FramingType
  err : Err
  deriving DecidableEq

/-- `newErrReader` (reader_factory.go:70-72). -/
def newErrReader (framingType : FramingType) (err : Err) : errReader :=
  { FramingTyped := framingType, err := err }

/-- `errReader.ReadFrame` (reader_factory.go:81). -/
def errReader.ReadFrame (r : errReader) : errReader × Bytes × Option Err :=
  (r, [], some r.err)

/-- `nopCloser.Close` (reader_factory.go:88) as the closer of an `errReader`. -/
def errReader.Close (r : errReader) : errReader × Option Err := (r, none)

/-- The `FramingType()` of an `errReader`, that of its embedded `FramingTyped`. -/
def errReader.FramingType (r : errReader) : FramingType := r.FramingTyped

/-- The results of `n` successive `ReadFrame` calls on an `errReader`. -/
def errReader.readCalls : Nat → errReader → List (Bytes × Option Err)
  | 0, _ => []
  | n + 1, r => (errReader.ReadFrame r).2 :: errReader.readCalls n (errReader.ReadFrame r).1

/-- What `DefaultFactory.lowlevelFromReadCloser` returns over a content reader
with state `ρ`. The document-separated and the object-concatenated reader are
kept as the arguments of their constructors (`newYAMLReader(r, o)`,
`newJSONReader(r, o)`). The single-frame reader owns the content reader behind
the limiting wrapper. The error reader holds no content reader; `given` is the
state of the content reader that was handed to the factory, kept in the model
so that what happens to it can be stated. -/
inductive lowlevelReader (ρ : Type) where
  | yaml (r : ρ) (o : ReaderOptions)
  | json (r : ρ) (o : ReaderOptions)
  | single (framingType : FramingType) (maxFrameSize : Int) (sr : singleReader (ρ × Int))
  | err (er : errReader) (given : ρ)
  deriving DecidableEq

/-- `DefaultFactory.lowlevelFromReadCloser` (reader_factory.go:27-43). The
constants `FramingTypeYAML` and `FramingTypeJSON` are declared in a file that
is not among the sources and are parameters. -/
def lowlevelFromReadCloser {ρ : Type} (FramingTypeYAML FramingTypeJSON : FramingType)
    (framingType : FramingType) (r : ρ) (o : ReaderOptions) : lowlevelReader ρ :=
  if framingType = FramingTypeYAML then
    lowlevelReader.yaml r o
  else if framingType = FramingTypeJSON then
    lowlevelReader.json r o
  else if o.MaxFrames = 1 then
    lowlevelReader.single framingType o.MaxFrameSize (newSingleReader r)
  else
    lowlevelReader.err (newErrReader framingType (MakeUnsupportedFramingTypeError framingType)) r

/-- The `FramingType()` of a low-level reader: `yamlReader.FramingType`
(reader_yaml.go:81) is `FramingTypeYAML`, the JSON reader is built for the
JSON content type (reader_streaming.go:16), the other two report their
embedded `FramingTyped`. -/
def lowlevelReader.FramingType {ρ : Type} (FramingTypeYAML FramingTypeJSON : FramingType) :
    lowlevelReader ρ → FramingType
  | lowlevelReader.yaml _ _ => FramingTypeYAML
  | lowlevelReader.json _ _ => FramingTypeJSON
  | lowlevelReader.single framingType _ _ => framingType
  | lowlevelReader.err er _ => errReader.FramingType er

/-- The frame writer of `json.YAMLFramer.NewFrameWriter` (k8s.io/apimachinery,
runtime/serializer/json), which `newFromContentWriter` wraps around the content
writer for YAML (writer_factory.go:21-23): it writes the separator line
`---\n` and then the data, and returns what the second `Write` returns; an
error of the first `Write` is returned with `n = 0`. It has no closer of its
own, so `Wrap` keeps the closer of the wrapped writer (writer.go:74-77). -/
def yamlFrameWriter {ω : Type} (cw : IoWriter ω) : IoWriter ω where
  Write := fun s data =>
    match cw.Write s (ascii "---\n") with
    | (s1, _, some err) => (s1, 0, some err)
    | (s1, _, none) => cw.Write s1 data
  Close := cw.Close

/-- The frame writer of `json.Framer.NewFrameWriter` (k8s.io/apimachinery),
wrapped around the content writer for JSON (writer_factory.go:25-27): JSON
objects are self-framing and the writer is returned as it is. -/
def jsonFrameWriter {ω : Type} (cw : IoWriter ω) : IoWriter ω := cw

/-- What `DefaultFactory.newFromContentWriter` returns over a content writer
with state `ω`; a delegating or single-frame writer comes with the content
writer it writes to. The error writer holds no content writer; `given` is the
state of the content writer that was handed to the factory, kept in the model
so that what happens to it can be stated. -/
inductive lowlevelWriter (ω : Type) where
  | delegating (cw : IoWriter ω) (w : delegatingWriter ω)
  | single (cw : IoWriter ω) (framingType : FramingType) (w : singleWriter ω)
  | err (ew : errWriter) (given : ω)

/-- `DefaultFactory.newFromContentWriter` (writer_factory.go:18-38). The
constants `FramingTypeYAML` and `FramingTypeJSON` are parameters. -/
def newFromContentWriter {ω τ : Type} (FramingTypeYAML FramingTypeJSON : FramingType)
    (framingType : FramingType) (cw : IoWriter ω) (w : ω) (o : WriterOptions τ) :
    lowlevelWriter ω :=
  if framingType = FramingTypeYAML then
    lowlevelWriter.delegating (yamlFrameWriter cw) (newDelegatingWriter framingType w)
  else if framingType = FramingTypeJSON then
    lowlevelWriter.delegating (jsonFrameWriter cw) (newDelegatingWriter framingType w)
  else if o.MaxFrames = 1 then
    lowlevelWriter.single cw framingType (newSingleWriter w)
  else
    lowlevelWriter.err (newErrWriter framingType (MakeUnsupportedFramingTypeError framingType)) w

/-- `WriteFrame` of the writer the factory built, by its dynamic type. -/
def lowlevelWriter.WriteFrame {ω : Type} (lw : lowlevelWriter ω) (frame : Bytes) :
    lowlevelWriter ω × Option Err :=
  match lw with
  | lowlevelWriter.delegating cw w =>
    (lowlevelWriter.delegating cw (delegatingWriter.WriteFrame cw w frame).1,
      (delegatingWriter.WriteFrame cw w frame).2)
  | lowlevelWriter.single cw framingType w =>
    (lowlevelWriter.single cw framingType (singleWriter.WriteFrame cw w frame).1,
      (singleWriter.WriteFrame cw w frame).2)
  | lowlevelWriter.err ew given =>
    (lowlevelWriter.err (errWriter.WriteFrame ew frame).1 given, (errWriter.WriteFrame ew frame).2)

/-- `FramingType()` of the writer the factory built: its embedded
`FramingTyped`. -/
def lowlevelWriter.FramingType {ω : Type} : lowlevelWriter ω → FramingType
  | lowlevelWriter.delegating _ w => w.FramingTyped
  | lowlevelWriter.single _ framingType _ => framingType
  | lowlevelWriter.err ew _ => ew.FramingTyped

/-- `Close` of the writer the factory built, by its dynamic type
(writer_delegate.go:32, single.go:76, reader_factory.go:88). -/
def lowlevelWriter.Close {ω : Type} : lowlevelWriter ω → lowlevelWriter ω × Option Err
  | lowlevelWriter.delegating cw w =>
    (lowlevelWriter.delegating cw (delegatingWriter.Close cw w).1, (delegatingWriter.Close cw w).2)
  | lowlevelWriter.single cw framingType w =>
    (lowlevelWriter.single cw framingType { w with w := (cw.Close w.w).1 }, (cw.Close w.w).2)
  | lowlevelWriter.err ew given => (lowlevelWriter.err (errWriter.Close ew).1 given, none)

/-- The state of the content writer beneath the writer the factory built. -/
def lowlevelWriter.content {ω : Type} : lowlevelWriter ω → ω
  | lowlevelWriter.delegating _ w => w.w
  | lowlevelWriter.single _ _ w => w.w
  | lowlevelWriter.err _ given => given

/-- The writers the factory builds as implementations of the `Writer`
interface. -/
def factoryWriter (ω : Type) : Writer (lowlevelWriter ω) where
  WriteFrame := lowlevelWriter.WriteFrame
  FramingType := lowlevelWriter.FramingType
  Close := lowlevelWriter.Close

/-- `DefaultFactory.NewWriter` (writer_factory.go:11-16) for options that are
already built: the writer of `newFromContentWriter` inside a new high-level
writer. `san` is the initial state of the Sanitizer of the options. -/
def NewWriter {ω τ : Type} (FramingTypeYAML FramingTypeJSON : FramingType)
    (framingType : FramingType) (cw : IoWriter ω) (w : ω) (o : WriterOptions τ) (san : τ) :
    highlevelWriter (lowlevelWriter ω) τ :=
  newHighlevelWriter (newFromContentWriter FramingTypeYAML FramingTypeJSON framingType cw w o) san

/-! ## utils.go: frame lists -/

/-- The frame `Reader` interface (`ReadFrame`, `FramingType`, `Close`) over the
implementation's state `κ`. -/
structure Reader (κ : Type) where
  ReadFrame : κ → κ × Bytes × Option Err
  FramingType : κ → FramingType
  Close : κ → κ × Option Err

/-- `errors.Is(err, io.EOF)` for a possibly nil error. -/
def isEOF : Option Err → Bool
  | some e => errorsIs e Err.EOF
  | none => false

/-- The loop of `ReadFrameList` (utils.go:16-29); `frameList` is the list read
so far. The loop runs until a call returns an error, hence the fuel: `none` is
a run that has not stopped within `fuel` calls of `ReadFrame`. -/
def ReadFrameList.loop {κ : Type} (fr : Reader κ) :
    Nat → κ → List Bytes → Option (κ × List Bytes × Option Err)
  | 0, _, _ => none
  | fuel + 1, s, frameList =>
    -- Read until we get io.EOF or an error
    match fr.ReadFrame s with
    | (s1, frame, err) =>
      if isEOF err then
        some (s1, frameList, none)
      else
        match err with
        | some e => some (s1, [], some e)
        -- Append all frames to the returned list
        | none => ReadFrameList.loop fr fuel s1 (frameList ++ [frame])

/-- `ReadFrameList` (utils.go:14-30). -/
def ReadFrameList {κ : Type} (fr : Reader κ) (fuel : Nat) (s : κ) :
    Option (κ × List Bytes × Option Err) :=
  ReadFrameList.loop fr fuel s []

/-- The results of `n` successive `ReadFrame` calls on a reader, in call
order. -/
def Reader.readCalls {κ : Type} (fr : Reader κ) : Nat → κ → List (Bytes × Option Err)
  | 0, _ => []
  | n + 1, s => (fr.ReadFrame s).2 :: Reader.readCalls fr n (fr.ReadFrame s).1

/-- The state of a reader after `n` successive `ReadFrame` calls. -/
def Reader.afterCalls {κ : Type} (fr : Reader κ) : Nat → κ → κ
  | 0, s => s
  | n + 1, s => Reader.afterCalls fr n (fr.ReadFrame s).1

/-- `WriteFrameList` (utils.go:32-42). -/
def WriteFrameList {σ : Type} (fw : Writer σ) : σ → List Bytes → σ × Option Err
  | s, [] => (s, none)
  -- Loop all frames in the list, and write them individually to the Writer
  | s, frame :: rest =>
    match fw.WriteFrame s frame with
    | (s1, some err) => (s1, some err)
    | (s1, none) => WriteFrameList fw s1 rest

/-! ## content/metadata.go: Metadata

`contentMetadata` embeds a `textproto.MIMEHeader`, a Go `map[string][]string`.
A Go string is a byte sequence. A `[]string` value is a slice header that
points into a backing array; two maps can hold slice headers that point into
the same array, so the backing arrays live in a heap that the operations take
and return. -/

/-- A Go `[]string` value: the backing array it points into, its length and
its capacity. -/
structure StringSlice where
  array : Nat
  len : Nat
  cap : Nat
  deriving DecidableEq

/-- The heap of backing arrays of the `[]string` values: array `i` is
`heap[i]`, a list as long as the capacity of the array. -/
abbrev Heap := List (List Bytes)

/-- The nil slice, the zero value that indexing a map with an absent key
gives. -/
def StringSlice.nil : StringSlice := { array := 0, len := 0, cap := 0 }

/-- The elements of a slice: the first `len` elements of its backing array. -/
def StringSlice.values (h : Heap) (s : StringSlice) : List Bytes :=
  (h.getD s.array []).take s.len

/-- Go's `append(s, v)`: with spare capacity the element is stored into the
backing array behind the last element; otherwise the elements are copied
with `v` into a new array, whose capacity `grow cap` (at least `len + 1`) is
chosen by the Go runtime. -/
def appendString (grow : Nat → Nat) (h : Heap) (s : StringSlice) (v : Bytes) :
    Heap × StringSlice :=
  if s.len < s.cap then
    (h.set s.array ((h.getD s.array []).set s.len v), { s with len := s.len + 1 })
  else
    (h ++ [s.values h ++ v :: List.replicate (grow s.cap - (s.len + 1)) []],
      { array := h.length, len := s.len + 1, cap := max (grow s.cap) (s.len + 1) })

/-- The capacities the Go runtime (`growslice`) picks when `append` adds one
string to a full slice of fewer than 256 elements: 1 for an empty slice,
otherwise twice the old capacity. -/
def growslice (cap : Nat) : Nat := if cap = 0 then 1 else 2 * cap

/-- A `textproto.MIMEHeader`: the entries of the map, one per key. -/
structure MIMEHeader where
  entries : List (Bytes × StringSlice)
  deriving DecidableEq

/-- `m[key]` on a Go map: the nil slice when the key is absent. -/
def mapIndex : List (Bytes × StringSlice) → Bytes → StringSlice
  | [], _ => StringSlice.nil
  | (k, v) :: rest, key => if k = key then v else mapIndex rest key

/-- `m[key] = v` on a Go map. -/
def mapAssign : List (Bytes × StringSlice) → Bytes → StringSlice → List (Bytes × StringSlice)
  | [], key, v => [(key, v)]
  | (k, x) :: rest, key, v =>
    if k = key then (k, v) :: rest else (k, x) :: mapAssign rest key v

/-- `delete(m, key)` on a Go map. -/
def mapDelete : List (Bytes × StringSlice) → Bytes → List (Bytes × StringSlice)
  | [], _ => []
  | (k, x) :: rest, key =>
    if k = key then mapDelete rest key else (k, x) :: mapDelete rest key

/-- `validHeaderFieldByte` of net/textproto (Go standard library): the token
characters of RFC 7230, that is letters, digits and
`! # $ % & ' * + - . ^ _ backquote | ~`. -/
def validHeaderFieldByte (c : UInt8) : Bool :=
  (48 ≤ c && c ≤ 57) || (65 ≤ c && c ≤ 90) || (97 ≤ c && c ≤ 122)
    || c = 33 || c = 35 || c = 36 || c = 37 || c = 38 || c = 39 || c = 42 || c = 43
    || c = 45 || c = 46 || c = 94 || c = 95 || c = 96 || c = 124 || c = 126

/-- One step of the canonicalisation loop of net/textproto: a letter is made
upper case at the start and after a hyphen and lower case elsewhere. -/
def canonicalByte (upper : Bool) (c : UInt8) : UInt8 :=
  if upper && (97 ≤ c && c ≤ 122) then c - 32
  else if !upper && (65 ≤ c && c ≤ 90) then c + 32
  else c

/-- The canonicalisation loop of net/textproto; `upper` says whether the next
byte follows a hyphen (or starts the key). -/
def canonicalMIMEHeaderKey : Bool → Bytes → Bytes
  | _, [] => []
  | upper, c :: rest =>
    canonicalByte upper c :: canonicalMIMEHeaderKey (canonicalByte upper c = 45) rest

/-- `textproto.CanonicalMIMEHeaderKey` (Go standard library): the first letter
and any letter following a hyphen in upper case, the rest in lower case; a key
that contains a space or another byte that is not a valid header field byte
is returned without modifications. -/
def CanonicalMIMEHeaderKey (s : Bytes) : Bytes :=
  if s.all validHeaderFieldByte then canonicalMIMEHeaderKey true s else s

/-- `MIMEHeader.Add` (net/textproto): `h[key] = append(h[key], value)` for the
canonical key. -/
def MIMEHeader.Add (grow : Nat → Nat) (h : Heap) (m : MIMEHeader) (key value : Bytes) :
    Heap × MIMEHeader :=
  ((appendString grow h (mapIndex m.entries (CanonicalMIMEHeaderKey key)) value).1,
    { entries := mapAssign m.entries (CanonicalMIMEHeaderKey key)
        (appendString grow h (mapIndex m.entries (CanonicalMIMEHeaderKey key)) value).2 })

/-- `MIMEHeader.Set` (net/textproto): `h[key] = []string{value}` for the
canonical key; the slice literal is a new array of one element. -/
def MIMEHeader.Set (h : Heap) (m : MIMEHeader) (key value : Bytes) : Heap × MIMEHeader :=
  (h ++ [[value]],
    { entries := mapAssign m.entries (CanonicalMIMEHeaderKey key)
        { array := h.length, len := 1, cap := 1 } })

/-- `MIMEHeader.Values` (net/textproto): all values of the canonical key. -/
def MIMEHeader.Values (h : Heap) (m : MIMEHeader) (key : Bytes) : List Bytes :=
  (mapIndex m.entries (CanonicalMIMEHeaderKey key)).values h

/-- `MIMEHeader.Get` (net/textproto): the first value of the canonical key,
the empty string when there is none. -/
def MIMEHeader.Get (h : Heap) (m : MIMEHeader) (key : Bytes) : Bytes :=
  match (mapIndex m.entries (CanonicalMIMEHeaderKey key)).values h with
  | [] => []
  | v :: _ => v

/-- `MIMEHeader.Del` (net/textproto): delete the canonical key. -/
def MIMEHeader.Del (m : MIMEHeader) (key : Bytes) : MIMEHeader :=
  { entries := mapDelete m.entries (CanonicalMIMEHeaderKey key) }

/-- The loop of `strconv.ParseUint(s, 10, 64)` (Go standard library) on the
bytes that are left, with `n` the `uint64` value so far; `none` is an error
(a byte that is not a digit, or a value that does not fit `uint64`). -/
def ParseUint.loop : Bytes → Nat → Option Nat
  | [], n => some n
  | c :: rest, n =>
    if 48 ≤ c.toNat ∧ c.toNat ≤ 57 then
      -- n*base overflows
      if n ≥ 1844674407370955162 then none
      -- n+d overflows
      else if (n * 10 + (c.toNat - 48)) % 2 ^ 64 < n * 10 then none
      else ParseUint.loop rest ((n * 10 + (c.toNat - 48)) % 2 ^ 64)
    else none

/-- `strconv.ParseUint(s, 10, 64)`; `none` is an error. -/
def ParseUint (s : Bytes) : Option Nat :=
  if s.length = 0 then none else ParseUint.loop s 0

/-- `strconv.ParseInt(s, 10, 64)` (Go standard library); `none` is an error:
the empty string, a syntax error, or a value out of the range of `int64`. -/
def ParseInt (s : Bytes) : Option Int :=
  match s with
  | [] => none
  | c :: rest =>
    -- Pick off leading sign.
    let neg : Bool := decide (c = 45)
    let body : Bytes := if c = 43 ∨ c = 45 then rest else c :: rest
    -- Convert unsigned and check range.
    match ParseUint body with
    | none => none
    | some un =>
      if neg = false ∧ un ≥ 2 ^ 63 then none
      else if neg = true ∧ un > 2 ^ 63 then none
      else some (if neg then wrapInt64 (-(wrapInt64 (un : Int))) else wrapInt64 (un : Int))

/-- The number that a string of decimal digits denotes. -/
def decimalValue (digits : Bytes) : Nat :=
  digits.foldl (fun n c => n * 10 + (c.toNat - 48)) 0

/-- The integer that a base-10 `int64` literal denotes: an optional sign `+`
or `-`, then one or more decimal digits, with a value in the range of
`int64`; `none` for every other string. -/
def int64Literal (s : Bytes) : Option Int :=
  match s with
  | [] => none
  | c :: rest =>
    let digits : Bytes := if c = 43 ∨ c = 45 then rest else c :: rest
    if digits.length ≠ 0 ∧ digits.all (fun d => decide (48 ≤ d.toNat ∧ d.toNat ≤ 57)) then
      if c = 45 then
        if decimalValue digits ≤ 2 ^ 63 then some (-(decimalValue digits : Int)) else none
      else
        if decimalValue digits < 2 ^ 63 then some (decimalValue digits : Int) else none
    else none

/-- The key `X-Content-Location` (metadata.go:17). -/
def XContentLocationKey : Bytes := ascii "X-Content-Location"

/-- The key `X-Framing-Type` (metadata.go:18). -/
def XFramingTypeKey : Bytes := ascii "X-Framing-Type"

/-- The key `Content-Length` (metadata.go:20). -/
def ContentLengthKey : Bytes := ascii "Content-Length"

/-- The key `Content-Type` (metadata.go:21). -/
def ContentTypeKey : Bytes := ascii "Content-Type"

/-- A `contentMetadata` value (metadata.go:44-46): the embedded header map. -/
structure contentMetadata where
  MIMEHeader : MIMEHeader
  deriving DecidableEq

/-- `SetMIMEHeaderOption` (metadata.go:30-34). -/
structure SetMIMEHeaderOption where
  Key : Bytes
  Value : Bytes
  deriving DecidableEq

/-- `contentMetadata.ApplyOptions` (metadata.go:85-90) for options of the type
`SetMIMEHeaderOption`, each of which calls `Set`. -/
def contentMetadata.ApplyOptions (h : Heap) (m : contentMetadata) :
    List SetMIMEHeaderOption → Heap × contentMetadata
  | [] => (h, m)
  | opt :: opts =>
    contentMetadata.ApplyOptions (MIMEHeader.Set h m.MIMEHeader opt.Key opt.Value).1
      { MIMEHeader := (MIMEHeader.Set h m.MIMEHeader opt.Key opt.Value).2 } opts

/-- `NewMetadata` (metadata.go:36-42): an empty header with the options
applied. -/
def NewMetadata (h : Heap) (opts : List SetMIMEHeaderOption) : Heap × contentMetadata :=
  contentMetadata.ApplyOptions h { MIMEHeader := { entries := [] } } opts

/-- `contentMetadata.GetString` (metadata.go:92-97). -/
def contentMetadata.GetString (h : Heap) (m : contentMetadata) (key : Bytes) : Bytes × Bool :=
  if (MIMEHeader.Values h m.MIMEHeader key).length = 0 then
    ([], false)
  else
    (MIMEHeader.Get h m.MIMEHeader key, true)

/-- `contentMetadata.GetInt64` (metadata.go:99-105). -/
def contentMetadata.GetInt64 (h : Heap) (m : contentMetadata) (key : Bytes) : Int × Bool :=
  match ParseInt (MIMEHeader.Get h m.MIMEHeader key) with
  | none => (0, false)
  | some i => (i, true)

/-- `contentMetadata.GetURL` (metadata.go:107-117); `urlParse` is Go's
`url.Parse` with `none` for an error, and `none` is the result `(nil, false)`. -/
def contentMetadata.GetURL {U : Type} (urlParse : Bytes → Option U) (h : Heap)
    (m : contentMetadata) (key : Bytes) : Option U :=
  match contentMetadata.GetString h m key with
  | (_, false) => none
  | (str, true) =>
    match urlParse str with
    | none => none
    | some u => some u

/-- `contentMetadata.ContentLength` (metadata.go:119-121). -/
def contentMetadata.ContentLength (h : Heap) (m : contentMetadata) : Int × Bool :=
  contentMetadata.GetInt64 h m ContentLengthKey

/-- `contentMetadata.ContentType` (metadata.go:123-125). -/
def contentMetadata.ContentType (h : Heap) (m : contentMetadata) : Bytes × Bool :=
  contentMetadata.GetString h m ContentTypeKey

/-- `contentMetadata.FramingType` (metadata.go:127-129). -/
def contentMetadata.FramingType (h : Heap) (m : contentMetadata) : Bytes × Bool :=
  contentMetadata.GetString h m XFramingTypeKey

/-- `contentMetadata.ContentLocation` (metadata.go:131-133). -/
def contentMetadata.ContentLocation {U : Type} (urlParse : Bytes → Option U) (h : Heap)
    (m : contentMetadata) : Option U :=
  contentMetadata.GetURL urlParse h m XContentLocationKey

/-- `contentMetadata.Clone` (metadata.go:135-141): a new map that is assigned
every entry of the old one, the slice header of the values as it is. -/
def contentMetadata.Clone (m : contentMetadata) : contentMetadata :=
  { MIMEHeader :=
      { entries := m.MIMEHeader.entries.foldl (fun m2 e => mapAssign m2 e.1 e.2) [] } }

/-- ASCII lower case of a byte. -/
def lowerASCII (c : UInt8) : UInt8 := if 65 ≤ c ∧ c ≤ 90 then c + 32 else c

/-- Two keys differ only in letter case. -/
def sameUpToCase (k1 k2 : Bytes) : Prop := k1.map lowerASCII = k2.map lowerASCII

instance (k1 k2 : Bytes) : Decidable (sameUpToCase k1 k2) := by
  unfold sameUpToCase; infer_instance

/-! ## Further methods of the readers and writers -/

/-- What the segment reader returned in each of `n` successive `ReadFrame`
calls of a `yamlReader`, in call order. -/
def yamlReader.segmentCalls {κ : Type} (r : yamlReader κ) : Nat → κ → List (Bytes × Option Err)
  | 0, _ => []
  | n + 1, s => (r.cr.Read s).2 :: yamlReader.segmentCalls r n (yamlReader.ReadFrame r s).1

/-- `yamlReader.Close` (reader_yaml.go:82): the close of the segment reader. -/
def yamlReader.Close {κ : Type} (r : yamlReader κ) (s : κ) : κ × Option Err :=
  r.cr.Close s

/-- A `*yamlReader` as an implementation of the frame `Reader` interface;
`FramingType()` is the constant `FramingTypeYAML` (reader_yaml.go:81). -/
def yamlReader.asReader {κ : Type} (FramingTypeYAML : FramingType) (r : yamlReader κ) :
    Reader κ where
  ReadFrame := yamlReader.ReadFrame r
  FramingType := fun _ => FramingTypeYAML
  Close := yamlReader.Close r

/-- Go's `bytes.Buffer` as a content writer (standard library): `Write`
appends all of `p` and returns `len(p)` and no error; the state is the
content of the buffer. -/
def bytesBuffer : IoWriter Bytes where
  Write := fun buf p => (buf ++ p, (p.length : Int), none)
  Close := fun buf => (buf, none)

/-- `singleReader.Close` (single.go:48) over the content stream `rd`. -/
def singleReader.Close {ρ : Type} (rd : IoReader ρ) (r : singleReader ρ) :
    singleReader ρ × Option Err :=
  ({ r with r := (rd.Close r.r).1 }, (rd.Close r.r).2)

/-- `singleWriter.Close` (single.go:76) over the content writer `cw`. -/
def singleWriter.Close {ω : Type} (cw : IoWriter ω) (w : singleWriter ω) :
    singleWriter ω × Option Err :=
  ({ w with w := (cw.Close w.w).1 }, (cw.Close w.w).2)

/-- `streamingReader.Close` (reader_streaming.go:55). -/
def streamingReader.Close {κ : Type} (r : streamingReader κ) (s : κ) : κ × Option Err :=
  r.streamReader.Close s

/-- `highlevelWriter.Close` (writer.go:69-71) with `closeWithTrace`
(tracing.go:10-14): the `Close` of the low-level writer inside a span. -/
def highlevelWriter.Close {σ τ : Type} (wr : Writer σ) (w : highlevelWriter σ τ) :
    highlevelWriter σ τ × Option Err :=
  ({ w with writer := (wr.Close w.writer).1 }, traceRegister (wr.Close w.writer).2)

/-! ## content/reader.go and content/writer.go: content streams

reader.go and writer.go declare the same layer twice: around an `io.Reader`
(`reader`, `readContextLockImpl`, `readerWithContext`) and around an
`io.Writer` (`writer`, `writeContextLockImpl`, `writerWithContext`); both use
`closeContextLockImpl` and `closerWithContext`. The embedding declares the
layer once, over the type `Q` of what the raw call is given and the type `R`
of what it returns: for a reader `Q` is the length of `p` and `R` the bytes
read with the error, for a writer `Q` is `p` and `R` the count with the error.
An execution context is a value of a type `χ`; the nil context is `none`. -/

/-- `contextLockImpl` (reader.go:19-21): the field `ctx`. -/
structure content.contextLockImpl (χ : Type) where
  ctx : Option χ
  deriving DecidableEq

/-- `contextLockImpl.setContext` (reader.go:23). -/
def content.contextLockImpl.setContext {χ : Type} (_l : content.contextLockImpl χ) (ctx : χ) :
    content.contextLockImpl χ :=
  { ctx := some ctx }

/-- `contextLockImpl.clearContext` (reader.go:24). -/
def content.contextLockImpl.clearContext {χ : Type} (_l : content.contextLockImpl χ) :
    content.contextLockImpl χ :=
  { ctx := none }

/-- The `io.Reader` or `io.Writer` that `NewReader` or `NewWriter` is given,
over its state `ρ`: `call` is its `Read` or `Write`, `Closer` its `Close` when
the value is an `io.Closer` as well (`c, _ := r.(io.Closer)`), and `isStdio`
says whether it is one of the three standard streams (reader.go:213-219). -/
structure content.RawStream (Q R ρ : Type) where
  call : ρ → Q → ρ × R
  Closer : Option (ρ → ρ × Option Err)
  isStdio : Bool

/-- The mutable state of a `*reader` (reader.go:83-87) or `*writer`
(writer.go:53-57): the bound Metadata, the `ctx` field of its `read` (or
`write`) lock, the `ctx` field of its `close` lock, and the state `inner` of
what the two locks point to (`read.r`, `close.c`). -/
structure content.stream (χ ι : Type) where
  MetadataBound : contentMetadata
  read : content.contextLockImpl χ
  close : content.contextLockImpl χ
  inner : ι
  deriving DecidableEq

/-- The methods of a content stream with state `S`, as the layer above it
and the handles of `WithContext` use them: `call` is `read.Read(p)` or
`write.Write(p)`, `Close` is `close.Close()`, `setContext` assigns the `ctx`
field of the `read` (or `write`) lock and `setCloseContext` that of the
`close` lock (`none` for `clearContext`). The last three fields read the
state: the `ctx` of the two locks of this layer and, top first, those of all
the layers beneath it. -/
structure content.Layer (χ Q R S : Type) where
  call : S → Q → S × R
  Close : S → S × Option Err
  setContext : Option χ → S → S
  setCloseContext : Option χ → S → S
  ContentMetadata : S → contentMetadata
  ctx : S → Option χ
  closeCtx : S → Option χ
  below : S → List (Option χ)

/-- The `ctx` fields of all locks of a stream: the two of the top layer, then
those of the layers beneath. -/
def content.Layer.contexts {χ Q R S : Type} (L : content.Layer χ Q R S) (s : S) :
    List (Option χ) :=
  L.ctx s :: L.closeCtx s :: L.below s

/-- What a call of the value that a `WrapReaderFunc` or `WrapWriterFunc`
returned does with the `underlying` stream it was given: it returns, or it
calls `Read` (or `Write`) of the underlying stream and goes on with the
result, or it calls `Close` of the underlying stream and goes on with the
result. -/
inductive content.Calls (Q R α : Type) where
  | ret (a : α)
  | call (q : Q) (k : R → content.Calls Q R α)
  | close (k : Option Err → content.Calls Q R α)

/-- Running the calls of a wrap result against the underlying stream. -/
def content.Calls.run {Q R α S : Type} (call : S → Q → S × R) (close : S → S × Option Err) :
    content.Calls Q R α → S → S × α
  | content.Calls.ret a, s => (s, a)
  | content.Calls.call q k, s => content.Calls.run call close (k (call s q).2) (call s q).1
  | content.Calls.close k, s => content.Calls.run call close (k (close s).2) (close s).1

/-- The value a `WrapReaderFunc` or `WrapWriterFunc` returned (interfaces.go:8-14),
with its own state `ω`: its `Read` or `Write`, and its `Close` when the value
is an `io.Closer` as well. A nil value makes `Wrap` panic (reader.go:122-124)
and is not a `WrapResult`. -/
structure content.WrapResult (Q R ω : Type) where
  call : ω → Q → content.Calls Q R (ω × R)
  Closer : Option (ω → content.Calls Q R (ω × Option Err))

/-- `readContextLockImpl.Read` (reader.go:33-49) and
`writeContextLockImpl.Write` (writer.go:115-132). `child` is the context that
`TraceFunc` hands to the traced function for the context of the lock
(pkg/tracing is not among the sources); `underlyingLock` assigns the `ctx`
field of the lock beneath and is `none` when `r.underlyingLock` is nil; `r` is
`r.r.Read` (or `r.w.Write`). -/
def content.readContextLockImpl.Read {χ Q R ι : Type} (child : Option χ → χ)
    (underlyingLock : Option (Option χ → ι → ι)) (r : ι → Q → ι × R)
    (s : content.stream χ ι) (p : Q) : content.stream χ ι × R :=
  match underlyingLock with
  | none => ({ s with inner := (r s.inner p).1 }, (r s.inner p).2)
  | some setContext =>
    ({ s with inner := setContext none (r (setContext (some (child s.read.ctx)) s.inner) p).1 },
      (r (setContext (some (child s.read.ctx)) s.inner) p).2)

/-- `closeContextLockImpl.Close` (reader.go:58-81). `c` is `c.c.Close`, and
`none` when `c.c` is nil. -/
def content.closeContextLockImpl.Close {χ ι : Type} (child : Option χ → χ)
    (c : Option (ι → ι × Option Err)) (underlyingLock : Option (Option χ → ι → ι))
    (s : content.stream χ ι) : content.stream χ ι × Option Err :=
  match c with
  -- Don't close if c.c is nil
  | none => (s, traceRegister none)
  | some close =>
    match underlyingLock with
    | none =>
      -- Close the underlying resource
      ({ s with inner := (close s.inner).1 }, traceRegister (close s.inner).2)
    | some setContext =>
      ({ s with
          inner := setContext none (close (setContext (some (child s.close.ctx)) s.inner)).1 },
        traceRegister (close (setContext (some (child s.close.ctx)) s.inner)).2)

/-- The methods of the `*reader` that `NewReader` (reader.go:183-211) makes
for a value that is not a `Reader` already, and of the `*writer` that
`NewWriter` (writer.go:23-51) makes: the closer is used if available, but
never for stdio, and there is no underlying lock. -/
def content.reader.methods {χ Q R ρ : Type} (child : Option χ → χ)
    (raw : content.RawStream Q R ρ) : content.Layer χ Q R (content.stream χ ρ) where
  call := content.readContextLockImpl.Read child none raw.call
  Close :=
    content.closeContextLockImpl.Close child (if raw.isStdio then none else raw.Closer) none
  setContext := fun c s => { s with read := { ctx := c } }
  setCloseContext := fun c s => { s with close := { ctx := c } }
  ContentMetadata := fun s => s.MetadataBound
  ctx := fun s => s.read.ctx
  closeCtx := fun s => s.close.ctx
  below := fun _ => []

/-- The state of the `*reader` that `NewReader` (reader.go:183-211) makes
around a raw stream in the state `r`, and of the `*writer` of `NewWriter`
(writer.go:23-51): the Metadata is that of the options, no context is set. -/
def content.NewReader {χ ρ : Type} (h : Heap) (opts : List SetMIMEHeaderOption) (r : ρ) :
    Heap × content.stream χ ρ :=
  ((NewMetadata h opts).1,
    { MetadataBound := (NewMetadata h opts).2, read := { ctx := none }, close := { ctx := none },
      inner := r })

/-- The methods of the `*reader` that `reader.Wrap` (reader.go:120-149)
returns, and of the `*writer` of `writer.Wrap` (writer.go:65-94). `U` is the
wrapped stream, `T` the value the wrap function returned for
`IoReadCloser{r.read, r.close}`. The new closer is that of `T` if `T` is an
`io.Closer`, and `r.close` otherwise; the underlying locks are `r.read` and
`r.close`. The state `inner` pairs the state of `T` with that of the wrapped
stream. -/
def content.reader.Wrap.methods {χ Q R S ω : Type} (child : Option χ → χ)
    (U : content.Layer χ Q R S) (T : content.WrapResult Q R ω) :
    content.Layer χ Q R (content.stream χ (ω × S)) where
  call :=
    content.readContextLockImpl.Read child (some (fun c i => (i.1, U.setContext c i.2)))
      (fun i p =>
        (((content.Calls.run U.call U.Close (T.call i.1 p) i.2).2.1,
          (content.Calls.run U.call U.Close (T.call i.1 p) i.2).1),
          (content.Calls.run U.call U.Close (T.call i.1 p) i.2).2.2))
  Close :=
    content.closeContextLockImpl.Close child
      (some
        (match T.Closer with
        | some newCloser =>
          fun i =>
            (((content.Calls.run U.call U.Close (newCloser i.1) i.2).2.1,
              (content.Calls.run U.call U.Close (newCloser i.1) i.2).1),
              (content.Calls.run U.call U.Close (newCloser i.1) i.2).2.2)
        -- If an io.Closer is not returned, close this Reader's stream instead.
        | none => fun i => ((i.1, (U.Close i.2).1), (U.Close i.2).2)))
      (some (fun c i => (i.1, U.setCloseContext c i.2)))
  setContext := fun c s => { s with read := { ctx := c } }
  setCloseContext := fun c s => { s with close := { ctx := c } }
  ContentMetadata := fun s => s.MetadataBound
  ctx := fun s => s.read.ctx
  closeCtx := fun s => s.close.ctx
  below := fun s => U.ctx s.inner.2 :: U.closeCtx s.inner.2 :: U.below s.inner.2

/-- The state of the `*reader` that `reader.Wrap` (reader.go:120-149) returns
(and of the `*writer` of `writer.Wrap`): a clone of the Metadata of the
wrapped stream, no context set, the wrap result in its initial state `own`
over the wrapped stream in its state `s`. -/
def content.reader.Wrap {χ Q R S ω : Type} (U : content.Layer χ Q R S) (own : ω) (s : S) :
    content.stream χ (ω × S) :=
  { MetadataBound := contentMetadata.Clone (U.ContentMetadata s), read := { ctx := none },
    close := { ctx := none }, inner := (own, s) }

/-- `readerWithContext.Read` (reader.go:94-99) and `writerWithContext.Write`
(writer.go:101-106). -/
def content.readerWithContext.Read {χ Q R S : Type} (L : content.Layer χ Q R S) (ctx : χ)
    (s : S) (p : Q) : S × R :=
  (L.setContext none (L.call (L.setContext (some ctx) s) p).1,
    (L.call (L.setContext (some ctx) s) p).2)

/-- `closerWithContext.Close` (reader.go:106-111). -/
def content.closerWithContext.Close {χ Q R S : Type} (L : content.Layer χ Q R S) (ctx : χ)
    (s : S) : S × Option Err :=
  (L.setCloseContext none (L.Close (L.setCloseContext (some ctx) s)).1,
    (L.Close (L.setCloseContext (some ctx) s)).2)

/-- `reader.WithContext` (reader.go:113-115): the `io.ReadCloser` bound to a
context. -/
def content.reader.WithContext {χ S : Type} (L : content.Layer χ Nat (Bytes × Option Err) S)
    (ctx : χ) : IoReader S where
  Read := content.readerWithContext.Read L ctx
  Close := content.closerWithContext.Close L ctx

/-- `writer.WithContext` (writer.go:59-61): the `io.WriteCloser` bound to a
context. -/
def content.writer.WithContext {χ S : Type} (L : content.Layer χ Bytes (Int × Option Err) S)
    (ctx : χ) : IoWriter S where
  Write := content.readerWithContext.Read L ctx
  Close := content.closerWithContext.Close L ctx

/-- The streams that `NewReader` or `NewWriter` and any number of `Wrap`
calls build. -/
inductive content.IsStream {χ Q R : Type} (child : Option χ → χ) :
    {S : Type} → content.Layer χ Q R S → Prop where
  | base {ρ : Type} (raw : content.RawStream Q R ρ) :
    content.IsStream child (content.reader.methods child raw)
  | wrap {S ω : Type} (U : content.Layer χ Q R S) (T : content.WrapResult Q R ω) :
    content.IsStream child U → content.IsStream child (content.reader.Wrap.methods child U T)

/-- The streams that `NewReader` or `NewWriter` builds around the raw stream
`raw` and any number of `Wrap` calls whose results are no `io.Closer`; `proj`
reads the state of the raw stream at the bottom out of the state of the
stream. -/
inductive content.NonClosingOver {χ Q R ρ : Type} (child : Option χ → χ)
    (raw : content.RawStream Q R ρ) : {S : Type} → content.Layer χ Q R S → (S → ρ) → Prop where
  | base : content.NonClosingOver child raw (content.reader.methods child raw) (fun s => s.inner)
  | wrap {S ω : Type} (U : content.Layer χ Q R S) (proj : S → ρ)
      (T : content.WrapResult Q R ω) :
    content.NonClosingOver child raw U proj → T.Closer = none →
    content.NonClosingOver child raw (content.reader.Wrap.methods child U T)
      (fun s => proj s.inner.2)

/-- What closing the raw stream of `NewReader` or `NewWriter` does to the
state of the raw stream and returns: nothing and nil when the raw stream has
no closer or is one of the standard streams. -/
def content.RawStream.close {Q R ρ : Type} (raw : content.RawStream Q R ρ) (r : ρ) :
    ρ × Option Err :=
  match (if raw.isStdio then none else raw.Closer) with
  | none => (r, none)
  | some c => c r

/-- The laws of the methods of a stream about the `ctx` fields: an assignment
changes the one field it assigns, and a `Read`, `Write` or `Close` changes
neither `ctx` field of the layer and leaves the fields beneath nil when they
were nil. -/
structure content.Layer.Scoped {χ Q R S : Type} (L : content.Layer χ Q R S) : Prop where
  ctx_setContext : ∀ c s, L.ctx (L.setContext c s) = c
  closeCtx_setContext : ∀ c s, L.closeCtx (L.setContext c s) = L.closeCtx s
  below_setContext : ∀ c s, L.below (L.setContext c s) = L.below s
  ctx_setCloseContext : ∀ c s, L.ctx (L.setCloseContext c s) = L.ctx s
  closeCtx_setCloseContext : ∀ c s, L.closeCtx (L.setCloseContext c s) = c
  below_setCloseContext : ∀ c s, L.below (L.setCloseContext c s) = L.below s
  ctx_call : ∀ s q, L.ctx (L.call s q).1 = L.ctx s
  closeCtx_call : ∀ s q, L.closeCtx (L.call s q).1 = L.closeCtx s
  below_call : ∀ s q, (∀ c ∈ L.below s, c = none) → ∀ c ∈ L.below (L.call s q).1, c = none
  ctx_Close : ∀ s, L.ctx (L.Close s).1 = L.ctx s
  closeCtx_Close : ∀ s, L.closeCtx (L.Close s).1 = L.closeCtx s
  below_Close : ∀ s, (∀ c ∈ L.below s, c = none) → ∀ c ∈ L.below (L.Close s).1, c = none

/-- The frame writer of `json.YAMLFramer.NewFrameWriter` (k8s.io/apimachinery)
as the value that the wrap function of `newFromContentWriter` returns
(writer_factory.go:21-23): `Write` writes the separator line `---\n` to the
underlying stream and then the data; it is no `io.Closer`. -/
def yamlFramer : content.WrapResult Bytes (Int × Option Err) Unit where
  call := fun _ data =>
    content.Calls.call (ascii "---\n") (fun r =>
      match r.2 with
      | some err => content.Calls.ret ((), (0, some err))
      | none => content.Calls.call data (fun r2 => content.Calls.ret ((), r2)))
  Closer := none

/-! ## content/constructors.go: content sources -/

/-- The ASCII digit of a number below ten. -/
def digitByte (d : Nat) : UInt8 := (48 + d).toUInt8

/-- The loop of `formatBits` for base 10 (Go standard library, strconv): two
digits at a time while the value is at least 100, then the one or two digits
that are left, each put in front of the digits made so far. The loop ends
after at most ten rounds for a `uint64`; `fuel` bounds the rounds. -/
def formatBits.loop : Nat → Nat → Bytes → Bytes
  | 0, _, a => a
  | fuel + 1, us, a =>
    if us ≥ 100 then
      formatBits.loop fuel (us / 100) (digitByte (us % 100 / 10) :: digitByte (us % 10) :: a)
    else if us ≥ 10 then
      digitByte (us / 10) :: digitByte (us % 10) :: a
    else
      digitByte us :: a

/-- `strconv.FormatInt(i, 10)` (Go standard library) for an `int64`: the
decimal digits of the magnitude, most significant first, with `-` in front
for a negative value. -/
def FormatInt (i : Int) : Bytes :=
  if i < 0 then 45 :: formatBits.loop 11 ((-i).toNat % 2 ^ 64) []
  else formatBits.loop 11 (i.toNat % 2 ^ 64) []

/-- `setContentLength` (constructors.go:78-80). -/
def content.setContentLength (len : Int) : SetMIMEHeaderOption :=
  { Key := ContentLengthKey, Value := FormatInt len }

/-- The constant `stdinPath` (constructors.go:18). -/
def content.stdinPath : Bytes := ascii "/dev/stdin"

/-- The raw stream inside the Reader that a constructor of constructors.go
returns: `os.Stdin`, an opened file, `iotest.ErrReader(err)`, or a
`bytes.Reader` or `strings.Reader` over a content. -/
inductive content.Source (F : Type) where
  | stdin
  | file (f : F)
  | errReader (err : Err)
  | bytes (data : Bytes)
  | string (data : Bytes)
  deriving DecidableEq

/-- The calls that `FromFile` makes to the operating system: `filepath.Abs`,
`os.Open`, and `f.Stat()` with `fi.Size()`; each returns a value or an
error. -/
structure content.FileSystem (F : Type) where
  Abs : Bytes → Except Err Bytes
  Open : Bytes → Except Err F
  Stat : F → Except Err Int

/-- `newErrReader` (constructors.go:13-15). -/
def content.newErrReader {χ F : Type} (h : Heap) (err : Err) (opts : List SetMIMEHeaderOption) :
    Heap × content.stream χ (content.Source F) :=
  content.NewReader h opts (content.Source.errReader err)

/-- `FromFile` (constructors.go:25-56). -/
def content.FromFile {χ F : Type} (fs : content.FileSystem F) (h : Heap) (filePath : Bytes)
    (opts : List SetMIMEHeaderOption) : Heap × content.stream χ (content.Source F) :=
  -- Support stdin
  if filePath = ascii "-" ∨ filePath = content.stdinPath then
    -- Mark the source as /dev/stdin
    content.NewReader h (opts ++ [⟨XContentLocationKey, content.stdinPath⟩]) content.Source.stdin
  else
    -- Make sure the path is absolute
    match fs.Abs filePath with
    | Except.error err => content.newErrReader h err opts
    | Except.ok filePath =>
      -- Open the file
      match fs.Open filePath with
      | Except.error err =>
        content.newErrReader h err (opts ++ [⟨XContentLocationKey, filePath⟩])
      | Except.ok f =>
        match fs.Stat f with
        | Except.error err =>
          content.newErrReader h err (opts ++ [⟨XContentLocationKey, filePath⟩])
        | Except.ok size =>
          -- Register the Content-Length header
          content.NewReader h
            ((opts ++ [⟨XContentLocationKey, filePath⟩]) ++ [content.setContentLength size])
            (content.Source.file f)

/-- `FromBytes` (constructors.go:59-64); `data` is the argument `content`, and
`int64(len(content))` is the length as an `int64`. -/
def content.FromBytes {χ F : Type} (h : Heap) (data : Bytes)
    (opts : List SetMIMEHeaderOption) : Heap × content.stream χ (content.Source F) :=
  content.NewReader h (opts ++ [content.setContentLength (wrapInt64 (data.length : Int))])
    (content.Source.bytes data)

/-- `FromString` (constructors.go:67-72); `data` is the argument `content`,
a Go string, as its bytes. -/
def content.FromString {χ F : Type} (h : Heap) (data : Bytes)
    (opts : List SetMIMEHeaderOption) : Heap × content.stream χ (content.Source F) :=
  content.NewReader h (opts ++ [content.setContentLength (wrapInt64 (data.length : Int))])
    (content.Source.string data)

/-! ## storage/filesystem/unstructured/recognizer.go and storage/core/objectid.go

Go strings are byte sequences, as for the Metadata. -/

/-- `metav1.PartialObjectMetadata` (k8s.io/apimachinery): the fields that the
recognizer reads, `.apiVersion`, `.kind`, `.metadata.namespace` and
`.metadata.name`. -/
structure PartialObjectMetadata where
  APIVersion : Bytes
  Kind : Bytes
  Namespace : Bytes
  Name : Bytes
  deriving DecidableEq

/-- `schema.GroupVersionKind` (k8s.io/apimachinery). -/
structure GroupVersionKind where
  Group : Bytes
  Version : Bytes
  Kind : Bytes
  deriving DecidableEq

/-- `schema.ParseGroupVersion` (k8s.io/apimachinery): the empty string and `/`
give the empty group and version; a string without `/` is a version of the
empty group; a string with one `/` is split at it into group and version; a
string with more than one `/` is an error (`none`). -/
def ParseGroupVersion (gv : Bytes) : Option (Bytes × Bytes) :=
  if gv.length = 0 ∨ gv = ascii "/" then some ([], [])
  else
    match gv.count 47 with
    | 0 => some ([], gv)
    | 1 => some (gv.takeWhile (fun c => c != 47), (gv.dropWhile (fun c => c != 47)).tail)
    | _ => none

/-- `schema.FromAPIVersionAndKind` (k8s.io/apimachinery): the parsed group and
version with the kind, and the kind alone when the apiVersion does not parse. -/
def FromAPIVersionAndKind (apiVersion kind : Bytes) : GroupVersionKind :=
  match ParseGroupVersion apiVersion with
  | some gv => { Group := gv.1, Version := gv.2, Kind := kind }
  | none => { Group := [], Version := [], Kind := kind }

/-- `metaObj.GroupVersionKind()` (k8s.io/apimachinery, `TypeMeta`). -/
def PartialObjectMetadata.GroupVersionKind (o : PartialObjectMetadata) : GroupVersionKind :=
  FromAPIVersionAndKind o.APIVersion o.Kind

/-- `core.GroupKind`, the `schema.GroupKind` of k8s.io/apimachinery. -/
structure GroupKind where
  Group : Bytes
  Kind : Bytes
  deriving DecidableEq

/-- `core.ObjectKey`, a namespace and a name. -/
structure ObjectKey where
  Namespace : Bytes
  Name : Bytes
  deriving DecidableEq

/-- `unversionedObjectID` (objectid.go:10-13). -/
structure unversionedObjectID where
  gk : GroupKind
  key : ObjectKey
  deriving DecidableEq

/-- `objectID` (objectid.go:24-27). -/
structure objectID where
  unversionedObjectID : unversionedObjectID
  version : Bytes
  deriving DecidableEq

/-- `NewObjectID` (objectid.go:20-22). -/
def NewObjectID (gvk : GroupVersionKind) (key : ObjectKey) : objectID :=
  { unversionedObjectID := { gk := { Group := gvk.Group, Kind := gvk.Kind }, key := key },
    version := gvk.Version }

/-- `core.ObjectKeyFromObject`: the namespace and the name of the object. -/
def ObjectKeyFromObject (o : PartialObjectMetadata) : ObjectKey :=
  { Namespace := o.Namespace, Name := o.Name }

/-- Modelled from the spec: `core.ObjectIDSet` (its file is not among the
sources). The recognizer is specified to return "the set of the objects'
ObjectIDs", and recognizer.go:69-71 speaks of an insertion that reports whether
the ID "already existed": a set of ObjectIDs, here the list of its members
without repetition. -/
abbrev ObjectIDSet := List objectID

/-- Modelled from the spec: `core.NewObjectIDSet()` (its file is not among the
sources), the empty set. -/
def NewObjectIDSet : ObjectIDSet := []

/-- Modelled from the spec: `ObjectIDSet.InsertUnique` (its file is not among
the sources). recognizer.go:69-71: it inserts the ID into the set and returns
false when the ID already existed. -/
def ObjectIDSet.InsertUnique (ids : ObjectIDSet) (id : objectID) : ObjectIDSet × Bool :=
  if id ∈ ids then (ids, false) else (ids ++ [id], true)

/-- The `serializer.Decoder` as the recognizer uses it, over the state `δ` of
the decoder and the frame reader it reads from: `DecodeInto(fr, metaObj)`
returns the decoded object and an error, and `Recognizes` is
`SchemeLock().Scheme().Recognizes(gvk)`. -/
structure Decoder (δ : Type) where
  DecodeInto : δ → δ × PartialObjectMetadata × Option Err
  Recognizes : GroupVersionKind → Bool

/-- `KubeObjectRecognizer` (recognizer.go:25-34); a nil `Decoder` is `none`. -/
structure KubeObjectRecognizer (δ : Type) where
  Decoder : Option (Decoder δ)
  AllowUnrecognized : Bool
  AllowDuplicates : Bool

/-- The loop of `RecognizeObjectIDs` (recognizer.go:42-74); `ids` is the set
so far. The loop runs until the decoder returns an error, hence the fuel:
`none` is a run that has not stopped within `fuel` calls of `DecodeInto`. -/
def RecognizeObjectIDs.loop {δ : Type} (r : KubeObjectRecognizer δ) (dec : Decoder δ) :
    Nat → δ → ObjectIDSet → Option (δ × Except Err ObjectIDSet)
  | 0, _, _ => none
  | fuel + 1, s, ids =>
    match dec.DecodeInto s with
    | (s1, metaObj, err) =>
      -- If we encountered io.EOF, we know that all is fine
      if err = some Err.EOF then some (s1, Except.ok ids)
      else
        match err with
        | some e => some (s1, Except.error e)
        | none =>
          -- Validate the object info
          if metaObj.GroupVersionKind.Group = [] ∧ metaObj.GroupVersionKind.Version = [] then
            some (s1, Except.error (Err.other ".apiVersion field must not be empty"))
          else if metaObj.GroupVersionKind.Kind = [] then
            some (s1, Except.error (Err.other ".kind field must not be empty"))
          else if metaObj.Name = [] then
            some (s1, Except.error (Err.other ".metadata.name field must not be empty"))
          else if !r.AllowUnrecognized && !dec.Recognizes metaObj.GroupVersionKind then
            some (s1, Except.error (Err.other "GroupVersionKind not recognized by the scheme"))
          -- Insert it into the set; but error if AllowDuplicates==false and it already existed.
          else if !(ObjectIDSet.InsertUnique ids
                (NewObjectID metaObj.GroupVersionKind (ObjectKeyFromObject metaObj))).2
              && !r.AllowDuplicates then
            some (s1, Except.error (Err.other "invalid file: two Objects with the same ID"))
          else
            RecognizeObjectIDs.loop r dec fuel s1
              (ObjectIDSet.InsertUnique ids
                (NewObjectID metaObj.GroupVersionKind (ObjectKeyFromObject metaObj))).1

/-- `KubeObjectRecognizer.RecognizeObjectIDs` (recognizer.go:36-77): the state
of the decoder after the call and the ID set or the error. -/
def KubeObjectRecognizer.RecognizeObjectIDs {δ : Type} (r : KubeObjectRecognizer δ)
    (fuel : Nat) (s : δ) : Option (δ × Except Err ObjectIDSet) :=
  match r.Decoder with
  | none =>
    some (s, Except.error (Err.other "programmer error: KubeObjectRecognizer.Decoder is nil"))
  | some dec => RecognizeObjectIDs.loop r dec fuel s NewObjectIDSet

/-- What `n` successive `DecodeInto` calls return, in call order. -/
def Decoder.decodeCalls {δ : Type} (dec : Decoder δ) :
    Nat → δ → List (PartialObjectMetadata × Option Err)
  | 0, _ => []
  | n + 1, s => (dec.DecodeInto s).2 :: Decoder.decodeCalls dec n (dec.DecodeInto s).1

/-- The ObjectID that the recognizer makes for an object (recognizer.go:68). -/
def objectIDOf (o : PartialObjectMetadata) : objectID :=
  NewObjectID o.GroupVersionKind (ObjectKeyFromObject o)

/-- An object that fails the validation of recognizer.go:53-62: no group and
no version, or no kind, or no name. -/
def invalidObject (o : PartialObjectMetadata) : Prop :=
  (o.GroupVersionKind.Group = [] ∧ o.GroupVersionKind.Version = [])
    ∨ o.GroupVersionKind.Kind = [] ∨ o.Name = []

instance (o : PartialObjectMetadata) : Decidable (invalidObject o) := by
  unfold invalidObject; infer_instance

/-- The condition under which `RecognizeObjectIDs` fails on the objects
`objs`: one of them is invalid, or duplicates are not allowed and two of them
have the same ObjectID. -/
def rejectedObjects (allowDuplicates : Bool) (objs : List PartialObjectMetadata) : Prop :=
  (∃ o ∈ objs, invalidObject o) ∨ (allowDuplicates = false ∧ ¬ (objs.map objectIDOf).Nodup)

/-! ## Concurrent callers of the high-level writer (writer.go:28-32)

`highlevelWriter.WriteFrame` locks `writerMu`, runs its body and unlocks
`writerMu` when it returns (the deferred `Unlock`). A call in progress is a
list of instructions that are still to be executed, each of them atomic; two
callers share the writer and the mutex, and a schedule says which caller
executes its next instruction. `sync.Mutex.Lock` can be executed only while
the mutex is not held. -/

/-- An instruction of a call in progress over the local variables `L` of the
caller and the shared state `Sh`: `w.writerMu.Lock()`, `w.writerMu.Unlock()`,
or an atomic step of the body. -/
inductive Instr (L Sh : Type) where
  | lock
  | unlock
  | act (f : L → Sh → L × Sh)

/-- A caller: its local variables and the instructions it has still to
execute. -/
structure Caller (L Sh : Type) where
  loc : L
  rest : List (Instr L Sh)

/-- The instructions of a `WriteFrame` call (writer.go:28-66) whose body is
the list `body` of atomic steps: `Lock`, the body, the deferred `Unlock`. -/
def lockedCall {L Sh : Type} (body : List (L → Sh → L × Sh)) : List (Instr L Sh) :=
  Instr.lock :: (body.map Instr.act ++ [Instr.unlock])

/-- Two callers of one writer: whether `writerMu` is held, the shared state,
and the callers `a` and `b`. -/
structure Concurrent (L Sh : Type) where
  locked : Bool
  shared : Sh
  a : Caller L Sh
  b : Caller L Sh

/-- The state in which the caller `who` (`false` for `a`, `true` for `b`) is
`c` and the other caller is `other`. -/
def Concurrent.of {L Sh : Type} (who : Bool) (locked : Bool) (shared : Sh) (c other : Caller L Sh) :
    Concurrent L Sh :=
  if who then { locked := locked, shared := shared, a := other, b := c }
  else { locked := locked, shared := shared, a := c, b := other }

/-- The caller `who` of a state. -/
def Concurrent.caller {L Sh : Type} (g : Concurrent L Sh) (who : Bool) : Caller L Sh :=
  if who then g.b else g.a

/-- The caller `who` executes its next instruction; `none` when it cannot:
it has finished, or its next instruction is `Lock` and the mutex is held. -/
def Concurrent.step {L Sh : Type} (g : Concurrent L Sh) (who : Bool) : Option (Concurrent L Sh) :=
  match (g.caller who).rest with
  | [] => none
  | Instr.lock :: rest =>
    if g.locked then none
    else some (Concurrent.of who true g.shared { loc := (g.caller who).loc, rest := rest }
      (g.caller (!who)))
  | Instr.unlock :: rest =>
    some (Concurrent.of who false g.shared { loc := (g.caller who).loc, rest := rest }
      (g.caller (!who)))
  | Instr.act f :: rest =>
    some (Concurrent.of who g.locked (f (g.caller who).loc g.shared).2
      { loc := (f (g.caller who).loc g.shared).1, rest := rest } (g.caller (!who)))

/-- The run of a schedule: each entry names the caller that executes its next
instruction; `none` when a caller is named that cannot execute. -/
def Concurrent.run {L Sh : Type} : List Bool → Concurrent L Sh → Option (Concurrent L Sh)
  | [], g => some g
  | who :: sched, g =>
    match g.step who with
    | none => none
    | some g1 => Concurrent.run sched g1

/-- The body of a call executed without interruption. -/
def runBody {L Sh : Type} : List (L → Sh → L × Sh) → L → Sh → L × Sh
  | [], l, sh => (l, sh)
  | f :: rest, l, sh => runBody rest (f l sh).1 (f l sh).2

/-- The local variables of a `WriteFrame` call in progress: `frame` (the
argument, and from writer.go:45 on the sanitized frame), `err`, and whether
the function has executed a `return`. -/
structure WriteFrame.Local where
  frame : Bytes
  err : Option Err
  returned : Bool
  deriving DecidableEq

/-- The body of `highlevelWriter.WriteFrame` (writer.go:34-64) statement by
statement, each statement an atomic step on the local variables and the
writer; a statement after a `return` does nothing. -/
def highlevelWriter.WriteFrame.steps {σ τ : Type} (wr : Writer σ) (opts : WriterOptions τ) :
    List (WriteFrame.Local → highlevelWriter σ τ → WriteFrame.Local × highlevelWriter σ τ) :=
  [ -- Refuse to write too large frames (writer.go:34-36)
    fun l w =>
      if l.returned then (l, w)
      else if (l.frame.length : Int) > opts.MaxFrameSize then
        ({ l with err := traceRegister (some (MakeFrameSizeOverflowError opts.MaxFrameSize)),
                  returned := true }, w)
      else (l, w),
    -- Refuse to write more than the maximum amount of frames (writer.go:38-40)
    fun l w =>
      if l.returned then (l, w)
      else if w.frameCount ≥ opts.MaxFrames then
        ({ l with err := traceRegister (some (MakeFrameCountOverflowError opts.MaxFrames)),
                  returned := true }, w)
      else (l, w),
    -- Sanitize the frame (writer.go:45-48)
    fun l w =>
      if l.returned then (l, w)
      else
        match opts.Sanitizer.Sanitize w.sanitizer (highlevelWriter.FramingType wr w) l.frame with
        | (san, _, some err) =>
          ({ l with err := traceRegister (some err), returned := true },
            { w with sanitizer := san })
        | (san, frame, none) => ({ l with frame := frame }, { w with sanitizer := san }),
    -- Catch empty frames (writer.go:54-56)
    fun l w =>
      if l.returned then (l, w)
      else if l.frame.length = 0 then
        ({ l with err := traceRegister none, returned := true }, w)
      else (l, w),
    -- err = w.writer.WriteFrame(ctx, frame) (writer.go:58)
    fun l w =>
      if l.returned then (l, w)
      else
        ({ l with err := (wr.WriteFrame w.writer l.frame).2 },
          { w with writer := (wr.WriteFrame w.writer l.frame).1 }),
    -- Increase the frame counter, if the write was successful (writer.go:61-64)
    fun l w =>
      if l.returned then (l, w)
      else if l.err = none then
        ({ l with err := traceRegister l.err, returned := true },
          { w with frameCount := wrapInt64 (w.frameCount + 1) })
      else ({ l with err := traceRegister l.err, returned := true }, w) ]

/-! ## Test doubles for the collaborators -/

/-- State of a recording low-level writer: the frames it was handed, in call
order, and the results it still has to answer with. -/
structure Recorded where
  received : List Bytes
  script : List (Option Err)
  deriving DecidableEq

/-- A low-level writer that records every frame it is handed and answers with
the next scripted result (success once the script is used up). -/
def recordingWriter (ft : FramingType) : Writer Recorded where
  WriteFrame := fun s frame =>
    ({ received := s.received ++ [frame], script := s.script.tail }, s.script.head?.join)
  FramingType := fun _ => ft
  Close := fun s => (s, none)

/-- A spy around any low-level writer: it forwards every call and keeps the
list of frames the wrapped writer was handed, and how many of those calls
the wrapped writer answered with success. -/
def spyWriter {σ : Type} (wr : Writer σ) : Writer (σ × List Bytes × Nat) where
  WriteFrame := fun s frame =>
    match wr.WriteFrame s.1 frame with
    | (s1, none) => ((s1, s.2.1 ++ [frame], s.2.2 + 1), none)
    | (s1, some err) => ((s1, s.2.1 ++ [frame], s.2.2), some err)
  FramingType := fun s => wr.FramingType s.1
  Close := fun s => (((wr.Close s.1).1, s.2.1, s.2.2), (wr.Close s.1).2)

/-- The default sanitizer of the spec: the identity, without state; the state
counts the calls so that a call is observable. -/
def identitySanitizer : Sanitizer Nat where
  Sanitize := fun n _ frame => (n + 1, frame, none)

/-- A sanitizer that ends every frame with a newline byte. -/
def newlineSanitizer : Sanitizer Nat where
  Sanitize := fun n _ frame => (n + 1, frame ++ [10], none)

/-- A sanitizer that empties every frame. -/
def droppingSanitizer : Sanitizer Nat where
  Sanitize := fun n _ _ => (n + 1, [], none)

/-- A sanitizer that rejects every frame. -/
def rejectingSanitizer (err : Err) : Sanitizer Nat where
  Sanitize := fun n _ _ => (n + 1, [], some err)

/-- A spy around any low-level writer that keeps, in call order, every frame
the wrapped writer was handed together with the result the wrapped writer
returned for it. -/
def logWriter {σ : Type} (wr : Writer σ) : Writer (σ × List (Bytes × Option Err)) where
  WriteFrame := fun s frame =>
    (((wr.WriteFrame s.1 frame).1, s.2 ++ [(frame, (wr.WriteFrame s.1 frame).2)]),
      (wr.WriteFrame s.1 frame).2)
  FramingType := fun s => wr.FramingType s.1
  Close := fun s => (((wr.Close s.1).1, s.2), (wr.Close s.1).2)

/-- A frame reader that answers with the next scripted result, and with
`io.EOF` once the script is used up. -/
def scriptedReader (ft : FramingType) : Reader (List (Bytes × Option Err)) where
  ReadFrame := fun script =>
    match script with
    | [] => ([], [], some Err.EOF)
    | (frame, err) :: rest => (rest, frame, err)
  FramingType := fun _ => ft
  Close := fun script => (script, none)

/-- The `halfWriter` of writer_test.go:28-34: it accepts the first
`(len(p)+1)/2` bytes of every `Write` and reports no error. The state is what
has been written. -/
def halfWriter : IoWriter Bytes where
  Write := fun buf p =>
    (buf ++ p.take ((p.length + 1) / 2), (((p.length + 1) / 2 : Nat) : Int), none)
  Close := fun buf => (buf, none)

/-- A Metadata whose key `K` has the three values `a`, `b`, `c`, added one
after the other to an empty Metadata, with the heap that holds them. -/
def threeAdds : Heap × contentMetadata :=
  let w1 := MIMEHeader.Add growslice [] { entries := [] } (ascii "K") (ascii "a")
  let w2 := MIMEHeader.Add growslice w1.1 w1.2 (ascii "K") (ascii "b")
  let w3 := MIMEHeader.Add growslice w2.1 w2.2 (ascii "K") (ascii "c")
  (w3.1, { MIMEHeader := w3.2 })

/-- A Metadata made by `NewMetadata` with the options `Content-Length: 123`
and `X-Framing-Type: yaml`. -/
def sampleMetadata : Heap × contentMetadata :=
  NewMetadata [] [⟨ascii "Content-Length", ascii "123"⟩, ⟨ascii "X-Framing-Type", ascii "yaml"⟩]

/-- A `yamlReader` with a counter beside its state that counts the
invocations of `resetCounter`; the reader itself is left as it is. -/
def countingReset {κ : Type} (r : yamlReader κ) : yamlReader (κ × Nat) where
  cr :=
    { Read := fun s => (((r.cr.Read s.1).1, s.2), (r.cr.Read s.1).2)
      Close := fun s => (((r.cr.Close s.1).1, s.2), (r.cr.Close s.1).2) }
  maxFrameSize := r.maxFrameSize
  resetCounter := fun s => (r.resetCounter s.1, s.2 + 1)

/-- A file that is open for writing, like an `*os.File`, as a raw stream; the
state is what has been written and whether the file has been closed. `Close`
returns an error when it has already been called (Go standard library,
`os.File.Close`). -/
def fileWriter : content.RawStream Bytes (Int × Option Err) (Bytes × Bool) where
  call := fun s p =>
    if s.2 then (s, 0, some (Err.other "write: file already closed"))
    else ((s.1 ++ p, s.2), (p.length : Int), none)
  Closer :=
    some (fun s =>
      ((s.1, true), if s.2 then some (Err.other "close: file already closed") else none))
  isStdio := false

/-- The raw stream of TestToIoWriteCloser (utils_test.go:153-181): a buffer
with a `recordingCloser`, which counts the calls of `Close`. -/
def recordedBuffer : content.RawStream Bytes (Int × Option Err) (Bytes × Nat) where
  call := fun s p => ((s.1 ++ p, s.2), (p.length : Int), none)
  Closer := some (fun s => ((s.1, s.2 + 1), none))
  isStdio := false

/-- Standard output as a raw stream: a file with a closer that counts its
calls, marked as a standard stream. -/
def stdoutStream : content.RawStream Bytes (Int × Option Err) (Bytes × Nat) where
  call := fun s p => ((s.1 ++ p, s.2), (p.length : Int), none)
  Closer := some (fun s => ((s.1, s.2 + 1), none))
  isStdio := true

/-- A wrap result with a closer of its own, in the manner of a compressing
writer: `Write` passes the data on, `Close` writes the trailer `END` to the
underlying stream and does not close it. The state says whether `Close` has
been called. -/
def trailerWriter : content.WrapResult Bytes (Int × Option Err) Bool where
  call := fun own data => content.Calls.call data (fun r => content.Calls.ret (own, r))
  Closer :=
    some (fun _ => content.Calls.call (ascii "END") (fun r => content.Calls.ret (true, r.2)))

/-- The context that tracing derives for a span in the test doubles: contexts
are numbers, and the child of a context is the next number. -/
def childContext (ctx : Option Nat) : Nat := ctx.getD 0 + 1

/-- A file system without files: no path is resolved, opened or inspected. -/
def noFiles : content.FileSystem Unit where
  Abs := fun _ => Except.error (Err.other "no working directory")
  Open := fun _ => Except.error (Err.other "file does not exist")
  Stat := fun _ => Except.error (Err.other "bad file descriptor")

/-- A file system with the working directory `/work` and the one file
`/work/foo.yaml` of 9 bytes, as in TestFromConstructors
(utils_test.go:119-151); an open file is its descriptor. -/
def oneFile : content.FileSystem Nat where
  Abs := fun p => Except.ok (ascii "/work/" ++ p)
  Open := fun p =>
    if p = ascii "/work/foo.yaml" then Except.ok 3
    else Except.error (Err.other "file does not exist")
  Stat := fun f => if f = 3 then Except.ok 9 else Except.error (Err.other "bad file descriptor")

/-- A decoder that returns the objects of a script one after the other and
`io.EOF` once the script is used up; its scheme recognizes nothing. -/
def scriptedDecoder : Decoder (List PartialObjectMetadata) where
  DecodeInto := fun script =>
    match script with
    | [] => ([], { APIVersion := [], Kind := [], Namespace := [], Name := [] }, some Err.EOF)
    | o :: rest => (rest, o, none)
  Recognizes := fun _ => false

/-- The relation between `frameCount` and what a spy around the low-level
writer has counted: they agree, and the count has not passed `MaxFrames`. -/
def SpyInv {σ τ : Type} (opts : WriterOptions τ)
    (w : highlevelWriter (σ × List Bytes × Nat) τ) : Prop :=
  w.frameCount = (w.writer.2.2 : Int) ∧ (w.frameCount = 0 ∨ w.frameCount ≤ opts.MaxFrames)

end Libgitops

/-! # Properties -/

namespace Libgitops

/-! ## Shared lemmas -/

theorem wrapInt64_of_inInt64 (i : Int) (h : InInt64 i) : wrapInt64 i = i := by
  unfold InInt64 at h
  unfold wrapInt64
  omega

theorem WriteFrame_of_oversize {σ τ : Type} (wr : Writer σ) (opts : WriterOptions τ)
    (w : highlevelWriter σ τ) (frame : Bytes) (h : opts.MaxFrameSize < (frame.length : Int)) :
    highlevelWriter.WriteFrame wr opts w frame
      = (w, some (Err.FrameSizeOverflow opts.MaxFrameSize)) := by
  unfold highlevelWriter.WriteFrame
  rw [if_pos (by simpa using h)]
  rfl

theorem WriteFrame_of_full {σ τ : Type} (wr : Writer σ) (opts : WriterOptions τ)
    (w : highlevelWriter σ τ) (frame : Bytes) (hsize : (frame.length : Int) ≤ opts.MaxFrameSize)
    (hfull : opts.MaxFrames ≤ w.frameCount) :
    highlevelWriter.WriteFrame wr opts w frame
      = (w, some (Err.FrameCountOverflow opts.MaxFrames)) := by
  unfold highlevelWriter.WriteFrame
  rw [if_neg (by simpa using hsize), if_pos (by simpa using hfull)]
  rfl

theorem WriteFrame_of_sanitize_error {σ τ : Type} (wr : Writer σ) (opts : WriterOptions τ)
    (w : highlevelWriter σ τ) (frame : Bytes) (hsize : (frame.length : Int) ≤ opts.MaxFrameSize)
    (hcount : w.frameCount < opts.MaxFrames) (san : τ) (out : Bytes) (err : Err)
    (hs : opts.Sanitizer.Sanitize w.sanitizer (wr.FramingType w.writer) frame
      = (san, out, some err)) :
    highlevelWriter.WriteFrame wr opts w frame = ({ w with sanitizer := san }, some err) := by
  unfold highlevelWriter.WriteFrame highlevelWriter.FramingType
  rw [if_neg (by simpa using hsize), if_neg (by simpa using hcount), hs]
  rfl

theorem WriteFrame_of_sanitize_empty {σ τ : Type} (wr : Writer σ) (opts : WriterOptions τ)
    (w : highlevelWriter σ τ) (frame : Bytes) (hsize : (frame.length : Int) ≤ opts.MaxFrameSize)
    (hcount : w.frameCount < opts.MaxFrames) (san : τ)
    (hs : opts.Sanitizer.Sanitize w.sanitizer (wr.FramingType w.writer) frame
      = (san, [], none)) :
    highlevelWriter.WriteFrame wr opts w frame = ({ w with sanitizer := san }, none) := by
  unfold highlevelWriter.WriteFrame highlevelWriter.FramingType
  rw [if_neg (by simpa using hsize), if_neg (by simpa using hcount), hs]
  rfl

theorem WriteFrame_of_delegate {σ τ : Type} (wr : Writer σ) (opts : WriterOptions τ)
    (w : highlevelWriter σ τ) (frame : Bytes) (hsize : (frame.length : Int) ≤ opts.MaxFrameSize)
    (hcount : w.frameCount < opts.MaxFrames) (san : τ) (out : Bytes) (hout : out ≠ [])
    (hs : opts.Sanitizer.Sanitize w.sanitizer (wr.FramingType w.writer) frame
      = (san, out, none)) :
    highlevelWriter.WriteFrame wr opts w frame
      = ({ writer := (wr.WriteFrame w.writer out).1, sanitizer := san,
           frameCount := if (wr.WriteFrame w.writer out).2 = none
             then wrapInt64 (w.frameCount + 1) else w.frameCount },
         (wr.WriteFrame w.writer out).2) := by
  unfold highlevelWriter.WriteFrame highlevelWriter.FramingType
  rw [if_neg (by simpa using hsize), if_neg (by simpa using hcount), hs]
  have hlen : ¬ out.length = 0 := by simpa using hout
  simp only [hlen, if_false]
  rcases hw : wr.WriteFrame w.writer out with ⟨lw, _ | e⟩ <;> simp [traceRegister]

theorem spyWriter_WriteFrame_ok {σ : Type} (wr : Writer σ) (s : σ × List Bytes × Nat)
    (frame : Bytes) (s1 : σ) (h : wr.WriteFrame s.1 frame = (s1, none)) :
    (spyWriter wr).WriteFrame s frame = ((s1, s.2.1 ++ [frame], s.2.2 + 1), none) := by
  simp only [spyWriter, h]

theorem spyWriter_WriteFrame_err {σ : Type} (wr : Writer σ) (s : σ × List Bytes × Nat)
    (frame : Bytes) (s1 : σ) (err : Err) (h : wr.WriteFrame s.1 frame = (s1, some err)) :
    (spyWriter wr).WriteFrame s frame = ((s1, s.2.1 ++ [frame], s.2.2), some err) := by
  simp only [spyWriter, h]

theorem SpyInv_WriteFrame {σ τ : Type} (wr : Writer σ) (opts : WriterOptions τ)
    (hN : InInt64 opts.MaxFrames) (w : highlevelWriter (σ × List Bytes × Nat) τ)
    (frame : Bytes) (hinv : SpyInv opts w) :
    SpyInv opts (highlevelWriter.WriteFrame (spyWriter wr) opts w frame).1 := by
  obtain ⟨heq, hle⟩ := hinv
  by_cases hsize : (frame.length : Int) ≤ opts.MaxFrameSize
  swap
  · rw [WriteFrame_of_oversize _ _ _ _ (by omega)]
    exact ⟨heq, hle⟩
  by_cases hcount : w.frameCount < opts.MaxFrames
  swap
  · rw [WriteFrame_of_full _ _ _ _ hsize (by omega)]
    exact ⟨heq, hle⟩
  rcases hs : opts.Sanitizer.Sanitize w.sanitizer ((spyWriter wr).FramingType w.writer) frame
    with ⟨san, out, _ | e⟩
  swap
  · rw [WriteFrame_of_sanitize_error _ _ _ _ hsize hcount san out e hs]
    exact ⟨heq, hle⟩
  by_cases hout : out = []
  · subst hout
    rw [WriteFrame_of_sanitize_empty _ _ _ _ hsize hcount san hs]
    exact ⟨heq, hle⟩
  rw [WriteFrame_of_delegate _ _ _ _ hsize hcount san out hout hs]
  have hwrap : wrapInt64 (w.frameCount + 1) = w.frameCount + 1 := by
    apply wrapInt64_of_inInt64
    unfold InInt64 at hN ⊢
    omega
  obtain ⟨lw, r, hw⟩ : ∃ lw r, wr.WriteFrame w.writer.1 out = (lw, r) := ⟨_, _, rfl⟩
  cases r with
  | none =>
    rw [spyWriter_WriteFrame_ok wr w.writer out lw hw]
    simp only [if_true, hwrap, SpyInv]
    refine ⟨by push_cast; omega, Or.inr (by omega)⟩
  | some e =>
    rw [spyWriter_WriteFrame_err wr w.writer out lw e hw]
    simp only [reduceCtorEq, if_false, SpyInv]
    exact ⟨heq, hle⟩

theorem SpyInv_writeCalls {σ τ : Type} (wr : Writer σ) (opts : WriterOptions τ)
    (hN : InInt64 opts.MaxFrames) (frames : List Bytes) :
    ∀ w : highlevelWriter (σ × List Bytes × Nat) τ, SpyInv opts w →
      SpyInv opts (highlevelWriter.writeCalls (spyWriter wr) opts w frames).1 := by
  induction frames with
  | nil => intro w h; exact h
  | cons frame rest ih =>
    intro w h
    exact ih _ (SpyInv_WriteFrame wr opts hN w frame h)

theorem WrapLimited_bytes_Read_nil (maxBytes total : Int) (n : Nat) (h : total ≤ maxBytes) :
    (WrapLimited bytesReader maxBytes).Read ([], total) n = (([], total), [], some Err.EOF) := by
  have htot : ¬ total > maxBytes := by omega
  simp [WrapLimited, bytesReader, htot]

theorem WrapLimited_bytes_Read_cons (maxBytes total : Int) (n : Nat) (x : UInt8) (xs : Bytes)
    (h : total + (((x :: xs).take n).length : Int) ≤ maxBytes) :
    (WrapLimited bytesReader maxBytes).Read (x :: xs, total) n
      = (((x :: xs).drop n, total + (((x :: xs).take n).length : Int)), (x :: xs).take n,
          none) := by
  have htot : ¬ total > maxBytes := by omega
  have hov : ¬ total + (((x :: xs).take n).length : Int) > maxBytes := by omega
  simp only [WrapLimited, bytesReader, htot, if_false, List.length_cons, Nat.succ_ne_zero, hov]

theorem ReadAll_loop_limited_bytes (grow : Nat → Nat) (hgrow : ∀ c, c < grow c) (maxBytes : Int) :
    ∀ (fuel : Nat) (rest : Bytes) (total : Int) (b : Bytes) (cap : Nat),
      rest.length < fuel → total + (rest.length : Int) ≤ maxBytes → b.length ≤ cap →
      ReadAll.loop (WrapLimited bytesReader maxBytes) grow fuel (rest, total) b cap
        = some (([], total + (rest.length : Int)), b ++ rest, none) := by
  intro fuel
  induction fuel with
  | zero => intro rest total b cap h; omega
  | succ fuel ih =>
    intro rest total b cap hfuel hmax hcap
    cases rest with
    | nil =>
      unfold ReadAll.loop
      simp only [WrapLimited_bytes_Read_nil maxBytes total _ (by simpa using hmax)]
      simp
    | cons x xs =>
      have hn : 0 < (if b.length = cap then grow cap else cap) - b.length := by
        split
        · have := hgrow cap; omega
        · omega
      have hlen : ((x :: xs).take ((if b.length = cap then grow cap else cap) - b.length)).length
          ≤ (x :: xs).length := by
        simp
      have hpos : 0 < ((x :: xs).take
          ((if b.length = cap then grow cap else cap) - b.length)).length := by
        rw [List.length_take]
        simp only [List.length_cons]
        omega
      have hov : total + (((x :: xs).take
          ((if b.length = cap then grow cap else cap) - b.length)).length : Int) ≤ maxBytes := by
        have : (((x :: xs).take
            ((if b.length = cap then grow cap else cap) - b.length)).length : Int)
              ≤ ((x :: xs).length : Int) := by
          exact_mod_cast hlen
        omega
      unfold ReadAll.loop
      simp only [WrapLimited_bytes_Read_cons maxBytes total _ x xs hov]
      have hsum : ((x :: xs).take ((if b.length = cap then grow cap else cap) - b.length)).length
          + ((x :: xs).drop ((if b.length = cap then grow cap else cap) - b.length)).length
          = (x :: xs).length := by
        rw [← List.length_append, List.take_append_drop]
      rw [ih]
      · rw [List.append_assoc, List.take_append_drop]
        congr 3
        have : ((((x :: xs).take
            ((if b.length = cap then grow cap else cap) - b.length)).length : Int))
          + ((((x :: xs).drop
            ((if b.length = cap then grow cap else cap) - b.length)).length : Int))
          = ((x :: xs).length : Int) := by exact_mod_cast hsum
        omega
      · omega
      · have : ((((x :: xs).take
            ((if b.length = cap then grow cap else cap) - b.length)).length : Int))
          + ((((x :: xs).drop
            ((if b.length = cap then grow cap else cap) - b.length)).length : Int))
          = ((x :: xs).length : Int) := by exact_mod_cast hsum
        omega
      · rw [List.length_append]
        have : ((x :: xs).take ((if b.length = cap then grow cap else cap) - b.length)).length
            ≤ (if b.length = cap then grow cap else cap) - b.length := List.length_take_le _ _
        omega

theorem singleReader_ReadFrame_read {ρ : Type} (rd : IoReader ρ) (grow : Nat → Nat)
    (fuel : Nat) (r : singleReader ρ) (h : r.hasBeenRead = true) :
    singleReader.ReadFrame rd grow fuel r = some (r, [], some Err.EOF) := by
  simp [singleReader.ReadFrame, h]

theorem singleReader_ReadFrame_first {ρ : Type} (rd : IoReader ρ) (grow : Nat → Nat)
    (fuel : Nat) (s : ρ) :
    singleReader.ReadFrame rd grow fuel { r := s, hasBeenRead := false }
      = (ReadAll rd grow fuel s).map
          (fun x => ({ r := x.1, hasBeenRead := true }, x.2.1, x.2.2)) := by
  unfold singleReader.ReadFrame
  cases ReadAll rd grow fuel s <;> simp

theorem singleReader_hasBeenRead_of_first {ρ : Type} (rd : IoReader ρ) (grow : Nat → Nat)
    (fuel : Nat) (s : ρ) (r1 : singleReader ρ) (frame : Bytes) (err : Option Err)
    (h : singleReader.ReadFrame rd grow fuel { r := s, hasBeenRead := false }
      = some (r1, frame, err)) : r1.hasBeenRead = true := by
  rw [singleReader_ReadFrame_first] at h
  cases hra : ReadAll rd grow fuel s with
  | none => rw [hra] at h; simp at h
  | some x =>
    rw [hra] at h
    simp only [Option.map_some', Option.some.injEq, Prod.mk.injEq] at h
    rw [← h.1]

theorem singleReader_afterCalls_read {ρ : Type} (rd : IoReader ρ) (grow : Nat → Nat)
    (fuel : Nat) (r : singleReader ρ) (h : r.hasBeenRead = true) :
    ∀ n, singleReader.afterCalls rd grow fuel n r = some r := by
  intro n
  induction n with
  | zero => rfl
  | succ n ih =>
    unfold singleReader.afterCalls
    rw [singleReader_ReadFrame_read rd grow fuel r h]
    exact ih

theorem singleWriter_WriteFrame_written {ω : Type} (cw : IoWriter ω) (w : singleWriter ω)
    (frame : Bytes) (h : w.hasBeenWritten = true) :
    singleWriter.WriteFrame cw w frame = (w, some Err.ErrClosedPipe) := by
  simp [singleWriter.WriteFrame, h]

theorem singleWriter_writeCalls_written {ω : Type} (cw : IoWriter ω) (w : singleWriter ω)
    (h : w.hasBeenWritten = true) :
    ∀ frames : List Bytes, singleWriter.writeCalls cw w frames
      = (w, List.replicate frames.length (some Err.ErrClosedPipe)) := by
  intro frames
  induction frames with
  | nil => rfl
  | cons frame rest ih =>
    unfold singleWriter.writeCalls
    simp only [singleWriter_WriteFrame_written cw w frame h, ih, List.length_cons,
      List.replicate_succ]

theorem yamlReader_ReadFrame_of_error {κ : Type} (r : yamlReader κ) (s : κ) (e : Err)
    (h : (r.cr.Read s).2.2 = some e) :
    yamlReader.ReadFrame r s = ((r.cr.Read s).1, [], some e) := by
  unfold yamlReader.ReadFrame
  rcases hr : r.cr.Read s with ⟨s1, doc, err⟩
  rw [hr] at h
  simp only at h
  subst h
  rfl

theorem yamlReader_ReadFrame_of_document {κ : Type} (r : yamlReader κ) (s : κ)
    (h : (r.cr.Read s).2.2 = none) :
    yamlReader.ReadFrame r s
      = if ((r.cr.Read s).2.1.length : Int) > r.maxFrameSize
        then (r.resetCounter (r.cr.Read s).1, [], some (Err.FrameSizeOverflow r.maxFrameSize))
        else (r.resetCounter (r.cr.Read s).1, (r.cr.Read s).2.1, none) := by
  unfold yamlReader.ReadFrame
  rcases hr : r.cr.Read s with ⟨s1, doc, err⟩
  rw [hr] at h
  simp only at h
  subst h
  rfl

theorem yamlReader_sticky {κ : Type} (r : yamlReader κ) (e : Err)
    (hsticky : ∀ t, (r.cr.Read t).2.2 = some e → (r.cr.Read (r.cr.Read t).1).2.2 = some e) :
    ∀ (n : Nat) (s : κ), (r.cr.Read s).2.2 = some e →
      (yamlReader.ReadFrame r (yamlReader.afterCalls r n s)).2 = ([], some e)
      ∧ yamlReader.afterCalls r n s = (fun t => (r.cr.Read t).1)^[n] s := by
  intro n
  induction n with
  | zero =>
    intro s h
    rw [yamlReader.afterCalls, yamlReader_ReadFrame_of_error r s e h]
    exact ⟨rfl, rfl⟩
  | succ n ih =>
    intro s h
    rw [yamlReader.afterCalls, yamlReader_ReadFrame_of_error r s e h, Function.iterate_succ_apply]
    exact ih _ (hsticky s h)

theorem streamingReader_ReadFrame_of_tooLarge {κ : Type} (r : streamingReader κ) (s : κ)
    (h : isObjectTooLarge (r.streamReader.Read s).2.2 = true) :
    streamingReader.ReadFrame r s
      = ((r.streamReader.Read s).1, (r.streamReader.Read s).2.1,
          some (Err.FrameSizeOverflow r.maxFrameSize)) := by
  unfold streamingReader.ReadFrame
  rcases hr : r.streamReader.Read s with ⟨s1, frame, err⟩
  rw [hr] at h
  cases err with
  | none => simp [isObjectTooLarge] at h
  | some e =>
    simp only [isObjectTooLarge] at h
    simp [mapError, h, MakeErrFrameSizeOverflowor]

theorem streamingReader_sticky {κ : Type} (r : streamingReader κ)
    (hsticky : ∀ t, isObjectTooLarge (r.streamReader.Read t).2.2 = true →
      isObjectTooLarge (r.streamReader.Read (r.streamReader.Read t).1).2.2 = true) :
    ∀ (n : Nat) (s : κ), isObjectTooLarge (r.streamReader.Read s).2.2 = true →
      (streamingReader.ReadFrame r (streamingReader.afterCalls r n s)).2.2
        = some (Err.FrameSizeOverflow r.maxFrameSize) := by
  intro n
  induction n with
  | zero =>
    intro s h
    rw [streamingReader.afterCalls, streamingReader_ReadFrame_of_tooLarge r s h]
  | succ n ih =>
    intro s h
    rw [streamingReader.afterCalls, streamingReader_ReadFrame_of_tooLarge r s h]
    exact ih _ (hsticky s h)

theorem WrapLimited_Read_overflowed {ρ : Type} (rd : IoReader ρ) (maxBytes : Int)
    (s : ρ × Int) (n : Nat) (h : s.2 > maxBytes) :
    (WrapLimited rd maxBytes).Read s n = (s, [], some (Err.FrameSizeOverflow maxBytes)) := by
  simp [WrapLimited, h, MakeFrameSizeOverflowError]

theorem limitedChunks_sticky (maxBytes : Int) (t : Bytes × Int)
    (h : ((limitedChunks maxBytes).Read t).2.2 = some (Err.FrameSizeOverflow maxBytes)) :
    ((limitedChunks maxBytes).Read ((limitedChunks maxBytes).Read t).1).2.2
      = some (Err.FrameSizeOverflow maxBytes) := by
  obtain ⟨rest, total⟩ := t
  by_cases htot : total > maxBytes
  · have h1 : (limitedChunks maxBytes).Read (rest, total)
        = ((rest, total), [], some (Err.FrameSizeOverflow maxBytes)) := by
      simp only [limitedChunks, WrapLimited_Read_overflowed bytesReader maxBytes (rest, total) 4096 htot]
    rw [h1, h1]
  · cases rest with
    | nil =>
      have h1 : (limitedChunks maxBytes).Read ([], total) = (([], total), [], some Err.EOF) := by
        simp only [limitedChunks, WrapLimited_bytes_Read_nil maxBytes total _ (by omega)]
      rw [h1] at h
      simp at h
    | cons x xs =>
      by_cases hov : total + (((x :: xs).take 4096).length : Int) ≤ maxBytes
      · have h1 : (limitedChunks maxBytes).Read (x :: xs, total)
            = (((x :: xs).drop 4096, total + (((x :: xs).take 4096).length : Int)),
                (x :: xs).take 4096, none) := by
          simp only [limitedChunks, WrapLimited_bytes_Read_cons maxBytes total _ x xs hov]
        rw [h1] at h
        simp at h
      · have hov1 : total + (((x :: xs).take 4096).length : Int) > maxBytes := by omega
        have h1 : (limitedChunks maxBytes).Read (x :: xs, total)
            = (((x :: xs).drop 4096, total + (((x :: xs).take 4096).length : Int)), [],
                some (Err.FrameSizeOverflow maxBytes)) := by
          simp only [limitedChunks, WrapLimited, bytesReader, htot, if_false, List.length_cons,
            Nat.succ_ne_zero, hov1, if_true, MakeFrameSizeOverflowError]
        rw [h1]
        simp only [limitedChunks, WrapLimited_Read_overflowed bytesReader maxBytes
          ((x :: xs).drop 4096, total + (((x :: xs).take 4096).length : Int)) 4096 hov1]

/-! ## The high-level writer (writer.go) -/

/-- C1: a frame longer than `MaxFrameSize` is rejected with the
frame-size-overflow error for `MaxFrameSize`, and the call returns the writer
exactly as it was: the state of the low-level writer and of the Sanitizer
(neither was called) and `frameCount` are unchanged. Hence a second attempt
with the same frame fails identically, and any later sequence of calls behaves
as if the rejected write had never been made. -/
theorem highlevelWriter_WriteFrame_oversize {σ τ : Type} (wr : Writer σ)
    (opts : WriterOptions τ) (w : highlevelWriter σ τ) (frame : Bytes)
    (h : opts.MaxFrameSize < (frame.length : Int)) :
    highlevelWriter.WriteFrame wr opts w frame
        = (w, some (Err.FrameSizeOverflow opts.MaxFrameSize))
      ∧ highlevelWriter.WriteFrame wr opts (highlevelWriter.WriteFrame wr opts w frame).1 frame
        = (w, some (Err.FrameSizeOverflow opts.MaxFrameSize))
      ∧ ∀ frames : List Bytes,
          highlevelWriter.writeCalls wr opts (highlevelWriter.WriteFrame wr opts w frame).1 frames
            = highlevelWriter.writeCalls wr opts w frames := by
  have h1 := WriteFrame_of_oversize wr opts w frame h
  refine ⟨h1, ?_, ?_⟩
  · rw [h1]
    exact h1
  · intro frames
    rw [h1]

/-- Scenario B of the spec: `MaxFrameSize = 10`, a blob of 11 bytes, on a
writer that has already written one frame. -/
theorem highlevelWriter_WriteFrame_oversize_witness :
    highlevelWriter.WriteFrame (recordingWriter "application/json")
        ⟨10, 5, identitySanitizer⟩ ⟨⟨[ascii "{}"], []⟩, 1, 1⟩ (List.replicate 11 0)
      = (⟨⟨[ascii "{}"], []⟩, 1, 1⟩, some (Err.FrameSizeOverflow 10))
    ∧ highlevelWriter.WriteFrame (recordingWriter "application/json") ⟨10, 5, identitySanitizer⟩
        (highlevelWriter.WriteFrame (recordingWriter "application/json")
          ⟨10, 5, identitySanitizer⟩ ⟨⟨[ascii "{}"], []⟩, 1, 1⟩ (List.replicate 11 0)).1
        (List.replicate 11 0)
      = (⟨⟨[ascii "{}"], []⟩, 1, 1⟩, some (Err.FrameSizeOverflow 10))
    ∧ ∀ frames : List Bytes,
        highlevelWriter.writeCalls (recordingWriter "application/json") ⟨10, 5, identitySanitizer⟩
          (highlevelWriter.WriteFrame (recordingWriter "application/json")
            ⟨10, 5, identitySanitizer⟩ ⟨⟨[ascii "{}"], []⟩, 1, 1⟩ (List.replicate 11 0)).1 frames
        = highlevelWriter.writeCalls (recordingWriter "application/json")
            ⟨10, 5, identitySanitizer⟩ ⟨⟨[ascii "{}"], []⟩, 1, 1⟩ frames :=
  highlevelWriter_WriteFrame_oversize (recordingWriter "application/json")
    ⟨10, 5, identitySanitizer⟩ ⟨⟨[ascii "{}"], []⟩, 1, 1⟩ (List.replicate 11 0) (by decide)

/-- C2, as stated, fails in two ways. With `MaxFrames = 1`: a call whose
sanitized frame is empty returns success without being counted, so after one
successful call the second call succeeds as well; and after one written frame
a second call with a frame longer than `MaxFrameSize` fails with the
frame-size-overflow error, not with the frame-count-overflow error. -/
theorem highlevelWriter_count_overflow_counterexample :
    (highlevelWriter.writeCalls (recordingWriter "application/yaml") ⟨10, 1, identitySanitizer⟩
        (newHighlevelWriter ⟨[], []⟩ 0) [[], ascii "a"]).2 = [none, none]
    ∧ (highlevelWriter.writeCalls (recordingWriter "application/yaml") ⟨1, 1, identitySanitizer⟩
        (newHighlevelWriter ⟨[], []⟩ 0) [ascii "a", ascii "bb"]).2
        = [none, some (Err.FrameSizeOverflow 1)] := by
  decide

/-- C2 (amended): start from a new high-level writer (`frameCount = 0`) with
`MaxFrames = N` over any low-level writer and run any sequence of `WriteFrame`
calls. When `N` of these calls were handed to the low-level writer and
succeeded there, the next call with any frame of length at most `MaxFrameSize`
fails with the frame-count-overflow error for `N`, whatever the frame holds,
and leaves the writer untouched. -/
theorem highlevelWriter_count_overflow {σ τ : Type} (wr : Writer σ) (opts : WriterOptions τ)
    (w0 : σ) (san0 : τ) (frames : List Bytes) (frame : Bytes)
    (hN : InInt64 opts.MaxFrames)
    (hwritten : ((highlevelWriter.writeCalls (spyWriter wr) opts
        (newHighlevelWriter (w0, [], 0) san0) frames).1.writer.2.2 : Int) = opts.MaxFrames)
    (hsize : (frame.length : Int) ≤ opts.MaxFrameSize) :
    highlevelWriter.WriteFrame (spyWriter wr) opts
        (highlevelWriter.writeCalls (spyWriter wr) opts
          (newHighlevelWriter (w0, [], 0) san0) frames).1 frame
      = ((highlevelWriter.writeCalls (spyWriter wr) opts
          (newHighlevelWriter (w0, [], 0) san0) frames).1,
        some (Err.FrameCountOverflow opts.MaxFrames)) := by
  have hinv := SpyInv_writeCalls wr opts hN frames (newHighlevelWriter (w0, [], 0) san0)
    ⟨rfl, Or.inl rfl⟩
  apply WriteFrame_of_full _ _ _ _ hsize
  rw [hinv.1, hwritten]

/-- Two frames are written through a writer with `MaxFrames = 2` (an empty
frame in between is dropped); the next call overflows the count. -/
theorem highlevelWriter_count_overflow_witness :
    highlevelWriter.WriteFrame (spyWriter (recordingWriter "application/yaml"))
        ⟨10, 2, identitySanitizer⟩
        (highlevelWriter.writeCalls (spyWriter (recordingWriter "application/yaml"))
          ⟨10, 2, identitySanitizer⟩ (newHighlevelWriter (⟨[], []⟩, [], 0) 0)
          [ascii "a", [], ascii "b"]).1 (ascii "c")
      = ((highlevelWriter.writeCalls (spyWriter (recordingWriter "application/yaml"))
          ⟨10, 2, identitySanitizer⟩ (newHighlevelWriter (⟨[], []⟩, [], 0) 0)
          [ascii "a", [], ascii "b"]).1,
        some (Err.FrameCountOverflow 2)) :=
  highlevelWriter_count_overflow (recordingWriter "application/yaml") ⟨10, 2, identitySanitizer⟩
    ⟨[], []⟩ 0 [ascii "a", [], ascii "b"] (ascii "c") (by decide) (by decide) (by decide)

/-- C3: when the frame passes the size and the count check and the Sanitizer
returns an empty frame without error, `WriteFrame` returns success (nil), the
low-level writer is not called (its state is returned as it was, for every
low-level writer) and `frameCount` is not incremented; only the Sanitizer has
advanced. -/
theorem highlevelWriter_WriteFrame_empty_dropped {σ τ : Type} (wr : Writer σ)
    (opts : WriterOptions τ) (w : highlevelWriter σ τ) (frame : Bytes)
    (hsize : (frame.length : Int) ≤ opts.MaxFrameSize)
    (hcount : w.frameCount < opts.MaxFrames) (san : τ)
    (hs : opts.Sanitizer.Sanitize w.sanitizer (wr.FramingType w.writer) frame
      = (san, [], none)) :
    (highlevelWriter.WriteFrame wr opts w frame).2 = none
      ∧ (highlevelWriter.WriteFrame wr opts w frame).1.writer = w.writer
      ∧ (highlevelWriter.WriteFrame wr opts w frame).1.frameCount = w.frameCount
      ∧ (highlevelWriter.WriteFrame wr opts w frame).1.sanitizer = san := by
  rw [WriteFrame_of_sanitize_empty wr opts w frame hsize hcount san hs]
  exact ⟨rfl, rfl, rfl, rfl⟩

/-- A sanitizer that empties every frame: the recording low-level writer
receives nothing and the count stays at 1. -/
theorem highlevelWriter_WriteFrame_empty_dropped_witness :
    (highlevelWriter.WriteFrame (recordingWriter "application/yaml")
        ⟨10, 5, droppingSanitizer⟩ ⟨⟨[ascii "a"], []⟩, 1, 1⟩ (ascii "  ")).2 = none
      ∧ (highlevelWriter.WriteFrame (recordingWriter "application/yaml")
        ⟨10, 5, droppingSanitizer⟩ ⟨⟨[ascii "a"], []⟩, 1, 1⟩ (ascii "  ")).1.writer
          = ⟨[ascii "a"], []⟩
      ∧ (highlevelWriter.WriteFrame (recordingWriter "application/yaml")
        ⟨10, 5, droppingSanitizer⟩ ⟨⟨[ascii "a"], []⟩, 1, 1⟩ (ascii "  ")).1.frameCount = 1
      ∧ (highlevelWriter.WriteFrame (recordingWriter "application/yaml")
        ⟨10, 5, droppingSanitizer⟩ ⟨⟨[ascii "a"], []⟩, 1, 1⟩ (ascii "  ")).1.sanitizer = 2 :=
  highlevelWriter_WriteFrame_empty_dropped (recordingWriter "application/yaml")
    ⟨10, 5, droppingSanitizer⟩ ⟨⟨[ascii "a"], []⟩, 1, 1⟩ (ascii "  ") (by decide) (by decide) 2
    (by decide)

/-- C4: for a frame that passes the size and the count check,
(1) when the Sanitizer returns a non-empty frame `out` without error, the
low-level writer is called once, with `out`, from the state it was in; the
call's error is returned as it is, `frameCount` grows by exactly one when that
error is nil and is unchanged otherwise;
(2) when the Sanitizer returns an error, that error is returned as it is, the
low-level writer keeps its state (it is not called) and `frameCount` is
unchanged. -/
theorem highlevelWriter_WriteFrame_delegates {σ τ : Type} (wr : Writer σ)
    (opts : WriterOptions τ) (w : highlevelWriter σ τ) (frame : Bytes)
    (hsize : (frame.length : Int) ≤ opts.MaxFrameSize)
    (hcount : w.frameCount < opts.MaxFrames)
    (hN : InInt64 opts.MaxFrames) (hc : InInt64 w.frameCount) :
    (∀ (san : τ) (out : Bytes), out ≠ [] →
      opts.Sanitizer.Sanitize w.sanitizer (wr.FramingType w.writer) frame = (san, out, none) →
      highlevelWriter.WriteFrame wr opts w frame
        = ({ writer := (wr.WriteFrame w.writer out).1, sanitizer := san,
             frameCount := if (wr.WriteFrame w.writer out).2 = none
               then w.frameCount + 1 else w.frameCount },
           (wr.WriteFrame w.writer out).2))
    ∧ (∀ (san : τ) (out : Bytes) (err : Err),
      opts.Sanitizer.Sanitize w.sanitizer (wr.FramingType w.writer) frame
        = (san, out, some err) →
      highlevelWriter.WriteFrame wr opts w frame
        = ({ writer := w.writer, sanitizer := san, frameCount := w.frameCount }, some err)) := by
  constructor
  · intro san out hout hs
    rw [WriteFrame_of_delegate wr opts w frame hsize hcount san out hout hs]
    have hwrap : wrapInt64 (w.frameCount + 1) = w.frameCount + 1 := by
      apply wrapInt64_of_inInt64
      unfold InInt64 at hN hc ⊢
      omega
    rw [hwrap]
  · intro san out err hs
    rw [WriteFrame_of_sanitize_error wr opts w frame hsize hcount san out err hs]

/-- The recording writer answers the first call with an error and the second
with success: the error comes back unchanged and is not counted, the success
is counted; a rejecting sanitizer's error comes back with nothing written. -/
theorem highlevelWriter_WriteFrame_delegates_witness :
    highlevelWriter.WriteFrame (recordingWriter "application/yaml") ⟨10, 5, newlineSanitizer⟩
        ⟨⟨[], [some (Err.other "disk full"), none]⟩, 0, 0⟩ (ascii "a")
      = (⟨⟨[ascii "a\n"], [none]⟩, 1, 0⟩, some (Err.other "disk full"))
    ∧ highlevelWriter.WriteFrame (recordingWriter "application/yaml") ⟨10, 5, newlineSanitizer⟩
        ⟨⟨[ascii "a\n"], [none]⟩, 1, 0⟩ (ascii "a")
      = (⟨⟨[ascii "a\n", ascii "a\n"], []⟩, 2, 1⟩, none)
    ∧ highlevelWriter.WriteFrame (recordingWriter "application/yaml")
        ⟨10, 5, rejectingSanitizer (Err.other "bad frame")⟩ ⟨⟨[], []⟩, 0, 0⟩ (ascii "a")
      = (⟨⟨[], []⟩, 1, 0⟩, some (Err.other "bad frame")) :=
  ⟨(highlevelWriter_WriteFrame_delegates (recordingWriter "application/yaml")
      ⟨10, 5, newlineSanitizer⟩ ⟨⟨[], [some (Err.other "disk full"), none]⟩, 0, 0⟩ (ascii "a")
      (by decide) (by decide) (by decide) (by decide)).1 1 (ascii "a\n") (by decide) (by decide),
   (highlevelWriter_WriteFrame_delegates (recordingWriter "application/yaml")
      ⟨10, 5, newlineSanitizer⟩ ⟨⟨[ascii "a\n"], [none]⟩, 1, 0⟩ (ascii "a")
      (by decide) (by decide) (by decide) (by decide)).1 2 (ascii "a\n") (by decide) (by decide),
   (highlevelWriter_WriteFrame_delegates (recordingWriter "application/yaml")
      ⟨10, 5, rejectingSanitizer (Err.other "bad frame")⟩ ⟨⟨[], []⟩, 0, 0⟩ (ascii "a")
      (by decide) (by decide) (by decide) (by decide)).2 1 [] (Err.other "bad frame")
      (by decide)⟩

/-- C5, as stated, fails: the size check is made on the frame as given, before
the Sanitizer runs, and the low-level writer is handed the Sanitizer's output.
With `MaxFrameSize = 3` and a sanitizer that ends the frame with a newline,
the 3-byte frame `abc` passes the check and the low-level writer receives the
4-byte frame `abc\n`. -/
theorem highlevelWriter_frame_invariant_counterexample :
    (highlevelWriter.WriteFrame (recordingWriter "application/yaml") ⟨3, 5, newlineSanitizer⟩
        (newHighlevelWriter ⟨[], []⟩ 0) (ascii "abc")).1.writer.received = [ascii "abc\n"]
    ∧ (highlevelWriter.WriteFrame (recordingWriter "application/yaml") ⟨3, 5, newlineSanitizer⟩
        (newHighlevelWriter ⟨[], []⟩ 0) (ascii "abc")).2 = none
    ∧ ¬ (((ascii "abc\n").length : Int) ≤ 3) := by
  decide

/-- C5 (amended): for every Sanitizer that never returns a frame longer than
the one it was given (such as the identity default) and every input frame,
every frame that `WriteFrame` hands to the low-level writer has length at most
`MaxFrameSize`: what a spy around the low-level writer has recorded after the
call is what it had recorded before, followed by the frames handed over in
this call (at most one), and each of these satisfies the bound. -/
theorem highlevelWriter_frame_invariant {σ τ : Type} (wr : Writer σ) (opts : WriterOptions τ)
    (w : highlevelWriter (σ × List Bytes × Nat) τ) (frame : Bytes)
    (hsan : ∀ (s : τ) (ft : FramingType) (f : Bytes),
      (opts.Sanitizer.Sanitize s ft f).2.1.length ≤ f.length) :
    ∃ handed : List Bytes,
      (highlevelWriter.WriteFrame (spyWriter wr) opts w frame).1.writer.2.1
        = w.writer.2.1 ++ handed
      ∧ handed.length ≤ 1
      ∧ ∀ f ∈ handed, (f.length : Int) ≤ opts.MaxFrameSize := by
  by_cases hsize : (frame.length : Int) ≤ opts.MaxFrameSize
  swap
  · rw [WriteFrame_of_oversize _ _ _ _ (by omega)]
    exact ⟨[], by simp, by simp, by simp⟩
  by_cases hcount : w.frameCount < opts.MaxFrames
  swap
  · rw [WriteFrame_of_full _ _ _ _ hsize (by omega)]
    exact ⟨[], by simp, by simp, by simp⟩
  obtain ⟨san, out, r, hs⟩ : ∃ san out r,
      opts.Sanitizer.Sanitize w.sanitizer ((spyWriter wr).FramingType w.writer) frame
        = (san, out, r) := ⟨_, _, _, rfl⟩
  have hlen : out.length ≤ frame.length := by
    have := hsan w.sanitizer ((spyWriter wr).FramingType w.writer) frame
    rw [hs] at this
    exact this
  cases r with
  | some e =>
    rw [WriteFrame_of_sanitize_error _ _ _ _ hsize hcount san out e hs]
    exact ⟨[], by simp, by simp, by simp⟩
  | none =>
    by_cases hout : out = []
    · subst hout
      rw [WriteFrame_of_sanitize_empty _ _ _ _ hsize hcount san hs]
      exact ⟨[], by simp, by simp, by simp⟩
    · rw [WriteFrame_of_delegate _ _ _ _ hsize hcount san out hout hs]
      obtain ⟨lw, r, hw⟩ : ∃ lw r, wr.WriteFrame w.writer.1 out = (lw, r) := ⟨_, _, rfl⟩
      have hrec : ((spyWriter wr).WriteFrame w.writer out).1.2.1 = w.writer.2.1 ++ [out] := by
        cases r with
        | none => rw [spyWriter_WriteFrame_ok wr w.writer out lw hw]
        | some e => rw [spyWriter_WriteFrame_err wr w.writer out lw e hw]
      refine ⟨[out], hrec, by simp, ?_⟩
      intro f hf
      rw [List.mem_singleton] at hf
      subst hf
      have : (f.length : Int) ≤ (frame.length : Int) := by exact_mod_cast hlen
      omega

/-- With the identity sanitizer and `MaxFrameSize = 3`, a spy that had
recorded one frame has recorded the frame `abc` in addition after the call. -/
theorem highlevelWriter_frame_invariant_witness :
    (highlevelWriter.WriteFrame (spyWriter (recordingWriter "application/yaml"))
        ⟨3, 5, identitySanitizer⟩ ⟨(⟨[], []⟩, [ascii "old frame"], 1), 0, 1⟩
        (ascii "abc")).1.writer.2.1 = [ascii "old frame", ascii "abc"]
    ∧ ∃ handed : List Bytes,
      (highlevelWriter.WriteFrame (spyWriter (recordingWriter "application/yaml"))
        ⟨3, 5, identitySanitizer⟩ ⟨(⟨[], []⟩, [ascii "old frame"], 1), 0, 1⟩
        (ascii "abc")).1.writer.2.1 = [ascii "old frame"] ++ handed
      ∧ handed.length ≤ 1
      ∧ ∀ f ∈ handed, (f.length : Int) ≤ 3 :=
  ⟨by decide,
   highlevelWriter_frame_invariant (recordingWriter "application/yaml") ⟨3, 5, identitySanitizer⟩
    ⟨(⟨[], []⟩, [ascii "old frame"], 1), 0, 1⟩ (ascii "abc") (fun _ _ _ => Nat.le_refl _)⟩

/-! ## The single-frame reader and writer (single.go) -/

/-- C6: for a `singleReader` over any content stream,
(1) the first `ReadFrame` returns exactly what reading the stream to its end
(`io.ReadAll`) returns, bytes and error, and marks the reader as read;
(2) once a first call has returned, whatever it returned, every later
`ReadFrame` returns no frame and `io.EOF`, and the reader with its stream is
left as it was (the stream is not read again);
(3) over an in-memory source of at most `maxBytes` bytes behind the limiting
wrapper the first frame is the whole content, with no error;
(4) over an empty source the first frame is empty, with no error (not an
overflow). -/
theorem singleReader_ReadFrame_once {ρ : Type} (rd : IoReader ρ) (grow : Nat → Nat)
    (fuel : Nat) :
    (∀ s : ρ, singleReader.ReadFrame rd grow fuel { r := s, hasBeenRead := false }
        = (ReadAll rd grow fuel s).map
            (fun x => ({ r := x.1, hasBeenRead := true }, x.2.1, x.2.2)))
    ∧ (∀ (s : ρ) (r1 : singleReader ρ) (frame : Bytes) (err : Option Err),
        singleReader.ReadFrame rd grow fuel { r := s, hasBeenRead := false }
          = some (r1, frame, err) →
        ∀ (n fuel1 : Nat),
          singleReader.afterCalls rd grow fuel1 n r1 = some r1
          ∧ singleReader.ReadFrame rd grow fuel1 r1 = some (r1, [], some Err.EOF))
    ∧ (∀ (data : Bytes) (maxBytes : Int), (data.length : Int) ≤ maxBytes →
        data.length < fuel → (∀ c, c < grow c) →
        singleReader.ReadFrame (WrapLimited bytesReader maxBytes) grow fuel (newSingleReader data)
          = some ({ r := ([], (data.length : Int)), hasBeenRead := true }, data, none))
    ∧ (∀ maxBytes : Int, 0 ≤ maxBytes → 0 < fuel →
        singleReader.ReadFrame (WrapLimited bytesReader maxBytes) grow fuel (newSingleReader [])
          = some ({ r := ([], 0), hasBeenRead := true }, [], none)) := by
  refine ⟨fun s => singleReader_ReadFrame_first rd grow fuel s, ?_, ?_, ?_⟩
  · intro s r1 frame err h n fuel1
    have hread := singleReader_hasBeenRead_of_first rd grow fuel s r1 frame err h
    exact ⟨singleReader_afterCalls_read rd grow fuel1 r1 hread n,
      singleReader_ReadFrame_read rd grow fuel1 r1 hread⟩
  · intro data maxBytes hmax hfuel hgrow
    unfold newSingleReader
    rw [singleReader_ReadFrame_first]
    unfold ReadAll
    rw [ReadAll_loop_limited_bytes grow hgrow maxBytes fuel data 0 [] 512 hfuel
      (by omega) (by simp)]
    simp
  · intro maxBytes hmax hfuel
    obtain ⟨k, rfl⟩ : ∃ k, fuel = k + 1 := ⟨fuel - 1, by omega⟩
    unfold newSingleReader
    rw [singleReader_ReadFrame_first]
    unfold ReadAll ReadAll.loop
    simp only [WrapLimited_bytes_Read_nil maxBytes 0 _ hmax]
    simp

/-- Scenario C of the spec and a three-byte source, with `MaxFrameSize = 10`:
the first call returns the content, the calls after it return `io.EOF`. -/
theorem singleReader_ReadFrame_once_witness :
    singleReader.ReadFrame (WrapLimited bytesReader 10) (fun c => 2 * c + 1) 4
        (newSingleReader (ascii "abc"))
      = some ({ r := ([], 3), hasBeenRead := true }, ascii "abc", none)
    ∧ singleReader.ReadFrame (WrapLimited bytesReader 10) (fun c => 2 * c + 1) 4
        (newSingleReader [])
      = some ({ r := ([], 0), hasBeenRead := true }, [], none)
    ∧ (singleReader.afterCalls (WrapLimited bytesReader 10) (fun c => 2 * c + 1) 0 3
          { r := ([], 0), hasBeenRead := true } = some { r := ([], 0), hasBeenRead := true }
      ∧ singleReader.ReadFrame (WrapLimited bytesReader 10) (fun c => 2 * c + 1) 0
          { r := ([], 0), hasBeenRead := true }
        = some ({ r := ([], 0), hasBeenRead := true }, [], some Err.EOF)) :=
  ⟨(singleReader_ReadFrame_once (WrapLimited bytesReader 10) (fun c => 2 * c + 1) 4).2.2.1
      (ascii "abc") 10 (by decide) (by decide) (fun c => by omega),
   (singleReader_ReadFrame_once (WrapLimited bytesReader 10) (fun c => 2 * c + 1) 4).2.2.2
      10 (by decide) (by decide),
   (singleReader_ReadFrame_once (WrapLimited bytesReader 10) (fun c => 2 * c + 1) 4).2.1
      ([], 0) { r := ([], 0), hasBeenRead := true } [] none (by decide) 3 0⟩

/-- C7: for a new `singleWriter` over any content writer and any sequence of
`WriteFrame` calls: the content writer goes through exactly one `Write`, that
of the first call with the first frame (and through none when there is no
call); the first call returns that `Write`'s result with the short-write
guard applied; every later call returns `io.ErrClosedPipe` and leaves the
content writer as the first call left it, whatever the first call returned. -/
theorem singleWriter_WriteFrame_once {ω : Type} (cw : IoWriter ω) (w0 : ω) (frame : Bytes)
    (rest : List Bytes) :
    singleWriter.writeCalls cw (newSingleWriter w0) [] = (newSingleWriter w0, [])
    ∧ singleWriter.writeCalls cw (newSingleWriter w0) (frame :: rest)
      = ({ w := (cw.Write w0 frame).1, hasBeenWritten := true },
         catchShortWrite (cw.Write w0 frame).2.1 (cw.Write w0 frame).2.2 frame
           :: List.replicate rest.length (some Err.ErrClosedPipe))
    ∧ (∀ (w : singleWriter ω) (later : Bytes), w.hasBeenWritten = true →
        singleWriter.WriteFrame cw w later = (w, some Err.ErrClosedPipe)) := by
  refine ⟨rfl, ?_, fun w later h => singleWriter_WriteFrame_written cw w later h⟩
  unfold singleWriter.writeCalls
  have hfirst : singleWriter.WriteFrame cw (newSingleWriter w0) frame
      = ({ w := (cw.Write w0 frame).1, hasBeenWritten := true },
         catchShortWrite (cw.Write w0 frame).2.1 (cw.Write w0 frame).2.2 frame) := by
    simp [singleWriter.WriteFrame, newSingleWriter]
  simp only [hfirst]
  rw [singleWriter_writeCalls_written cw _ rfl rest]

/-- Three calls on a recording content writer whose first `Write` fails: the
content writer has received the first frame only, and the two later calls
return the closed-pipe error; so does a call on a writer that has written. -/
theorem singleWriter_WriteFrame_once_witness :
    singleWriter.writeCalls recordingIoWriter
        (newSingleWriter ([], [(0, some (Err.other "disk full"))]))
        [ascii "a", ascii "b", ascii "c"]
      = ({ w := ([ascii "a"], []), hasBeenWritten := true },
         [some (Err.other "disk full"), some Err.ErrClosedPipe, some Err.ErrClosedPipe])
    ∧ singleWriter.WriteFrame recordingIoWriter
        { w := ([ascii "a"], []), hasBeenWritten := true } (ascii "b")
      = ({ w := ([ascii "a"], []), hasBeenWritten := true }, some Err.ErrClosedPipe) :=
  ⟨(singleWriter_WriteFrame_once recordingIoWriter
      ([], [(0, some (Err.other "disk full"))]) (ascii "a") [ascii "b", ascii "c"]).2.1,
   (singleWriter_WriteFrame_once recordingIoWriter
      ([], [(0, some (Err.other "disk full"))]) (ascii "a") [ascii "b", ascii "c"]).2.2
      { w := ([ascii "a"], []), hasBeenWritten := true } (ascii "b") rfl⟩

/-! ## The readers (single.go, reader_yaml.go, reader_streaming.go) -/

/-- C8, as stated, fails for each strategy.
`singleReader`: over a 3-byte content limited to 2 bytes the first `ReadFrame`
returns the frame-size-overflow error and the second returns `io.EOF`.
`yamlReader`: with `maxFrameSize = 5`, the 8-byte document `abcdefg\n` is
within the budget of the limiting wrapper (5 + 4 bytes), so the overflow is
raised by the final size check, after the counter was reset; the next call
returns `io.EOF`.
`streamingReader`: it keeps no state of its own; when the stream reader
answers object-too-large and then a frame, the call after the overflow
returns that frame. -/
theorem overflow_absorbing_counterexample :
    (singleReader.ReadFrame (WrapLimited bytesReader 2) (fun c => 2 * c + 1) 4
        (newSingleReader (ascii "abc"))
      = some ({ r := ([], 3), hasBeenRead := true }, [], some (Err.FrameSizeOverflow 2))
     ∧ singleReader.ReadFrame (WrapLimited bytesReader 2) (fun c => 2 * c + 1) 4
        { r := ([], 3), hasBeenRead := true }
      = some ({ r := ([], 3), hasBeenRead := true }, [], some Err.EOF))
    ∧ yamlReader.readCalls (memYAMLReader 5) 2 (splitLines (ascii "abcdefg\n"))
      = [([], some (Err.FrameSizeOverflow 5)), ([], some Err.EOF)]
    ∧ (streamingReader.ReadFrame ⟨scriptedStreamReader, 10⟩
        [([], some Err.ErrObjectTooLarge), (ascii "{}", none)]
      = ([(ascii "{}", none)], [], some (Err.FrameSizeOverflow 10))
     ∧ streamingReader.ReadFrame ⟨scriptedStreamReader, 10⟩ [(ascii "{}", none)]
      = ([], ascii "{}", none)) :=
  ⟨⟨by decide, by decide⟩, by decide, by decide, by decide⟩

/-- C8 (amended): an overflow lasts as long as the stream beneath the reader
keeps reporting it.
`yamlReader`: when the segment reader, which reads through the limiting
wrapper, returns an error `e` (such as the wrapper's frame-size-overflow
error) and keeps returning it while nobody resets the wrapper, then the
`ReadFrame` call and every call after it return `e` with no frame, and the
reader's state only moves by the segment reader's own steps: the counter is
never reset.
`streamingReader`: when the stream reader's error matches object-too-large and
keeps matching it, every call returns the frame-size-overflow error for
`maxFrameSize`.
`singleReader`: whatever the first call returned, every later call returns
`io.EOF` with no frame. -/
theorem overflow_absorbing_while_stream_reports {κ κ1 ρ : Type}
    (r : yamlReader κ) (s : κ) (e : Err)
    (hsticky : ∀ t, (r.cr.Read t).2.2 = some e → (r.cr.Read (r.cr.Read t).1).2.2 = some e)
    (h : (r.cr.Read s).2.2 = some e)
    (q : streamingReader κ1) (s1 : κ1)
    (hsticky1 : ∀ t, isObjectTooLarge (q.streamReader.Read t).2.2 = true →
      isObjectTooLarge (q.streamReader.Read (q.streamReader.Read t).1).2.2 = true)
    (h1 : isObjectTooLarge (q.streamReader.Read s1).2.2 = true)
    (rd : IoReader ρ) (grow : Nat → Nat) (fuel : Nat) :
    (∀ n : Nat,
      (yamlReader.ReadFrame r (yamlReader.afterCalls r n s)).2 = ([], some e)
      ∧ yamlReader.afterCalls r n s = (fun t => (r.cr.Read t).1)^[n] s)
    ∧ (∀ n : Nat,
      (streamingReader.ReadFrame q (streamingReader.afterCalls q n s1)).2.2
        = some (Err.FrameSizeOverflow q.maxFrameSize))
    ∧ (∀ (s0 : ρ) (r1 : singleReader ρ) (frame : Bytes) (err : Option Err),
      singleReader.ReadFrame rd grow fuel { r := s0, hasBeenRead := false }
        = some (r1, frame, err) →
      ∀ n : Nat, (singleReader.afterCalls rd grow fuel n r1).bind
          (singleReader.ReadFrame rd grow fuel) = some (r1, [], some Err.EOF)) := by
  refine ⟨fun n => yamlReader_sticky r e hsticky n s h,
    fun n => streamingReader_sticky q hsticky1 n s1 h1, ?_⟩
  intro s0 r1 frame err hfirst n
  have hread := singleReader_hasBeenRead_of_first rd grow fuel s0 r1 frame err hfirst
  rw [singleReader_afterCalls_read rd grow fuel r1 hread n]
  exact singleReader_ReadFrame_read rd grow fuel r1 hread

/-- A 3-byte content behind a limiting wrapper of 2 bytes: the segment reader
reports the overflow on every call, and so does `ReadFrame`, at the first call
and at the third call after it; a stream reader stuck on a too large object;
a single-frame reader after its first call. -/
theorem overflow_absorbing_while_stream_reports_witness :
    ((yamlReader.ReadFrame ⟨limitedChunks 2, 2, WrapLimited.resetFn⟩
        (yamlReader.afterCalls ⟨limitedChunks 2, 2, WrapLimited.resetFn⟩ 3 (ascii "abc", 0))).2
        = ([], some (Err.FrameSizeOverflow 2))
      ∧ yamlReader.afterCalls ⟨limitedChunks 2, 2, WrapLimited.resetFn⟩ 3 (ascii "abc", 0)
        = (fun t => ((limitedChunks 2).Read t).1)^[3] (ascii "abc", 0))
    ∧ (streamingReader.ReadFrame ⟨tooLargeStreamReader, 10⟩
        (streamingReader.afterCalls ⟨tooLargeStreamReader, 10⟩ 3 0)).2.2
        = some (Err.FrameSizeOverflow 10)
    ∧ (singleReader.afterCalls (WrapLimited bytesReader 2) (fun c => 2 * c + 1) 4 3
          { r := ([], 3), hasBeenRead := true }).bind
        (singleReader.ReadFrame (WrapLimited bytesReader 2) (fun c => 2 * c + 1) 4)
        = some ({ r := ([], 3), hasBeenRead := true }, [], some Err.EOF) :=
  have hw := overflow_absorbing_while_stream_reports
    ⟨limitedChunks 2, 2, WrapLimited.resetFn⟩ (ascii "abc", 0) (Err.FrameSizeOverflow 2)
    (fun t ht => limitedChunks_sticky 2 t ht) (by decide)
    ⟨tooLargeStreamReader, 10⟩ 0 (fun _ _ => rfl) (by decide)
    (WrapLimited bytesReader 2) (fun c => 2 * c + 1) 4
  ⟨hw.1 3, hw.2.1 3, hw.2.2 (ascii "abc", 0) { r := ([], 3), hasBeenRead := true } []
    (some (Err.FrameSizeOverflow 2)) (by decide) 3⟩

/-- C9: (1) a frame that `yamlReader.ReadFrame` returns without error has
length at most `maxFrameSize`; (2) when the document the segment reader
extracted is longer than `maxFrameSize`, `ReadFrame` returns no frame and the
frame-size-overflow error for `maxFrameSize`; (3) an error of the segment
reader is returned as it is, with no frame. -/
theorem yamlReader_ReadFrame_size {κ : Type} (r : yamlReader κ) (s : κ) :
    (∀ (s1 : κ) (frame : Bytes), yamlReader.ReadFrame r s = (s1, frame, none) →
      (frame.length : Int) ≤ r.maxFrameSize)
    ∧ (∀ (s1 : κ) (doc : Bytes), r.cr.Read s = (s1, doc, none) →
      r.maxFrameSize < (doc.length : Int) →
      (yamlReader.ReadFrame r s).2 = ([], some (Err.FrameSizeOverflow r.maxFrameSize)))
    ∧ (∀ (s1 : κ) (doc : Bytes) (e : Err), r.cr.Read s = (s1, doc, some e) →
      (yamlReader.ReadFrame r s).2 = ([], some e)) := by
  refine ⟨?_, ?_, ?_⟩
  · intro s1 frame h
    rcases hr : r.cr.Read s with ⟨t, doc, err⟩
    cases err with
    | some e =>
      rw [yamlReader_ReadFrame_of_error r s e (by rw [hr])] at h
      simp at h
    | none =>
      rw [yamlReader_ReadFrame_of_document r s (by rw [hr]), hr] at h
      by_cases hlen : (doc.length : Int) > r.maxFrameSize
      · simp [hlen] at h
      · simp only [hlen, if_false, Prod.mk.injEq] at h
        rw [← h.2.1]
        omega
  · intro s1 doc hr hlen
    rw [yamlReader_ReadFrame_of_document r s (by rw [hr]), hr]
    simp [hlen]
  · intro s1 doc e hr
    rw [yamlReader_ReadFrame_of_error r s e (by rw [hr])]

/-- With `maxFrameSize = 5`: the document `foo\n` is returned, the document
`abcdefg\n` is refused, and the `io.EOF` of the segment reader at the end of
the content is passed on. -/
theorem yamlReader_ReadFrame_size_witness :
    ((ascii "foo\n").length : Int) ≤ (memYAMLReader 5).maxFrameSize
    ∧ (yamlReader.ReadFrame (memYAMLReader 5) (splitLines (ascii "abcdefg\n"))).2
      = ([], some (Err.FrameSizeOverflow (memYAMLReader 5).maxFrameSize))
    ∧ (yamlReader.ReadFrame (memYAMLReader 5) []).2 = ([], some Err.EOF) :=
  ⟨(yamlReader_ReadFrame_size (memYAMLReader 5) (splitLines (ascii "foo\n"))).1
      [] (ascii "foo\n") (by decide),
   (yamlReader_ReadFrame_size (memYAMLReader 5) (splitLines (ascii "abcdefg\n"))).2.1
      [] (ascii "abcdefg\n") (by decide) (by decide),
   (yamlReader_ReadFrame_size (memYAMLReader 5) []).2.2 [] [] Err.EOF (by decide)⟩

/-- C10 on the code: over the content of scenario A,
`---\nfoo: 1\n---\nbar: 2\n`, the first frame that `yamlReader.ReadFrame`
returns without error is `---\nfoo: 1\n`, whose first line is the separator;
then come `bar: 2\n` and `io.EOF`. `ReadFrame` returns the document of the
upstream segment reader as it is. -/
theorem yamlReader_ReadFrame_scenario_A :
    yamlReader.readCalls (memYAMLReader 1000) 3
        (splitLines (ascii "---\nfoo: 1\n---\nbar: 2\n"))
      = [(ascii "---\nfoo: 1\n", none), (ascii "bar: 2\n", none), ([], some Err.EOF)]
    ∧ (ascii "---\n").isPrefixOf (ascii "---\nfoo: 1\n") = true := by
  decide

/-! ## The factory (reader_factory.go, writer_factory.go) -/

theorem errReader_readCalls (er : errReader) :
    ∀ n : Nat, errReader.readCalls n er = List.replicate n ([], some er.err) := by
  intro n
  induction n with
  | zero => rfl
  | succ n ih =>
    simp only [errReader.readCalls, errReader.ReadFrame, ih, List.replicate_succ]

theorem factoryWriter_err_WriteFrame {ω τ : Type} (opts : WriterOptions τ)
    (hw : highlevelWriter (lowlevelWriter ω) τ) (ew : errWriter) (w0 : ω)
    (hwriter : hw.writer = lowlevelWriter.err ew w0) (frame : Bytes) :
    (highlevelWriter.WriteFrame (factoryWriter ω) opts hw frame).1.writer
        = lowlevelWriter.err ew w0
      ∧ (highlevelWriter.WriteFrame (factoryWriter ω) opts hw frame).1.frameCount
        = hw.frameCount := by
  by_cases hsize : (frame.length : Int) ≤ opts.MaxFrameSize
  swap
  · rw [WriteFrame_of_oversize _ _ _ _ (by omega)]
    exact ⟨hwriter, rfl⟩
  by_cases hcount : hw.frameCount < opts.MaxFrames
  swap
  · rw [WriteFrame_of_full _ _ _ _ hsize (by omega)]
    exact ⟨hwriter, rfl⟩
  obtain ⟨san, out, r, hs⟩ : ∃ san out r,
      opts.Sanitizer.Sanitize hw.sanitizer ((factoryWriter ω).FramingType hw.writer) frame
        = (san, out, r) := ⟨_, _, _, rfl⟩
  cases r with
  | some e =>
    rw [WriteFrame_of_sanitize_error _ _ _ _ hsize hcount san out e hs]
    exact ⟨hwriter, rfl⟩
  | none =>
    by_cases hout : out = []
    · subst hout
      rw [WriteFrame_of_sanitize_empty _ _ _ _ hsize hcount san hs]
      exact ⟨hwriter, rfl⟩
    · rw [WriteFrame_of_delegate _ _ _ _ hsize hcount san out hout hs]
      have hstep : (factoryWriter ω).WriteFrame hw.writer out
          = (lowlevelWriter.err ew w0, some ew.err) := by
        rw [hwriter]
        rfl
      simp only [hstep, reduceCtorEq, if_false, and_self]

theorem factoryWriter_err_writeCalls {ω τ : Type} (opts : WriterOptions τ) (ew : errWriter)
    (w0 : ω) (frames : List Bytes) :
    ∀ hw : highlevelWriter (lowlevelWriter ω) τ, hw.writer = lowlevelWriter.err ew w0 →
      (highlevelWriter.writeCalls (factoryWriter ω) opts hw frames).1.writer
          = lowlevelWriter.err ew w0
        ∧ (highlevelWriter.writeCalls (factoryWriter ω) opts hw frames).1.frameCount
          = hw.frameCount := by
  induction frames with
  | nil => intro hw h; exact ⟨h, rfl⟩
  | cons frame rest ih =>
    intro hw h
    have hstep := factoryWriter_err_WriteFrame opts hw ew w0 h frame
    have hrest := ih _ hstep.1
    simp only [highlevelWriter.writeCalls]
    exact ⟨hrest.1, hrest.2.trans hstep.2⟩

/-- C11: for a framing type other than YAML and JSON and options with
`MaxFrames ≠ 1`, `lowlevelFromReadCloser` builds the error reader for the
unsupported-framing-type error of that type and leaves the content reader it
was given as it is. Every `ReadFrame` call on that reader returns no frame
and this error, `Close` returns nil, `FramingType()` is the requested type;
the reader holds no content reader and its calls return it unchanged, so
nothing is read from or closed on the given content reader. -/
theorem lowlevelFromReadCloser_unsupported {ρ : Type}
    (FramingTypeYAML FramingTypeJSON framingType : FramingType) (r : ρ) (o : ReaderOptions)
    (hyaml : framingType ≠ FramingTypeYAML) (hjson : framingType ≠ FramingTypeJSON)
    (hmax : o.MaxFrames ≠ 1) :
    lowlevelFromReadCloser FramingTypeYAML FramingTypeJSON framingType r o
        = lowlevelReader.err
            (newErrReader framingType (Err.UnsupportedFramingType framingType)) r
      ∧ errReader.ReadFrame (newErrReader framingType (Err.UnsupportedFramingType framingType))
        = (newErrReader framingType (Err.UnsupportedFramingType framingType), [],
            some (Err.UnsupportedFramingType framingType))
      ∧ (∀ n : Nat,
          errReader.readCalls n (newErrReader framingType (Err.UnsupportedFramingType framingType))
            = List.replicate n ([], some (Err.UnsupportedFramingType framingType)))
      ∧ errReader.Close (newErrReader framingType (Err.UnsupportedFramingType framingType))
        = (newErrReader framingType (Err.UnsupportedFramingType framingType), none)
      ∧ lowlevelReader.FramingType FramingTypeYAML FramingTypeJSON
          (lowlevelFromReadCloser FramingTypeYAML FramingTypeJSON framingType r o)
        = framingType := by
  have hbuild : lowlevelFromReadCloser FramingTypeYAML FramingTypeJSON framingType r o
      = lowlevelReader.err
          (newErrReader framingType (Err.UnsupportedFramingType framingType)) r := by
    simp [lowlevelFromReadCloser, hyaml, hjson, hmax, MakeUnsupportedFramingTypeError]
  refine ⟨hbuild, rfl, fun n => errReader_readCalls _ n, rfl, ?_⟩
  rw [hbuild]
  rfl

/-- The framing type `doesnotexist` with unbounded `MaxFrames`, over an
in-memory content that stays unread. -/
theorem lowlevelFromReadCloser_unsupported_witness :
    lowlevelFromReadCloser "application/yaml" "application/json" "doesnotexist"
        (ascii "content") ⟨1024, 9223372036854775807⟩
        = lowlevelReader.err
            (newErrReader "doesnotexist" (Err.UnsupportedFramingType "doesnotexist"))
            (ascii "content")
      ∧ errReader.ReadFrame (newErrReader "doesnotexist" (Err.UnsupportedFramingType "doesnotexist"))
        = (newErrReader "doesnotexist" (Err.UnsupportedFramingType "doesnotexist"), [],
            some (Err.UnsupportedFramingType "doesnotexist"))
      ∧ (∀ n : Nat,
          errReader.readCalls n
              (newErrReader "doesnotexist" (Err.UnsupportedFramingType "doesnotexist"))
            = List.replicate n ([], some (Err.UnsupportedFramingType "doesnotexist")))
      ∧ errReader.Close (newErrReader "doesnotexist" (Err.UnsupportedFramingType "doesnotexist"))
        = (newErrReader "doesnotexist" (Err.UnsupportedFramingType "doesnotexist"), none)
      ∧ lowlevelReader.FramingType "application/yaml" "application/json"
          (lowlevelFromReadCloser "application/yaml" "application/json" "doesnotexist"
            (ascii "content") ⟨1024, 9223372036854775807⟩)
        = "doesnotexist" :=
  lowlevelFromReadCloser_unsupported "application/yaml" "application/json" "doesnotexist"
    (ascii "content") ⟨1024, 9223372036854775807⟩ (by decide) (by decide) (by decide)

/-- C12, as stated, fails: the policy layer makes its checks before the
factory's writer is reached. For the framing type `doesnotexist` with
`MaxFrames = 2` and `MaxFrameSize = 10`, a one-byte frame returns the
unsupported-framing-type error, but an empty frame returns nil (it is dropped)
and an 11-byte frame returns the frame-size-overflow error. -/
theorem NewWriter_unsupported_counterexample :
    (highlevelWriter.writeCalls (factoryWriter (List Bytes × List (Int × Option Err)))
        ⟨10, 2, identitySanitizer⟩
        (NewWriter "application/yaml" "application/json" "doesnotexist" recordingIoWriter
          ([], []) ⟨10, 2, identitySanitizer⟩ 0)
        [[0], [], List.replicate 11 0]).2
      = [some (Err.UnsupportedFramingType "doesnotexist"), none,
          some (Err.FrameSizeOverflow 10)] := by
  decide

/-- C12 (amended): for a framing type other than YAML and JSON and options
with `MaxFrames ≠ 1` and `MaxFrames > 0`, after any sequence of `WriteFrame`
calls on the writer `NewWriter` returns, the content writer that was given is
in the state it was given in (nothing has been written to it), `frameCount`
is zero, and a further call with a frame of at most `MaxFrameSize` bytes that
the Sanitizer turns into a non-empty frame without error returns the
unsupported-framing-type error of the requested type. -/
theorem NewWriter_unsupported {ω τ : Type}
    (FramingTypeYAML FramingTypeJSON framingType : FramingType) (cw : IoWriter ω) (w0 : ω)
    (opts : WriterOptions τ) (san0 : τ) (frames : List Bytes)
    (hyaml : framingType ≠ FramingTypeYAML) (hjson : framingType ≠ FramingTypeJSON)
    (hmax : opts.MaxFrames ≠ 1) (hpos : 0 < opts.MaxFrames) :
    lowlevelWriter.content (highlevelWriter.writeCalls (factoryWriter ω) opts
        (NewWriter FramingTypeYAML FramingTypeJSON framingType cw w0 opts san0) frames).1.writer
        = w0
      ∧ (highlevelWriter.writeCalls (factoryWriter ω) opts
        (NewWriter FramingTypeYAML FramingTypeJSON framingType cw w0 opts san0)
          frames).1.frameCount = 0
      ∧ ∀ (frame : Bytes) (san : τ) (out : Bytes),
          (frame.length : Int) ≤ opts.MaxFrameSize →
          opts.Sanitizer.Sanitize
              (highlevelWriter.writeCalls (factoryWriter ω) opts
                (NewWriter FramingTypeYAML FramingTypeJSON framingType cw w0 opts san0)
                frames).1.sanitizer framingType frame = (san, out, none) →
          out ≠ [] →
          (highlevelWriter.WriteFrame (factoryWriter ω) opts
              (highlevelWriter.writeCalls (factoryWriter ω) opts
                (NewWriter FramingTypeYAML FramingTypeJSON framingType cw w0 opts san0)
                frames).1 frame).2
            = some (Err.UnsupportedFramingType framingType) := by
  have hbuild : (NewWriter FramingTypeYAML FramingTypeJSON framingType cw w0 opts san0).writer
      = lowlevelWriter.err
          (newErrWriter framingType (Err.UnsupportedFramingType framingType)) w0 := by
    simp [NewWriter, newHighlevelWriter, newFromContentWriter, hyaml, hjson, hmax,
      MakeUnsupportedFramingTypeError]
  have hinv := factoryWriter_err_writeCalls opts
    (newErrWriter framingType (Err.UnsupportedFramingType framingType)) w0 frames _ hbuild
  refine ⟨?_, hinv.2, ?_⟩
  · rw [hinv.1]
    rfl
  · intro frame san out hsize hs hout
    have hcount : (highlevelWriter.writeCalls (factoryWriter ω) opts
        (NewWriter FramingTypeYAML FramingTypeJSON framingType cw w0 opts san0)
          frames).1.frameCount < opts.MaxFrames := by
      rw [hinv.2]
      exact hpos
    have hft : (factoryWriter ω).FramingType (highlevelWriter.writeCalls (factoryWriter ω) opts
        (NewWriter FramingTypeYAML FramingTypeJSON framingType cw w0 opts san0)
          frames).1.writer = framingType := by
      rw [hinv.1]
      rfl
    rw [WriteFrame_of_delegate _ _ _ _ hsize hcount san out hout (by rw [hft]; exact hs),
      hinv.1]
    rfl

/-- The writer of the test `TestNewWriter_Unrecognized`, after an empty and
an oversized frame: the content writer has received nothing, and the one-byte
frame returns the unsupported-framing-type error. -/
theorem NewWriter_unsupported_witness :
    lowlevelWriter.content (highlevelWriter.writeCalls
        (factoryWriter (List Bytes × List (Int × Option Err))) ⟨10, 2, identitySanitizer⟩
        (NewWriter "application/yaml" "application/json" "doesnotexist" recordingIoWriter
          ([], []) ⟨10, 2, identitySanitizer⟩ 0) [[], List.replicate 11 0]).1.writer
        = ([], [])
      ∧ (highlevelWriter.WriteFrame (factoryWriter (List Bytes × List (Int × Option Err)))
          ⟨10, 2, identitySanitizer⟩
          (highlevelWriter.writeCalls (factoryWriter (List Bytes × List (Int × Option Err)))
            ⟨10, 2, identitySanitizer⟩
            (NewWriter "application/yaml" "application/json" "doesnotexist" recordingIoWriter
              ([], []) ⟨10, 2, identitySanitizer⟩ 0) [[], List.replicate 11 0]).1 [0]).2
        = some (Err.UnsupportedFramingType "doesnotexist") :=
  have hw := NewWriter_unsupported "application/yaml" "application/json" "doesnotexist"
    recordingIoWriter ([], []) ⟨10, 2, identitySanitizer⟩ 0 [[], List.replicate 11 0]
    (by decide) (by decide) (by decide) (by decide)
  ⟨hw.1, hw.2.2 [0] 2 [0] (by decide) (by decide) (by decide)⟩

/-- C13, as stated, fails on the reader side: the single-frame reader reads
through the limiting wrapper of `MaxFrameSize` bytes. With `MaxFrames = 1` and
`MaxFrameSize = 2` the factory selects the single-frame reader for the type
`doesnotexist`, and over the 3-byte content `abc` its `ReadFrame` returns the
frame-size-overflow error and no data. -/
theorem factory_single_counterexample :
    lowlevelFromReadCloser "application/yaml" "application/json" "doesnotexist"
        (ascii "abc") ⟨2, 1⟩
      = lowlevelReader.single "doesnotexist" 2 (newSingleReader (ascii "abc"))
    ∧ singleReader.ReadFrame (WrapLimited bytesReader 2) (fun c => 2 * c + 1) 4
        (newSingleReader (ascii "abc"))
      = some ({ r := ([], 3), hasBeenRead := true }, [], some (Err.FrameSizeOverflow 2)) :=
  ⟨by decide, by decide⟩

/-- C13 (amended): with `MaxFrames == 1` and a framing type other than YAML
and JSON the factory selects the single-frame strategy.
Reader: `lowlevelFromReadCloser` builds the single-frame reader over the
content reader behind the limiting wrapper of `MaxFrameSize` bytes, and
`FramingType()` is the requested type; its first `ReadFrame` returns what
`io.ReadAll` of the limited stream returns, which for an in-memory content of
at most `MaxFrameSize` bytes is the whole content with no error.
Writer: `newFromContentWriter` builds the single-frame writer over the given
content writer, `FramingType()` is the requested type, and its `WriteFrame`
hands the frame as it is to one `Write` of the content writer. -/
theorem factory_single {ρ ω τ : Type}
    (FramingTypeYAML FramingTypeJSON framingType : FramingType) (r : ρ) (o : ReaderOptions)
    (cw : IoWriter ω) (w : ω) (wo : WriterOptions τ)
    (hyaml : framingType ≠ FramingTypeYAML) (hjson : framingType ≠ FramingTypeJSON)
    (hmax : o.MaxFrames = 1) (hwmax : wo.MaxFrames = 1) :
    (lowlevelFromReadCloser FramingTypeYAML FramingTypeJSON framingType r o
        = lowlevelReader.single framingType o.MaxFrameSize (newSingleReader r)
      ∧ lowlevelReader.FramingType FramingTypeYAML FramingTypeJSON
          (lowlevelFromReadCloser FramingTypeYAML FramingTypeJSON framingType r o)
        = framingType
      ∧ (∀ (rd : IoReader ρ) (grow : Nat → Nat) (fuel : Nat),
          singleReader.ReadFrame (WrapLimited rd o.MaxFrameSize) grow fuel (newSingleReader r)
            = (ReadAll (WrapLimited rd o.MaxFrameSize) grow fuel (r, 0)).map
                (fun x => ({ r := x.1, hasBeenRead := true }, x.2.1, x.2.2)))
      ∧ (∀ (data : Bytes) (grow : Nat → Nat) (fuel : Nat),
          (data.length : Int) ≤ o.MaxFrameSize → data.length < fuel → (∀ c, c < grow c) →
          singleReader.ReadFrame (WrapLimited bytesReader o.MaxFrameSize) grow fuel
              (newSingleReader data)
            = some ({ r := ([], (data.length : Int)), hasBeenRead := true }, data, none)))
    ∧ (newFromContentWriter FramingTypeYAML FramingTypeJSON framingType cw w wo
        = lowlevelWriter.single cw framingType (newSingleWriter w)
      ∧ lowlevelWriter.FramingType
          (newFromContentWriter FramingTypeYAML FramingTypeJSON framingType cw w wo)
        = framingType
      ∧ (∀ frame : Bytes,
          lowlevelWriter.content (lowlevelWriter.WriteFrame
              (newFromContentWriter FramingTypeYAML FramingTypeJSON framingType cw w wo)
              frame).1
            = (cw.Write w frame).1
          ∧ (lowlevelWriter.WriteFrame
              (newFromContentWriter FramingTypeYAML FramingTypeJSON framingType cw w wo)
              frame).2
            = catchShortWrite (cw.Write w frame).2.1 (cw.Write w frame).2.2 frame)) := by
  have hbuild : lowlevelFromReadCloser FramingTypeYAML FramingTypeJSON framingType r o
      = lowlevelReader.single framingType o.MaxFrameSize (newSingleReader r) := by
    simp [lowlevelFromReadCloser, hyaml, hjson, hmax]
  have hwbuild : newFromContentWriter FramingTypeYAML FramingTypeJSON framingType cw w wo
      = lowlevelWriter.single cw framingType (newSingleWriter w) := by
    simp [newFromContentWriter, hyaml, hjson, hwmax]
  refine ⟨⟨hbuild, ?_, ?_, ?_⟩, hwbuild, ?_, ?_⟩
  · rw [hbuild]
    rfl
  · intro rd grow fuel
    exact singleReader_ReadFrame_first (WrapLimited rd o.MaxFrameSize) grow fuel (r, 0)
  · intro data grow fuel hlen hfuel hgrow
    unfold newSingleReader
    rw [singleReader_ReadFrame_first]
    unfold ReadAll
    rw [ReadAll_loop_limited_bytes grow hgrow o.MaxFrameSize fuel data 0 [] 512 hfuel
      (by omega) (by simp)]
    simp
  · rw [hwbuild]
    rfl
  · intro frame
    rw [hwbuild]
    simp [lowlevelWriter.WriteFrame, lowlevelWriter.content, singleWriter.WriteFrame,
      newSingleWriter]

/-- The framing type `doesnotexist` with `MaxFrames = 1`: the 3-byte content
`abc` is read as one frame within `MaxFrameSize = 10`, and the frame `abc` is
written as it is. -/
theorem factory_single_witness :
    singleReader.ReadFrame (WrapLimited bytesReader 10) (fun c => 2 * c + 1) 4
        (newSingleReader (ascii "abc"))
      = some ({ r := ([], 3), hasBeenRead := true }, ascii "abc", none)
    ∧ lowlevelWriter.content (lowlevelWriter.WriteFrame
        (newFromContentWriter "application/yaml" "application/json" "doesnotexist"
          recordingIoWriter ([], []) (⟨10, 1, identitySanitizer⟩ : WriterOptions Nat))
        (ascii "abc")).1
      = ([ascii "abc"], []) :=
  have hw := factory_single "application/yaml" "application/json" "doesnotexist"
    (ascii "abc") ⟨10, 1⟩ recordingIoWriter ([], [])
    (⟨10, 1, identitySanitizer⟩ : WriterOptions Nat) (by decide) (by decide) rfl rfl
  ⟨hw.1.2.2.2 (ascii "abc") (fun c => 2 * c + 1) 4 (by decide) (by decide)
      (fun c => by show c < 2 * c + 1; omega),
   (hw.2.2.2 (ascii "abc")).1⟩

/-! ## Short writes and error mapping (writer_delegate.go, reader_streaming.go) -/

theorem catchShortWrite_of_short (n : Int) (frame : Bytes) (h : n < (frame.length : Int)) :
    catchShortWrite n none frame = some Err.ErrShortWrite := by
  simp [catchShortWrite, h]

theorem catchShortWrite_of_not_short (n : Int) (err : Option Err) (frame : Bytes)
    (h : ¬ (n < (frame.length : Int) ∧ err = none)) :
    catchShortWrite n err frame = err := by
  simp only [catchShortWrite, h, if_false]

theorem catchShortWrite_ne_iff (n : Int) (err : Option Err) (frame : Bytes) :
    catchShortWrite n err frame ≠ err ↔ (n < (frame.length : Int) ∧ err = none) := by
  constructor
  · intro hne
    by_contra hnot
    exact hne (catchShortWrite_of_not_short n err frame hnot)
  · rintro ⟨hlt, rfl⟩
    rw [catchShortWrite_of_short n frame hlt]
    simp

/-- C14: `delegatingWriter.WriteFrame`, and `singleWriter.WriteFrame` on a
writer that has not written yet, make one `Write` of the frame on the content
writer. With `n` the number of bytes that `Write` accepted and `err` its
error: when `n < len(frame)` and `err` is nil the call returns
`io.ErrShortWrite`; in every other case it returns `err` as it is, which is
nil when all bytes were accepted without error. The call's result differs
from `err` exactly in the first case. -/
theorem WriteFrame_short_write {ω : Type} (cw : IoWriter ω) (w : delegatingWriter ω)
    (sw : ω) (frame : Bytes) :
    ((delegatingWriter.WriteFrame cw w frame).1.w = (cw.Write w.w frame).1
      ∧ ((cw.Write w.w frame).2.1 < (frame.length : Int) ∧ (cw.Write w.w frame).2.2 = none →
          (delegatingWriter.WriteFrame cw w frame).2 = some Err.ErrShortWrite)
      ∧ (¬ ((cw.Write w.w frame).2.1 < (frame.length : Int) ∧ (cw.Write w.w frame).2.2 = none) →
          (delegatingWriter.WriteFrame cw w frame).2 = (cw.Write w.w frame).2.2)
      ∧ ((frame.length : Int) ≤ (cw.Write w.w frame).2.1 ∧ (cw.Write w.w frame).2.2 = none →
          (delegatingWriter.WriteFrame cw w frame).2 = none)
      ∧ ((delegatingWriter.WriteFrame cw w frame).2 ≠ (cw.Write w.w frame).2.2
          ↔ ((cw.Write w.w frame).2.1 < (frame.length : Int)
              ∧ (cw.Write w.w frame).2.2 = none)))
    ∧ ((singleWriter.WriteFrame cw (newSingleWriter sw) frame).1.w = (cw.Write sw frame).1
      ∧ ((cw.Write sw frame).2.1 < (frame.length : Int) ∧ (cw.Write sw frame).2.2 = none →
          (singleWriter.WriteFrame cw (newSingleWriter sw) frame).2 = some Err.ErrShortWrite)
      ∧ (¬ ((cw.Write sw frame).2.1 < (frame.length : Int) ∧ (cw.Write sw frame).2.2 = none) →
          (singleWriter.WriteFrame cw (newSingleWriter sw) frame).2 = (cw.Write sw frame).2.2)
      ∧ ((frame.length : Int) ≤ (cw.Write sw frame).2.1 ∧ (cw.Write sw frame).2.2 = none →
          (singleWriter.WriteFrame cw (newSingleWriter sw) frame).2 = none)
      ∧ ((singleWriter.WriteFrame cw (newSingleWriter sw) frame).2 ≠ (cw.Write sw frame).2.2
          ↔ ((cw.Write sw frame).2.1 < (frame.length : Int)
              ∧ (cw.Write sw frame).2.2 = none))) := by
  have hd : delegatingWriter.WriteFrame cw w frame
      = ({ w with w := (cw.Write w.w frame).1 },
          catchShortWrite (cw.Write w.w frame).2.1 (cw.Write w.w frame).2.2 frame) := rfl
  have hs : singleWriter.WriteFrame cw (newSingleWriter sw) frame
      = ({ w := (cw.Write sw frame).1, hasBeenWritten := true },
          catchShortWrite (cw.Write sw frame).2.1 (cw.Write sw frame).2.2 frame) := by
    simp [singleWriter.WriteFrame, newSingleWriter]
  rw [hd, hs]
  refine ⟨⟨rfl, ?_, ?_, ?_, ?_⟩, rfl, ?_, ?_, ?_, ?_⟩
  · rintro ⟨hlt, hnil⟩
    simp only [hnil]
    exact catchShortWrite_of_short _ frame hlt
  · intro hnot
    exact catchShortWrite_of_not_short _ _ frame hnot
  · rintro ⟨hle, hnil⟩
    simp only [hnil]
    exact catchShortWrite_of_not_short _ _ frame (by omega)
  · exact catchShortWrite_ne_iff _ _ frame
  · rintro ⟨hlt, hnil⟩
    simp only [hnil]
    exact catchShortWrite_of_short _ frame hlt
  · intro hnot
    exact catchShortWrite_of_not_short _ _ frame hnot
  · rintro ⟨hle, hnil⟩
    simp only [hnil]
    exact catchShortWrite_of_not_short _ _ frame (by omega)
  · exact catchShortWrite_ne_iff _ _ frame

/-- The test `TestWriterShortBuffer`: the YAML frame writer over the
`halfWriter` accepts 4 of the 8 bytes of `foo: bar` without error, and
`WriteFrame` returns `io.ErrShortWrite`; a content writer that fails returns
its own error through the single-frame writer. -/
theorem WriteFrame_short_write_witness :
    (delegatingWriter.WriteFrame (yamlFrameWriter halfWriter)
        (newDelegatingWriter "application/yaml" []) (ascii "foo: bar")).2
      = some Err.ErrShortWrite
    ∧ (singleWriter.WriteFrame recordingIoWriter
        (newSingleWriter ([], [(0, some (Err.other "disk full"))])) (ascii "foo: bar")).2
      = some (Err.other "disk full") :=
  have hw := WriteFrame_short_write (yamlFrameWriter halfWriter)
    (newDelegatingWriter "application/yaml" []) [] (ascii "foo: bar")
  have hv := WriteFrame_short_write recordingIoWriter
    (newDelegatingWriter "application/yaml" ([], [(0, some (Err.other "disk full"))]))
    ([], [(0, some (Err.other "disk full"))]) (ascii "foo: bar")
  ⟨hw.1.2.1 (by decide), hv.2.2.2.1 (by decide)⟩

theorem mapError_of_not_tooLarge (err : Option Err) (mk : Unit → Err)
    (h : isObjectTooLarge err = false) :
    mapError err [(Err.ErrObjectTooLarge, mk)] = err := by
  cases err with
  | none => rfl
  | some e =>
    simp only [isObjectTooLarge] at h
    simp [mapError, h]

/-- C15: `streamingReader.ReadFrame` makes one `Read` on the stream reader and
returns its frame bytes as they are; the error is the frame-size-overflow
error for the reader's `maxFrameSize` when the stream reader's error matches
object-too-large under `errors.Is`, and the stream reader's error unchanged
in every other case (nil and `io.EOF` included). -/
theorem streamingReader_ReadFrame_maps {κ : Type} (r : streamingReader κ) (s : κ) :
    streamingReader.ReadFrame r s
        = ((r.streamReader.Read s).1, (r.streamReader.Read s).2.1,
            if isObjectTooLarge (r.streamReader.Read s).2.2 = true
            then some (Err.FrameSizeOverflow r.maxFrameSize)
            else (r.streamReader.Read s).2.2)
      ∧ (∀ (s1 : κ) (frame : Bytes), r.streamReader.Read s = (s1, frame, none) →
          streamingReader.ReadFrame r s = (s1, frame, none))
      ∧ (∀ (s1 : κ) (frame : Bytes), r.streamReader.Read s = (s1, frame, some Err.EOF) →
          streamingReader.ReadFrame r s = (s1, frame, some Err.EOF))
      ∧ (∀ (s1 : κ) (frame : Bytes) (msg : String),
          r.streamReader.Read s = (s1, frame, some (Err.wrap msg Err.ErrObjectTooLarge)) →
          streamingReader.ReadFrame r s
            = (s1, frame, some (Err.FrameSizeOverflow r.maxFrameSize))) := by
  have hmain : streamingReader.ReadFrame r s
      = ((r.streamReader.Read s).1, (r.streamReader.Read s).2.1,
          if isObjectTooLarge (r.streamReader.Read s).2.2 = true
          then some (Err.FrameSizeOverflow r.maxFrameSize)
          else (r.streamReader.Read s).2.2) := by
    by_cases h : isObjectTooLarge (r.streamReader.Read s).2.2 = true
    · rw [streamingReader_ReadFrame_of_tooLarge r s h, if_pos h]
    · rw [if_neg h]
      unfold streamingReader.ReadFrame
      obtain ⟨s1, frame, err, hr⟩ : ∃ s1 frame err, r.streamReader.Read s = (s1, frame, err) :=
        ⟨_, _, _, rfl⟩
      rw [hr] at h
      rw [hr]
      simp only
      rw [mapError_of_not_tooLarge _ _ (by simpa using h)]
  refine ⟨hmain, ?_, ?_, ?_⟩
  · intro s1 frame h
    rw [hmain, h]
    rfl
  · intro s1 frame h
    rw [hmain, h]
    rfl
  · intro s1 frame msg h
    rw [hmain, h]
    rfl

/-- A stream reader that answers a wrapped object-too-large error, a frame,
and the end of the stream: the first is mapped to the frame-size-overflow
error for `maxFrameSize = 10`, the other two come back as they are. -/
theorem streamingReader_ReadFrame_maps_witness :
    streamingReader.ReadFrame ⟨scriptedStreamReader, 10⟩
        [([], some (Err.wrap "read" Err.ErrObjectTooLarge)), (ascii "{}", none)]
      = ([(ascii "{}", none)], [], some (Err.FrameSizeOverflow 10))
    ∧ streamingReader.ReadFrame ⟨scriptedStreamReader, 10⟩ [(ascii "{}", none)]
      = ([], ascii "{}", none)
    ∧ streamingReader.ReadFrame ⟨scriptedStreamReader, 10⟩ [] = ([], [], some Err.EOF) :=
  ⟨(streamingReader_ReadFrame_maps ⟨scriptedStreamReader, 10⟩
      [([], some (Err.wrap "read" Err.ErrObjectTooLarge)), (ascii "{}", none)]).2.2.2
      [(ascii "{}", none)] [] "read" rfl,
   (streamingReader_ReadFrame_maps ⟨scriptedStreamReader, 10⟩ [(ascii "{}", none)]).2.1
      [] (ascii "{}") rfl,
   (streamingReader_ReadFrame_maps ⟨scriptedStreamReader, 10⟩ []).2.2.1 [] [] rfl⟩

/-! ## Frame lists (utils.go) -/

theorem ReadFrameList_loop_of_calls {κ : Type} (fr : Reader κ) (g : Bytes) (e : Err) :
    ∀ (fs : List Bytes) (s : κ) (acc : List Bytes) (fuel : Nat),
      Reader.readCalls fr (fs.length + 1) s = fs.map (fun f => (f, none)) ++ [(g, some e)] →
      fs.length < fuel →
      ReadFrameList.loop fr fuel s acc
        = some (Reader.afterCalls fr (fs.length + 1) s,
            if errorsIs e Err.EOF = true then (acc ++ fs, none) else ([], some e)) := by
  intro fs
  induction fs with
  | nil =>
    intro s acc fuel hcalls hfuel
    obtain ⟨k, rfl⟩ : ∃ k, fuel = k + 1 := ⟨fuel - 1, by simp at hfuel; omega⟩
    obtain ⟨s1, frame, err, hr⟩ : ∃ s1 frame err, fr.ReadFrame s = (s1, frame, err) :=
      ⟨_, _, _, rfl⟩
    simp only [Reader.readCalls, hr, List.length_nil, List.map_nil, List.nil_append,
      List.cons.injEq, Prod.mk.injEq, and_true] at hcalls
    obtain ⟨rfl, rfl⟩ := hcalls
    simp only [ReadFrameList.loop, hr, isEOF, Reader.afterCalls, List.length_nil,
      List.append_nil]
    by_cases h : errorsIs e Err.EOF = true
    · simp [h]
    · simp [h]
  | cons f rest ih =>
    intro s acc fuel hcalls hfuel
    obtain ⟨k, rfl⟩ : ∃ k, fuel = k + 1 := ⟨fuel - 1, by simp at hfuel; omega⟩
    obtain ⟨s1, frame, err, hr⟩ : ∃ s1 frame err, fr.ReadFrame s = (s1, frame, err) :=
      ⟨_, _, _, rfl⟩
    rw [List.length_cons, Reader.readCalls] at hcalls
    simp only [hr, List.map_cons, List.cons_append, List.cons.injEq, Prod.mk.injEq] at hcalls
    obtain ⟨⟨rfl, rfl⟩, hrest⟩ := hcalls
    have hih := ih s1 (acc ++ [frame]) k hrest (by simp at hfuel; omega)
    rw [ReadFrameList.loop, hr]
    simp only [isEOF, Bool.false_eq_true, if_false]
    rw [hih]
    simp only [List.length_cons, List.append_assoc, List.singleton_append, Reader.afterCalls, hr]

/-- C16: take any reader whose next `n + 1` `ReadFrame` calls return the
frames `f1..fn` without error and then an error `e`, and any fuel above `n`.
When `e` is end-of-stream (matches `io.EOF` under `errors.Is`),
`ReadFrameList` returns `[f1, ..., fn]` in read order with a nil error; when
it is not, `ReadFrameList` returns that error and no frames. In both cases
the reader is left as the call that returned `e` left it: no further call is
made. -/
theorem ReadFrameList_result {κ : Type} (fr : Reader κ) (s : κ) (fs : List Bytes) (g : Bytes)
    (e : Err) (fuel : Nat)
    (hcalls : Reader.readCalls fr (fs.length + 1) s
      = fs.map (fun f => (f, none)) ++ [(g, some e)])
    (hfuel : fs.length < fuel) :
    (errorsIs e Err.EOF = true →
      ReadFrameList fr fuel s = some (Reader.afterCalls fr (fs.length + 1) s, fs, none))
    ∧ (errorsIs e Err.EOF = false →
      ReadFrameList fr fuel s = some (Reader.afterCalls fr (fs.length + 1) s, [], some e)) := by
  have h := ReadFrameList_loop_of_calls fr g e fs s [] fuel hcalls hfuel
  constructor
  · intro he
    rw [ReadFrameList, h]
    simp [he]
  · intro he
    rw [ReadFrameList, h]
    simp [he]

/-- Two frames and then the end of the stream give the two frames; two
frames and then another error give that error and no frame, and the frame
scripted after the error is not read. -/
theorem ReadFrameList_result_witness :
    ReadFrameList (scriptedReader "application/yaml") 3 [(ascii "a", none), (ascii "b", none)]
      = some ([], [ascii "a", ascii "b"], none)
    ∧ ReadFrameList (scriptedReader "application/yaml") 3
        [(ascii "a", none), (ascii "b", none), ([], some (Err.other "broken pipe")),
          (ascii "c", none)]
      = some ([(ascii "c", none)], [], some (Err.other "broken pipe")) :=
  ⟨(ReadFrameList_result (scriptedReader "application/yaml")
      [(ascii "a", none), (ascii "b", none)] [ascii "a", ascii "b"] [] Err.EOF 3
      (by decide) (by decide)).1 (by decide),
   (ReadFrameList_result (scriptedReader "application/yaml")
      [(ascii "a", none), (ascii "b", none), ([], some (Err.other "broken pipe")),
        (ascii "c", none)] [ascii "a", ascii "b"] [] (Err.other "broken pipe") 3
      (by decide) (by decide)).2 (by decide)⟩

theorem WriteFrameList_log {σ : Type} (wr : Writer σ) :
    ∀ (frames : List Bytes) (s : σ) (log : List (Bytes × Option Err)),
      ∃ calls : List (Bytes × Option Err),
        (WriteFrameList (logWriter wr) (s, log) frames).1.2 = log ++ calls
        ∧ calls.map Prod.fst = frames.take calls.length
        ∧ ((WriteFrameList (logWriter wr) (s, log) frames).2 = none →
            calls.length = frames.length ∧ ∀ c ∈ calls, c.2 = none)
        ∧ (∀ e, (WriteFrameList (logWriter wr) (s, log) frames).2 = some e →
            ∃ (pre : List (Bytes × Option Err)) (f : Bytes),
              calls = pre ++ [(f, some e)] ∧ ∀ c ∈ pre, c.2 = none) := by
  intro frames
  induction frames with
  | nil =>
    intro s log
    exact ⟨[], by simp [WriteFrameList], by simp, by simp [WriteFrameList],
      by simp [WriteFrameList]⟩
  | cons frame rest ih =>
    intro s log
    obtain ⟨s1, r, hw⟩ : ∃ s1 r, wr.WriteFrame s frame = (s1, r) := ⟨_, _, rfl⟩
    have hstep : (logWriter wr).WriteFrame (s, log) frame = ((s1, log ++ [(frame, r)]), r) := by
      simp [logWriter, hw]
    cases r with
    | some e =>
      have hres : WriteFrameList (logWriter wr) (s, log) (frame :: rest)
          = ((s1, log ++ [(frame, some e)]), some e) := by
        rw [WriteFrameList, hstep]
      rw [hres]
      refine ⟨[(frame, some e)], rfl, by simp, by simp, ?_⟩
      intro e1 he1
      simp only [Option.some.injEq] at he1
      subst he1
      exact ⟨[], frame, by simp, by simp⟩
    | none =>
      have hres : WriteFrameList (logWriter wr) (s, log) (frame :: rest)
          = WriteFrameList (logWriter wr) (s1, log ++ [(frame, none)]) rest := by
        rw [WriteFrameList, hstep]
      rw [hres]
      obtain ⟨calls, hlog, horder, hok, herr⟩ := ih s1 (log ++ [(frame, none)])
      refine ⟨(frame, none) :: calls, ?_, ?_, ?_, ?_⟩
      · rw [hlog]
        simp
      · simp only [List.map_cons, List.length_cons, List.take_succ_cons, horder]
      · intro hnone
        obtain ⟨hlen, hall⟩ := hok hnone
        refine ⟨by simp [hlen], ?_⟩
        intro c hc
        rw [List.mem_cons] at hc
        rcases hc with rfl | hc
        · rfl
        · exact hall c hc
      · intro e he
        obtain ⟨pre, f, hcalls, hpre⟩ := herr e he
        refine ⟨(frame, none) :: pre, f, by simp [hcalls], ?_⟩
        intro c hc
        rw [List.mem_cons] at hc
        rcases hc with rfl | hc
        · rfl
        · exact hpre c hc

/-- C17: run `WriteFrameList` on a writer that logs every `WriteFrame` call
it receives with the call's result. The calls made are one per frame, for an
initial part of the list in list order. When `WriteFrameList` returns nil,
there was a call for every frame and every call returned nil. When it
returns an error, that error is the result of the last call made and every
call before it returned nil: the first failing call ends the run, no later
frame is attempted, and the frames that were written with success are exactly
those before the failing one. -/
theorem WriteFrameList_calls {σ : Type} (wr : Writer σ) (s : σ) (frames : List Bytes) :
    ∃ calls : List (Bytes × Option Err),
      (WriteFrameList (logWriter wr) (s, []) frames).1.2 = calls
      ∧ calls.map Prod.fst = frames.take calls.length
      ∧ ((WriteFrameList (logWriter wr) (s, []) frames).2 = none →
          calls.length = frames.length ∧ ∀ c ∈ calls, c.2 = none)
      ∧ (∀ e, (WriteFrameList (logWriter wr) (s, []) frames).2 = some e →
          ∃ (pre : List (Bytes × Option Err)) (f : Bytes),
            calls = pre ++ [(f, some e)] ∧ ∀ c ∈ pre, c.2 = none)
      ∧ ((WriteFrameList (logWriter wr) (s, []) frames).2 = none ↔ ∀ c ∈ calls, c.2 = none) := by
  obtain ⟨calls, hlog, horder, hok, herr⟩ := WriteFrameList_log wr frames s []
  rw [List.nil_append] at hlog
  refine ⟨calls, hlog, horder, hok, herr, ?_⟩
  constructor
  · intro hnone
    exact (hok hnone).2
  · intro hall
    cases hres : (WriteFrameList (logWriter wr) (s, []) frames).2 with
    | none => rfl
    | some e =>
      obtain ⟨pre, f, hcalls, _⟩ := herr e hres
      have := hall (f, some e) (by rw [hcalls]; simp)
      simp at this

/-- The second frame of three fails: the recording writer has been handed
the first two frames, the log shows a success and then the error, and the
error is what `WriteFrameList` returns. -/
theorem WriteFrameList_calls_witness :
    WriteFrameList (logWriter (recordingWriter "application/json"))
        (⟨[], [none, some (Err.other "disk full"), none]⟩, [])
        [ascii "{}", ascii "[]", ascii "{}"]
      = ((⟨[ascii "{}", ascii "[]"], [none]⟩,
          [(ascii "{}", none), (ascii "[]", some (Err.other "disk full"))]),
        some (Err.other "disk full"))
    ∧ ∃ calls : List (Bytes × Option Err),
      (WriteFrameList (logWriter (recordingWriter "application/json"))
          (⟨[], [none, some (Err.other "disk full"), none]⟩, [])
          [ascii "{}", ascii "[]", ascii "{}"]).1.2 = calls
      ∧ calls.map Prod.fst = [ascii "{}", ascii "[]", ascii "{}"].take calls.length
      ∧ ((WriteFrameList (logWriter (recordingWriter "application/json"))
          (⟨[], [none, some (Err.other "disk full"), none]⟩, [])
          [ascii "{}", ascii "[]", ascii "{}"]).2 = none →
          calls.length = [ascii "{}", ascii "[]", ascii "{}"].length ∧ ∀ c ∈ calls, c.2 = none)
      ∧ (∀ e, (WriteFrameList (logWriter (recordingWriter "application/json"))
          (⟨[], [none, some (Err.other "disk full"), none]⟩, [])
          [ascii "{}", ascii "[]", ascii "{}"]).2 = some e →
          ∃ (pre : List (Bytes × Option Err)) (f : Bytes),
            calls = pre ++ [(f, some e)] ∧ ∀ c ∈ pre, c.2 = none)
      ∧ ((WriteFrameList (logWriter (recordingWriter "application/json"))
          (⟨[], [none, some (Err.other "disk full"), none]⟩, [])
          [ascii "{}", ascii "[]", ascii "{}"]).2 = none ↔ ∀ c ∈ calls, c.2 = none) :=
  ⟨by decide,
   WriteFrameList_calls (recordingWriter "application/json")
    ⟨[], [none, some (Err.other "disk full"), none]⟩ [ascii "{}", ascii "[]", ascii "{}"]⟩

/-! ## Metadata (content/metadata.go) -/

set_option maxRecDepth 100000 in
theorem validHeaderFieldByte_lowerASCII_fin :
    ∀ v : Fin 256, validHeaderFieldByte ⟨⟨v⟩⟩ = validHeaderFieldByte (lowerASCII ⟨⟨v⟩⟩) := by
  decide

set_option maxRecDepth 100000 in
theorem canonicalByte_lowerASCII_fin :
    ∀ (upper : Bool) (v : Fin 256),
      canonicalByte upper ⟨⟨v⟩⟩ = canonicalByte upper (lowerASCII ⟨⟨v⟩⟩) := by
  decide

theorem validHeaderFieldByte_lowerASCII (c : UInt8) :
    validHeaderFieldByte c = validHeaderFieldByte (lowerASCII c) := by
  rcases c with ⟨⟨v⟩⟩
  exact validHeaderFieldByte_lowerASCII_fin v

theorem canonicalByte_lowerASCII (upper : Bool) (c : UInt8) :
    canonicalByte upper c = canonicalByte upper (lowerASCII c) := by
  rcases c with ⟨⟨v⟩⟩
  exact canonicalByte_lowerASCII_fin upper v

theorem all_valid_map_lowerASCII (k : Bytes) :
    k.all validHeaderFieldByte = (k.map lowerASCII).all validHeaderFieldByte := by
  induction k with
  | nil => rfl
  | cons c rest ih =>
    simp only [List.all_cons, List.map_cons, ih, ← validHeaderFieldByte_lowerASCII c]

theorem canonicalMIMEHeaderKey_map_lowerASCII (k : Bytes) :
    ∀ upper : Bool,
      canonicalMIMEHeaderKey upper k = canonicalMIMEHeaderKey upper (k.map lowerASCII) := by
  induction k with
  | nil => intro upper; rfl
  | cons c rest ih =>
    intro upper
    simp only [canonicalMIMEHeaderKey, List.map_cons, ← canonicalByte_lowerASCII upper c, ih]

theorem CanonicalMIMEHeaderKey_of_sameUpToCase (k1 k2 : Bytes)
    (hvalid : k1.all validHeaderFieldByte = true) (hcase : sameUpToCase k1 k2) :
    CanonicalMIMEHeaderKey k1 = CanonicalMIMEHeaderKey k2 := by
  unfold sameUpToCase at hcase
  have hvalid2 : k2.all validHeaderFieldByte = true := by
    rw [all_valid_map_lowerASCII, ← hcase, ← all_valid_map_lowerASCII]
    exact hvalid
  unfold CanonicalMIMEHeaderKey
  rw [if_pos hvalid, if_pos hvalid2, canonicalMIMEHeaderKey_map_lowerASCII k1,
    canonicalMIMEHeaderKey_map_lowerASCII k2, hcase]

theorem mapIndex_mapAssign (m : List (Bytes × StringSlice)) (key : Bytes) (v : StringSlice) :
    mapIndex (mapAssign m key v) key = v := by
  induction m with
  | nil => simp [mapAssign, mapIndex]
  | cons e rest ih =>
    obtain ⟨k, x⟩ := e
    by_cases hk : k = key
    · simp [mapAssign, mapIndex, hk]
    · simp [mapAssign, mapIndex, hk, ih]

theorem mapIndex_mapDelete (m : List (Bytes × StringSlice)) (key : Bytes) :
    mapIndex (mapDelete m key) key = StringSlice.nil := by
  induction m with
  | nil => rfl
  | cons e rest ih =>
    obtain ⟨k, x⟩ := e
    by_cases hk : k = key
    · simp [mapDelete, hk, ih]
    · simp [mapDelete, mapIndex, hk, ih]

theorem values_nil (h : Heap) : StringSlice.nil.values h = [] := by
  simp [StringSlice.values, StringSlice.nil]

theorem values_new_array (h : Heap) (arr : List Bytes) (n cap : Nat) :
    StringSlice.values (h ++ [arr]) { array := h.length, len := n, cap := cap }
      = arr.take n := by
  simp [StringSlice.values, List.getD_eq_getElem?_getD]

theorem Set_Values (h : Heap) (m : MIMEHeader) (k1 k2 v : Bytes)
    (hkey : CanonicalMIMEHeaderKey k1 = CanonicalMIMEHeaderKey k2) :
    MIMEHeader.Values (MIMEHeader.Set h m k1 v).1 (MIMEHeader.Set h m k1 v).2 k2 = [v] := by
  simp only [MIMEHeader.Values, MIMEHeader.Set, hkey, mapIndex_mapAssign, values_new_array]
  rfl

theorem Add_empty_Values (grow : Nat → Nat) (h : Heap) (k1 k2 v : Bytes)
    (hkey : CanonicalMIMEHeaderKey k1 = CanonicalMIMEHeaderKey k2) :
    MIMEHeader.Values (MIMEHeader.Add grow h { entries := [] } k1 v).1
      (MIMEHeader.Add grow h { entries := [] } k1 v).2 k2 = [v] := by
  have happ : appendString grow h StringSlice.nil v
      = (h ++ [v :: List.replicate (grow 0 - 1) []],
          { array := h.length, len := 1, cap := max (grow 0) 1 }) := by
    simp [appendString, StringSlice.nil, StringSlice.values]
  have hnil : mapIndex [] (CanonicalMIMEHeaderKey k2) = StringSlice.nil := rfl
  unfold MIMEHeader.Values MIMEHeader.Add
  simp only [hkey, mapIndex_mapAssign, hnil, happ, values_new_array]
  rfl

theorem Del_Values (h : Heap) (m : MIMEHeader) (k1 k2 : Bytes)
    (hkey : CanonicalMIMEHeaderKey k1 = CanonicalMIMEHeaderKey k2) :
    MIMEHeader.Values h (MIMEHeader.Del m k1) k2 = [] := by
  simp only [MIMEHeader.Values, MIMEHeader.Del, hkey, mapIndex_mapDelete, values_nil]

theorem Get_of_Values (h : Heap) (m : MIMEHeader) (key : Bytes) :
    MIMEHeader.Get h m key = (MIMEHeader.Values h m key).headD [] := by
  unfold MIMEHeader.Get MIMEHeader.Values
  cases (mapIndex m.entries (CanonicalMIMEHeaderKey key)).values h <;> rfl

theorem decimal_foldl_ge (cs : Bytes) :
    ∀ n : Nat, n ≤ cs.foldl (fun n c => n * 10 + (c.toNat - 48)) n := by
  induction cs with
  | nil => intro n; exact Nat.le_refl n
  | cons c rest ih =>
    intro n
    have := ih (n * 10 + (c.toNat - 48))
    simp only [List.foldl_cons]
    omega

theorem ParseUint_loop_eq (cs : Bytes) :
    ∀ n : Nat, n < 2 ^ 64 →
      ParseUint.loop cs n
        = if cs.all (fun d => decide (48 ≤ d.toNat ∧ d.toNat ≤ 57)) = true
              ∧ cs.foldl (fun n c => n * 10 + (c.toNat - 48)) n < 2 ^ 64
          then some (cs.foldl (fun n c => n * 10 + (c.toNat - 48)) n) else none := by
  induction cs with
  | nil =>
    intro n hn
    rw [ParseUint.loop, if_pos ⟨rfl, hn⟩]
    rfl
  | cons c rest ih =>
    intro n hn
    have hge := decimal_foldl_ge rest (n * 10 + (c.toNat - 48))
    by_cases hd : 48 ≤ c.toNat ∧ c.toNat ≤ 57
    swap
    · rw [ParseUint.loop, if_neg hd, if_neg]
      rintro ⟨hall, _⟩
      rw [List.all_cons, Bool.and_eq_true, decide_eq_true_eq] at hall
      exact hd hall.1
    have hrhs : (if (c :: rest).all (fun d => decide (48 ≤ d.toNat ∧ d.toNat ≤ 57)) = true
          ∧ (c :: rest).foldl (fun n c => n * 10 + (c.toNat - 48)) n < 2 ^ 64
        then some ((c :: rest).foldl (fun n c => n * 10 + (c.toNat - 48)) n) else none)
        = (if rest.all (fun d => decide (48 ≤ d.toNat ∧ d.toNat ≤ 57)) = true
          ∧ rest.foldl (fun n c => n * 10 + (c.toNat - 48)) (n * 10 + (c.toNat - 48)) < 2 ^ 64
        then some (rest.foldl (fun n c => n * 10 + (c.toNat - 48)) (n * 10 + (c.toNat - 48)))
        else none) := by
      have hdec : decide (48 ≤ c.toNat ∧ c.toNat ≤ 57) = true := decide_eq_true hd
      rw [List.all_cons, hdec, Bool.true_and, List.foldl_cons]
    rw [hrhs, ParseUint.loop, if_pos hd]
    by_cases hcut : n ≥ 1844674407370955162
    · rw [if_pos hcut, if_neg]
      rintro ⟨_, hlt⟩
      omega
    rw [if_neg hcut]
    by_cases hwrap : (n * 10 + (c.toNat - 48)) % 2 ^ 64 < n * 10
    · rw [if_pos hwrap, if_neg]
      rintro ⟨_, hlt⟩
      omega
    · have hfit : (n * 10 + (c.toNat - 48)) % 2 ^ 64 = n * 10 + (c.toNat - 48) := by omega
      have hlt : n * 10 + (c.toNat - 48) < 2 ^ 64 := by omega
      rw [if_neg hwrap, hfit]
      exact ih (n * 10 + (c.toNat - 48)) hlt

theorem ParseInt_cons (c : UInt8) (rest : Bytes) :
    ParseInt (c :: rest)
      = match ParseUint (if c = 43 ∨ c = 45 then rest else c :: rest) with
        | none => none
        | some un =>
          if decide (c = 45) = false ∧ un ≥ 2 ^ 63 then none
          else if decide (c = 45) = true ∧ un > 2 ^ 63 then none
          else some (if decide (c = 45) = true then wrapInt64 (-(wrapInt64 (un : Int)))
            else wrapInt64 (un : Int)) := rfl

theorem int64Literal_cons (c : UInt8) (rest : Bytes) :
    int64Literal (c :: rest)
      = if (if c = 43 ∨ c = 45 then rest else c :: rest).length ≠ 0
            ∧ (if c = 43 ∨ c = 45 then rest else c :: rest).all
                (fun d => decide (48 ≤ d.toNat ∧ d.toNat ≤ 57)) then
          if c = 45 then
            if decimalValue (if c = 43 ∨ c = 45 then rest else c :: rest) ≤ 2 ^ 63
            then some (-(decimalValue (if c = 43 ∨ c = 45 then rest else c :: rest) : Int))
            else none
          else
            if decimalValue (if c = 43 ∨ c = 45 then rest else c :: rest) < 2 ^ 63
            then some (decimalValue (if c = 43 ∨ c = 45 then rest else c :: rest) : Int)
            else none
        else none := rfl

theorem ParseInt_eq_int64Literal (s : Bytes) : ParseInt s = int64Literal s := by
  cases s with
  | nil => rfl
  | cons c rest =>
    rw [ParseInt_cons, int64Literal_cons]
    generalize (if c = 43 ∨ c = 45 then rest else c :: rest) = body
    by_cases hlen : body.length = 0
    · simp only [ParseUint, hlen, if_true, ne_eq, not_true_eq_false, false_and, if_false]
    rw [ParseUint, if_neg hlen, ParseUint_loop_eq body 0 (by norm_num)]
    unfold decimalValue
    by_cases hall : body.all (fun d => decide (48 ≤ d.toNat ∧ d.toNat ≤ 57)) = true
    swap
    · simp only [hall, false_and, and_false, if_false, Bool.false_eq_true]
    generalize List.foldl (fun n c => n * 10 + (c.toNat - 48)) 0 body = val
    by_cases hfit : val < 2 ^ 64
    swap
    · have h1 : ¬ val ≤ 2 ^ 63 := by omega
      have h2 : ¬ val < 2 ^ 63 := by omega
      simp only [hall, hfit, hlen, h1, h2, and_false, if_false, ne_eq, not_false_eq_true, decide_True, decide_False, Bool.true_eq_false, Bool.false_eq_true,
        and_self, if_true, ite_self]
    by_cases hneg : c = 45
    · have hdec : decide (c = 45) = true := decide_eq_true hneg
      by_cases hrange : val ≤ 2 ^ 63
      · have hw : wrapInt64 (-(wrapInt64 (val : Int))) = -(val : Int) := by
          unfold wrapInt64
          omega
        have hgt : ¬ val > 2 ^ 63 := by omega
        simp only [hall, hfit, hlen, hneg, hdec, hrange, hw, hgt, and_self, if_true, ne_eq,
          not_false_eq_true, decide_True, decide_False, Bool.true_eq_false, Bool.false_eq_true, Bool.true_eq_false, false_and, if_false, and_false]
      · have hgt : val > 2 ^ 63 := by omega
        simp only [hall, hfit, hlen, hneg, hdec, hrange, hgt, and_self, if_true, ne_eq,
          not_false_eq_true, decide_True, decide_False, Bool.true_eq_false, Bool.false_eq_true, Bool.true_eq_false, false_and, if_false]
    · have hdec : decide (c = 45) = false := decide_eq_false hneg
      by_cases hrange : val < 2 ^ 63
      · have hw : wrapInt64 (val : Int) = (val : Int) := by
          unfold wrapInt64
          omega
        have hge : ¬ val ≥ 2 ^ 63 := by omega
        simp only [hall, hfit, hlen, hneg, hdec, hrange, hw, hge, and_self, if_true, ne_eq,
          not_false_eq_true, decide_True, decide_False, Bool.true_eq_false, Bool.false_eq_true, Bool.false_eq_true, false_and, if_false, and_false]
      · have hge : val ≥ 2 ^ 63 := by omega
        simp only [hall, hfit, hlen, hneg, hdec, hrange, hge, and_self, if_true, ne_eq,
          not_false_eq_true, decide_True, decide_False, Bool.true_eq_false, Bool.false_eq_true, Bool.false_eq_true, false_and, if_false]

theorem GetString_of_no_values (h : Heap) (m : contentMetadata) (key : Bytes)
    (hv : MIMEHeader.Values h m.MIMEHeader key = []) :
    contentMetadata.GetString h m key = ([], false) := by
  simp [contentMetadata.GetString, hv]

theorem GetString_of_values (h : Heap) (m : contentMetadata) (key v : Bytes) (vs : List Bytes)
    (hv : MIMEHeader.Values h m.MIMEHeader key = v :: vs) :
    contentMetadata.GetString h m key = (v, true) := by
  simp [contentMetadata.GetString, hv, Get_of_Values]

theorem GetInt64_eq (h : Heap) (m : contentMetadata) (key : Bytes) :
    contentMetadata.GetInt64 h m key
      = match int64Literal (MIMEHeader.Get h m.MIMEHeader key) with
        | none => (0, false)
        | some i => (i, true) := by
  unfold contentMetadata.GetInt64
  rw [ParseInt_eq_int64Literal]

/-- C18, as stated, fails for keys that are not made of header field bytes:
the canonical form of such a key is the key itself, so the lookup is
case-sensitive. The keys `my key` and `MY KEY` differ only in letter case, and
after `Set("my key", "v")` on an empty Metadata `Get("MY KEY")` is empty and
`Values("MY KEY")` has no value. -/
theorem Metadata_case_counterexample :
    sameUpToCase (ascii "my key") (ascii "MY KEY")
    ∧ MIMEHeader.Get (MIMEHeader.Set [] { entries := [] } (ascii "my key") (ascii "v")).1
        (MIMEHeader.Set [] { entries := [] } (ascii "my key") (ascii "v")).2 (ascii "MY KEY")
      = []
    ∧ MIMEHeader.Values (MIMEHeader.Set [] { entries := [] } (ascii "my key") (ascii "v")).1
        (MIMEHeader.Set [] { entries := [] } (ascii "my key") (ascii "v")).2 (ascii "MY KEY")
      = [] :=
  ⟨by decide, by decide, by decide⟩

/-- C18 (amended): for all keys `k1` and `k2` that are made of valid header
field bytes (letters, digits and the other token characters; no space) and
differ only in letter case, and every value `v`: after `Set(k1, v)` on any
Metadata, and after `Add(k1, v)` on an empty Metadata, `Get(k2)` returns `v`
and `Values(k2)` returns `[v]`, and after `Del(k2)` the key has no value. A
key without an entry returns "not present": `Get` is empty, `Values` is
empty, `GetString` and `GetInt64` return the zero value with the flag false
and `GetURL` returns nil. -/
theorem Metadata_case_insensitive (grow : Nat → Nat) (h : Heap) (m : MIMEHeader)
    (k1 k2 v : Bytes) (hvalid : k1.all validHeaderFieldByte = true)
    (hcase : sameUpToCase k1 k2) :
    (MIMEHeader.Get (MIMEHeader.Set h m k1 v).1 (MIMEHeader.Set h m k1 v).2 k2 = v
      ∧ MIMEHeader.Values (MIMEHeader.Set h m k1 v).1 (MIMEHeader.Set h m k1 v).2 k2 = [v]
      ∧ MIMEHeader.Values (MIMEHeader.Set h m k1 v).1
          (MIMEHeader.Del (MIMEHeader.Set h m k1 v).2 k2) k2 = []
      ∧ MIMEHeader.Get (MIMEHeader.Set h m k1 v).1
          (MIMEHeader.Del (MIMEHeader.Set h m k1 v).2 k2) k1 = [])
    ∧ (MIMEHeader.Get (MIMEHeader.Add grow h { entries := [] } k1 v).1
          (MIMEHeader.Add grow h { entries := [] } k1 v).2 k2 = v
      ∧ MIMEHeader.Values (MIMEHeader.Add grow h { entries := [] } k1 v).1
          (MIMEHeader.Add grow h { entries := [] } k1 v).2 k2 = [v]
      ∧ MIMEHeader.Values (MIMEHeader.Add grow h { entries := [] } k1 v).1
          (MIMEHeader.Del (MIMEHeader.Add grow h { entries := [] } k1 v).2 k2) k2 = []
      ∧ MIMEHeader.Get (MIMEHeader.Add grow h { entries := [] } k1 v).1
          (MIMEHeader.Del (MIMEHeader.Add grow h { entries := [] } k1 v).2 k2) k1 = [])
    ∧ (∀ (m0 : contentMetadata) (key : Bytes),
        mapIndex m0.MIMEHeader.entries (CanonicalMIMEHeaderKey key) = StringSlice.nil →
        MIMEHeader.Get h m0.MIMEHeader key = []
        ∧ MIMEHeader.Values h m0.MIMEHeader key = []
        ∧ contentMetadata.GetString h m0 key = ([], false)
        ∧ contentMetadata.GetInt64 h m0 key = (0, false)
        ∧ ∀ (U : Type) (urlParse : Bytes → Option U),
            contentMetadata.GetURL urlParse h m0 key = none) := by
  have hkey := CanonicalMIMEHeaderKey_of_sameUpToCase k1 k2 hvalid hcase
  refine ⟨⟨?_, Set_Values h m k1 k2 v hkey, Del_Values _ _ k2 k2 rfl, ?_⟩,
    ⟨?_, Add_empty_Values grow h k1 k2 v hkey, Del_Values _ _ k2 k2 rfl, ?_⟩, ?_⟩
  · rw [Get_of_Values, Set_Values h m k1 k2 v hkey]
    rfl
  · rw [Get_of_Values, Del_Values _ _ k2 k1 hkey.symm]
    rfl
  · rw [Get_of_Values, Add_empty_Values grow h k1 k2 v hkey]
    rfl
  · rw [Get_of_Values, Del_Values _ _ k2 k1 hkey.symm]
    rfl
  · intro m0 key hnil
    have hvalues : MIMEHeader.Values h m0.MIMEHeader key = [] := by
      rw [MIMEHeader.Values, hnil, values_nil]
    have hget : MIMEHeader.Get h m0.MIMEHeader key = [] := by
      rw [Get_of_Values, hvalues]
      rfl
    refine ⟨hget, hvalues, GetString_of_no_values h m0 key hvalues, ?_, ?_⟩
    · rw [GetInt64_eq, hget]
      rfl
    · intro U urlParse
      simp [contentMetadata.GetURL, GetString_of_no_values h m0 key hvalues]

/-- The key `content-length` set and added, and read as `CONTENT-LENGTH`; the
key `Content-Type` of an empty Metadata is not present. -/
theorem Metadata_case_insensitive_witness :
    MIMEHeader.Get (MIMEHeader.Set [] { entries := [] } (ascii "content-length") (ascii "12")).1
        (MIMEHeader.Set [] { entries := [] } (ascii "content-length") (ascii "12")).2
        (ascii "CONTENT-LENGTH") = ascii "12"
    ∧ MIMEHeader.Values
        (MIMEHeader.Add growslice [] { entries := [] } (ascii "content-length") (ascii "12")).1
        (MIMEHeader.Add growslice [] { entries := [] } (ascii "content-length") (ascii "12")).2
        (ascii "CONTENT-LENGTH") = [ascii "12"]
    ∧ contentMetadata.GetString [] { MIMEHeader := { entries := [] } } (ascii "Content-Type")
      = ([], false) :=
  have hw := Metadata_case_insensitive growslice [] { entries := [] } (ascii "content-length")
    (ascii "CONTENT-LENGTH") (ascii "12") (by decide) (by decide)
  ⟨hw.1.1, hw.2.1.2.1,
    (hw.2.2 { MIMEHeader := { entries := [] } } (ascii "Content-Type") rfl).2.2.1⟩

/-- C19 on the code: `Clone` copies the map but not the value slices, so the
clone's slices point into the arrays of the original. After three `Add` calls
the slice of the key `K` has length 3 and capacity 4. `Clone` then has the
values `a, b, c` of the original; `Add("K", "x")` on the original stores `x`
into the spare element of the shared array; `Add("K", "y")` on the clone
stores `y` into the same element, and `Values("K")` on the original changes
from `a, b, c, x` to `a, b, c, y`. -/
theorem Clone_shares_values :
    MIMEHeader.Values threeAdds.1 (contentMetadata.Clone threeAdds.2).MIMEHeader (ascii "K")
      = [ascii "a", ascii "b", ascii "c"]
    ∧ MIMEHeader.Values
        (MIMEHeader.Add growslice threeAdds.1 threeAdds.2.MIMEHeader (ascii "K") (ascii "x")).1
        (MIMEHeader.Add growslice threeAdds.1 threeAdds.2.MIMEHeader (ascii "K") (ascii "x")).2
        (ascii "K")
      = [ascii "a", ascii "b", ascii "c", ascii "x"]
    ∧ MIMEHeader.Values
        (MIMEHeader.Add growslice
          (MIMEHeader.Add growslice threeAdds.1 threeAdds.2.MIMEHeader (ascii "K") (ascii "x")).1
          (contentMetadata.Clone threeAdds.2).MIMEHeader (ascii "K") (ascii "y")).1
        (MIMEHeader.Add growslice threeAdds.1 threeAdds.2.MIMEHeader (ascii "K") (ascii "x")).2
        (ascii "K")
      = [ascii "a", ascii "b", ascii "c", ascii "y"] :=
  ⟨by decide, by decide, by decide⟩

/-- C20: no typed accessor fails (each is a total function), and
(1) `ContentLength()` returns `(n, true)` exactly when the first
`Content-Length` value is a base-10 `int64` literal that denotes `n`, and
`(0, false)` when that value is no such literal or the key has no value;
(2) `ContentType()` and `FramingType()` return the first value with the flag
true when the key has a value and the empty string with the flag false when
it has none;
(3) `ContentLocation()` returns nil when the key has no value, and what
`url.Parse` makes of the first value otherwise, hence nil when that value is
not a parseable URL. -/
theorem Metadata_typed_accessors {U : Type} (urlParse : Bytes → Option U) (h : Heap)
    (m : contentMetadata) :
    ((∀ n : Int, contentMetadata.ContentLength h m = (n, true)
        ↔ int64Literal (MIMEHeader.Get h m.MIMEHeader ContentLengthKey) = some n)
      ∧ (int64Literal (MIMEHeader.Get h m.MIMEHeader ContentLengthKey) = none →
          contentMetadata.ContentLength h m = (0, false))
      ∧ (MIMEHeader.Values h m.MIMEHeader ContentLengthKey = [] →
          contentMetadata.ContentLength h m = (0, false))
      ∧ (∀ (v : Bytes) (vs : List Bytes),
          MIMEHeader.Values h m.MIMEHeader ContentLengthKey = v :: vs →
          MIMEHeader.Get h m.MIMEHeader ContentLengthKey = v))
    ∧ ((∀ (v : Bytes) (vs : List Bytes),
          MIMEHeader.Values h m.MIMEHeader ContentTypeKey = v :: vs →
          contentMetadata.ContentType h m = (v, true))
      ∧ (MIMEHeader.Values h m.MIMEHeader ContentTypeKey = [] →
          contentMetadata.ContentType h m = ([], false))
      ∧ (∀ (v : Bytes) (vs : List Bytes),
          MIMEHeader.Values h m.MIMEHeader XFramingTypeKey = v :: vs →
          contentMetadata.FramingType h m = (v, true))
      ∧ (MIMEHeader.Values h m.MIMEHeader XFramingTypeKey = [] →
          contentMetadata.FramingType h m = ([], false)))
    ∧ ((MIMEHeader.Values h m.MIMEHeader XContentLocationKey = [] →
          contentMetadata.ContentLocation urlParse h m = none)
      ∧ (∀ (v : Bytes) (vs : List Bytes),
          MIMEHeader.Values h m.MIMEHeader XContentLocationKey = v :: vs →
          contentMetadata.ContentLocation urlParse h m = urlParse v)) := by
  refine ⟨⟨?_, ?_, ?_, ?_⟩, ⟨?_, ?_, ?_, ?_⟩, ?_, ?_⟩
  · intro n
    rw [contentMetadata.ContentLength, GetInt64_eq]
    cases int64Literal (MIMEHeader.Get h m.MIMEHeader ContentLengthKey) with
    | none => simp
    | some i => simp
  · intro hnone
    rw [contentMetadata.ContentLength, GetInt64_eq, hnone]
  · intro hv
    rw [contentMetadata.ContentLength, GetInt64_eq, Get_of_Values, hv]
    rfl
  · intro v vs hv
    rw [Get_of_Values, hv]
    rfl
  · intro v vs hv
    exact GetString_of_values h m ContentTypeKey v vs hv
  · intro hv
    exact GetString_of_no_values h m ContentTypeKey hv
  · intro v vs hv
    exact GetString_of_values h m XFramingTypeKey v vs hv
  · intro hv
    exact GetString_of_no_values h m XFramingTypeKey hv
  · intro hv
    simp [contentMetadata.ContentLocation, contentMetadata.GetURL,
      GetString_of_no_values h m XContentLocationKey hv]
  · intro v vs hv
    simp only [contentMetadata.ContentLocation, contentMetadata.GetURL,
      GetString_of_values h m XContentLocationKey v vs hv]
    cases urlParse v <;> rfl

/-- A Metadata with `Content-Length: 123` and `X-Framing-Type: yaml`, and a
`url.Parse` that accepts nothing: the length is `(123, true)`, the framing type
`(yaml, true)`, the content type is not present and the location is nil. -/
theorem Metadata_typed_accessors_witness :
    contentMetadata.ContentLength sampleMetadata.1 sampleMetadata.2 = (123, true)
    ∧ contentMetadata.FramingType sampleMetadata.1 sampleMetadata.2 = (ascii "yaml", true)
    ∧ contentMetadata.ContentType sampleMetadata.1 sampleMetadata.2 = ([], false)
    ∧ contentMetadata.ContentLocation (fun _ => (none : Option Unit)) sampleMetadata.1
        sampleMetadata.2 = none :=
  have hw := Metadata_typed_accessors (fun _ => (none : Option Unit)) sampleMetadata.1
    sampleMetadata.2
  ⟨(hw.1.1 123).2 (by decide), hw.2.1.2.2.1 (ascii "yaml") [] (by decide),
    hw.2.1.2.1 (by decide), hw.2.2.1 (by decide)⟩

/-! ## The recognized Metadata keys -/

/-- C21, as stated, fails for the two custom keys: the accessors read
`X-Content-Location` and `X-Framing-Type` (metadata.go:17-18), so after
`Set("Content-Location", "/tmp/a.yaml")` on an empty Metadata
`ContentLocation()` returns `(nil, false)`, also with a `url.Parse` that
accepts every string, and after `Set("Framing-Type", "yaml")`
`FramingType()` returns `("", false)`. -/
theorem Metadata_recognized_keys_counterexample :
    contentMetadata.ContentLocation (fun u => some u)
        (MIMEHeader.Set [] { entries := [] } (ascii "Content-Location") (ascii "/tmp/a.yaml")).1
        { MIMEHeader :=
            (MIMEHeader.Set [] { entries := [] } (ascii "Content-Location")
              (ascii "/tmp/a.yaml")).2 }
      = none
    ∧ contentMetadata.FramingType
        (MIMEHeader.Set [] { entries := [] } (ascii "Framing-Type") (ascii "yaml")).1
        { MIMEHeader :=
            (MIMEHeader.Set [] { entries := [] } (ascii "Framing-Type") (ascii "yaml")).2 }
      = ([], false) :=
  ⟨by decide, by decide⟩

/-- C21 (amended): the typed accessors read the keys `X-Content-Location`,
`Content-Type`, `Content-Length` and `X-Framing-Type`. For every Metadata:
after `Set("X-Content-Location", u)` with a `u` that `url.Parse` accepts,
`ContentLocation()` returns the parsed URL (with the flag true); after
`Set("X-Framing-Type", t)`, `FramingType()` returns `(t, true)`; after
`Set("Content-Type", t)`, `ContentType()` returns `(t, true)`; and after
`Set("Content-Length", t)` with `t` a base-10 `int64` literal that denotes
`n`, `ContentLength()` returns `(n, true)`. -/
theorem Metadata_recognized_keys {U : Type} (urlParse : Bytes → Option U) (h : Heap)
    (m : MIMEHeader) (u t : Bytes) (v : U) (hparse : urlParse u = some v) :
    (XContentLocationKey = ascii "X-Content-Location"
      ∧ XFramingTypeKey = ascii "X-Framing-Type"
      ∧ ContentTypeKey = ascii "Content-Type"
      ∧ ContentLengthKey = ascii "Content-Length")
    ∧ contentMetadata.ContentLocation urlParse (MIMEHeader.Set h m XContentLocationKey u).1
        { MIMEHeader := (MIMEHeader.Set h m XContentLocationKey u).2 } = some v
    ∧ contentMetadata.FramingType (MIMEHeader.Set h m XFramingTypeKey t).1
        { MIMEHeader := (MIMEHeader.Set h m XFramingTypeKey t).2 } = (t, true)
    ∧ contentMetadata.ContentType (MIMEHeader.Set h m ContentTypeKey t).1
        { MIMEHeader := (MIMEHeader.Set h m ContentTypeKey t).2 } = (t, true)
    ∧ (∀ n : Int, int64Literal t = some n →
        contentMetadata.ContentLength (MIMEHeader.Set h m ContentLengthKey t).1
          { MIMEHeader := (MIMEHeader.Set h m ContentLengthKey t).2 } = (n, true)) := by
  refine ⟨⟨rfl, rfl, rfl, rfl⟩, ?_, ?_, ?_, ?_⟩
  · have hs := GetString_of_values (MIMEHeader.Set h m XContentLocationKey u).1
      { MIMEHeader := (MIMEHeader.Set h m XContentLocationKey u).2 } XContentLocationKey u []
      (Set_Values h m XContentLocationKey XContentLocationKey u rfl)
    simp only [contentMetadata.ContentLocation, contentMetadata.GetURL, hs, hparse]
  · exact GetString_of_values _ _ XFramingTypeKey t []
      (Set_Values h m XFramingTypeKey XFramingTypeKey t rfl)
  · exact GetString_of_values _ _ ContentTypeKey t []
      (Set_Values h m ContentTypeKey ContentTypeKey t rfl)
  · intro n hn
    have hget : MIMEHeader.Get (MIMEHeader.Set h m ContentLengthKey t).1
        (MIMEHeader.Set h m ContentLengthKey t).2 ContentLengthKey = t := by
      rw [Get_of_Values, Set_Values h m ContentLengthKey ContentLengthKey t rfl]
      rfl
    rw [contentMetadata.ContentLength, GetInt64_eq]
    simp only [hget, hn]

/-- On the sample Metadata, with a `url.Parse` that accepts every string:
the location `/tmp/a.yaml`, the framing type `json`, the content type
`text/yaml` and the length `42` are read back. -/
theorem Metadata_recognized_keys_witness :
    contentMetadata.ContentLocation (fun u => some u)
        (MIMEHeader.Set sampleMetadata.1 sampleMetadata.2.MIMEHeader XContentLocationKey
          (ascii "/tmp/a.yaml")).1
        { MIMEHeader :=
            (MIMEHeader.Set sampleMetadata.1 sampleMetadata.2.MIMEHeader XContentLocationKey
              (ascii "/tmp/a.yaml")).2 }
      = some (ascii "/tmp/a.yaml")
    ∧ contentMetadata.FramingType
        (MIMEHeader.Set sampleMetadata.1 sampleMetadata.2.MIMEHeader XFramingTypeKey
          (ascii "json")).1
        { MIMEHeader :=
            (MIMEHeader.Set sampleMetadata.1 sampleMetadata.2.MIMEHeader XFramingTypeKey
              (ascii "json")).2 }
      = (ascii "json", true)
    ∧ contentMetadata.ContentLength
        (MIMEHeader.Set sampleMetadata.1 sampleMetadata.2.MIMEHeader ContentLengthKey
          (ascii "42")).1
        { MIMEHeader :=
            (MIMEHeader.Set sampleMetadata.1 sampleMetadata.2.MIMEHeader ContentLengthKey
              (ascii "42")).2 }
      = (42, true) :=
  ⟨(Metadata_recognized_keys (fun u => some u) sampleMetadata.1 sampleMetadata.2.MIMEHeader
      (ascii "/tmp/a.yaml") (ascii "json") (ascii "/tmp/a.yaml") rfl).2.1,
    (Metadata_recognized_keys (fun u => some u) sampleMetadata.1 sampleMetadata.2.MIMEHeader
      (ascii "/tmp/a.yaml") (ascii "json") (ascii "/tmp/a.yaml") rfl).2.2.1,
    (Metadata_recognized_keys (fun u => some u) sampleMetadata.1 sampleMetadata.2.MIMEHeader
      (ascii "/tmp/a.yaml") (ascii "42") (ascii "/tmp/a.yaml") rfl).2.2.2.2 42 (by decide)⟩

/-! ## The reachable states of the high-level writer -/

theorem writeCalls_append {σ τ : Type} (wr : Writer σ) (opts : WriterOptions τ)
    (frames more : List Bytes) :
    ∀ w : highlevelWriter σ τ,
      (highlevelWriter.writeCalls wr opts w (frames ++ more)).1
        = (highlevelWriter.writeCalls wr opts
            (highlevelWriter.writeCalls wr opts w frames).1 more).1 := by
  induction frames with
  | nil => intro w; rfl
  | cons frame rest ih =>
    intro w
    exact ih _

theorem SpyInv_WriteFrame_mono {σ τ : Type} (wr : Writer σ) (opts : WriterOptions τ)
    (hN : InInt64 opts.MaxFrames) (w : highlevelWriter (σ × List Bytes × Nat) τ)
    (frame : Bytes) (hinv : SpyInv opts w) :
    w.frameCount ≤ (highlevelWriter.WriteFrame (spyWriter wr) opts w frame).1.frameCount := by
  have hinv1 := SpyInv_WriteFrame wr opts hN w frame hinv
  obtain ⟨heq, _⟩ := hinv
  obtain ⟨heq1, _⟩ := hinv1
  rw [heq, heq1]
  by_cases hsize : (frame.length : Int) ≤ opts.MaxFrameSize
  swap
  · rw [WriteFrame_of_oversize _ _ _ _ (by omega)]
  by_cases hcount : w.frameCount < opts.MaxFrames
  swap
  · rw [WriteFrame_of_full _ _ _ _ hsize (by omega)]
  rcases hs : opts.Sanitizer.Sanitize w.sanitizer ((spyWriter wr).FramingType w.writer) frame
    with ⟨san, out, _ | e⟩
  swap
  · rw [WriteFrame_of_sanitize_error _ _ _ _ hsize hcount san out e hs]
  by_cases hout : out = []
  · subst hout
    rw [WriteFrame_of_sanitize_empty _ _ _ _ hsize hcount san hs]
  rw [WriteFrame_of_delegate _ _ _ _ hsize hcount san out hout hs]
  obtain ⟨lw, r, hw⟩ : ∃ lw r, wr.WriteFrame w.writer.1 out = (lw, r) := ⟨_, _, rfl⟩
  cases r with
  | none =>
    rw [spyWriter_WriteFrame_ok wr w.writer out lw hw]
    show (w.writer.2.2 : Int) ≤ ((w.writer.2.2 + 1 : Nat) : Int)
    push_cast
    omega
  | some e =>
    rw [spyWriter_WriteFrame_err wr w.writer out lw e hw]

theorem SpyInv_writeCalls_mono {σ τ : Type} (wr : Writer σ) (opts : WriterOptions τ)
    (hN : InInt64 opts.MaxFrames) (frames : List Bytes) :
    ∀ w : highlevelWriter (σ × List Bytes × Nat) τ, SpyInv opts w →
      w.frameCount ≤ (highlevelWriter.writeCalls (spyWriter wr) opts w frames).1.frameCount := by
  induction frames with
  | nil => intro w _; exact le_refl _
  | cons frame rest ih =>
    intro w h
    exact le_trans (SpyInv_WriteFrame_mono wr opts hN w frame h)
      (ih _ (SpyInv_WriteFrame wr opts hN w frame h))

/-- C30: start from a new high-level writer (`frameCount = 0`) with
`MaxFrames ≥ 0` (an `int64`) over any low-level writer, wrapped in a spy that
counts the calls it answers with success, and run any sequence of `WriteFrame`
calls with any frames and any Sanitizer. Then `frameCount` equals the number
of calls in which the low-level writer was invoked and returned success, it
lies between 0 and `MaxFrames`, and it does not decrease over any further
calls. -/
theorem highlevelWriter_reachable_invariant {σ τ : Type} (wr : Writer σ)
    (opts : WriterOptions τ) (w0 : σ) (san0 : τ) (frames more : List Bytes)
    (hN : InInt64 opts.MaxFrames) (h0 : 0 ≤ opts.MaxFrames) :
    (highlevelWriter.writeCalls (spyWriter wr) opts
        (newHighlevelWriter (w0, [], 0) san0) frames).1.frameCount
      = ((highlevelWriter.writeCalls (spyWriter wr) opts
          (newHighlevelWriter (w0, [], 0) san0) frames).1.writer.2.2 : Int)
    ∧ 0 ≤ (highlevelWriter.writeCalls (spyWriter wr) opts
        (newHighlevelWriter (w0, [], 0) san0) frames).1.frameCount
    ∧ (highlevelWriter.writeCalls (spyWriter wr) opts
        (newHighlevelWriter (w0, [], 0) san0) frames).1.frameCount ≤ opts.MaxFrames
    ∧ ((highlevelWriter.writeCalls (spyWriter wr) opts
        (newHighlevelWriter (w0, [], 0) san0) frames).1.writer.2.2 : Int) ≤ opts.MaxFrames
    ∧ (highlevelWriter.writeCalls (spyWriter wr) opts
        (newHighlevelWriter (w0, [], 0) san0) frames).1.frameCount
      ≤ (highlevelWriter.writeCalls (spyWriter wr) opts
          (newHighlevelWriter (w0, [], 0) san0) (frames ++ more)).1.frameCount := by
  have hinv := SpyInv_writeCalls wr opts hN frames (newHighlevelWriter (w0, [], 0) san0)
    ⟨rfl, Or.inl rfl⟩
  have hmono := SpyInv_writeCalls_mono wr opts hN more _ hinv
  rw [← writeCalls_append] at hmono
  obtain ⟨heq, hle⟩ := hinv
  refine ⟨heq, ?_, ?_, ?_, hmono⟩
  · rw [heq]
    exact Int.ofNat_nonneg _
  · rcases hle with hz | hle
    · rw [hz]; exact h0
    · exact hle
  · rw [← heq]
    rcases hle with hz | hle
    · rw [hz]; exact h0
    · exact hle

/-- With `MaxFrames = 2` over a low-level writer that fails on its second
call: of the calls `a`, empty, `b`, `c`, `d`, `e` the low-level writer accepts
`a` and `c`; `frameCount` is 2 after these calls, it was 1 after the first
three of them, and it stays 2. -/
theorem highlevelWriter_reachable_invariant_witness :
    (highlevelWriter.writeCalls (spyWriter (recordingWriter "application/yaml"))
        ⟨10, 2, identitySanitizer⟩
        (newHighlevelWriter (⟨[], [none, some Err.ErrShortWrite]⟩, [], 0) 0)
        [ascii "a", [], ascii "b"]).1.frameCount = 1
    ∧ (highlevelWriter.writeCalls (spyWriter (recordingWriter "application/yaml"))
        ⟨10, 2, identitySanitizer⟩
        (newHighlevelWriter (⟨[], [none, some Err.ErrShortWrite]⟩, [], 0) 0)
        ([ascii "a", [], ascii "b"] ++ [ascii "c", ascii "d", ascii "e"])).1.frameCount = 2
    ∧ (highlevelWriter.writeCalls (spyWriter (recordingWriter "application/yaml"))
        ⟨10, 2, identitySanitizer⟩
        (newHighlevelWriter (⟨[], [none, some Err.ErrShortWrite]⟩, [], 0) 0)
        [ascii "a", [], ascii "b"]).1.frameCount
      ≤ (highlevelWriter.writeCalls (spyWriter (recordingWriter "application/yaml"))
          ⟨10, 2, identitySanitizer⟩
          (newHighlevelWriter (⟨[], [none, some Err.ErrShortWrite]⟩, [], 0) 0)
          ([ascii "a", [], ascii "b"] ++ [ascii "c", ascii "d", ascii "e"])).1.frameCount :=
  ⟨by decide, by decide,
    (highlevelWriter_reachable_invariant (recordingWriter "application/yaml")
      ⟨10, 2, identitySanitizer⟩ ⟨[], [none, some Err.ErrShortWrite]⟩ 0
      [ascii "a", [], ascii "b"] [ascii "c", ascii "d", ascii "e"] (by decide)
      (by decide)).2.2.2.2⟩

/-! ## The resets of the limit counter -/

theorem countingReset_ReadFrame {κ : Type} (r : yamlReader κ) (s : κ) (c : Nat) :
    yamlReader.ReadFrame (countingReset r) (s, c)
      = (((yamlReader.ReadFrame r s).1, if (r.cr.Read s).2.2 = none then c + 1 else c),
          (yamlReader.ReadFrame r s).2) := by
  obtain ⟨s1, doc, err, hr⟩ : ∃ s1 doc err, r.cr.Read s = (s1, doc, err) := ⟨_, _, _, rfl⟩
  cases err with
  | some e =>
    simp only [yamlReader.ReadFrame, countingReset, hr, reduceCtorEq, if_false]
  | none =>
    simp only [yamlReader.ReadFrame, countingReset, hr, if_true]
    by_cases hlen : (doc.length : Int) > r.maxFrameSize
    · simp only [hlen, if_true]
    · simp only [hlen, if_false]

theorem ReadFrame_delivered_iff {κ : Type} (r : yamlReader κ) (s : κ) :
    ((yamlReader.ReadFrame r s).2.2 = none)
      ↔ ((r.cr.Read s).2.2 = none ∧ ¬ ((r.cr.Read s).2.1.length : Int) > r.maxFrameSize) := by
  obtain ⟨s1, doc, err, hr⟩ : ∃ s1 doc err, r.cr.Read s = (s1, doc, err) := ⟨_, _, _, rfl⟩
  cases err with
  | some e => simp [yamlReader.ReadFrame, hr]
  | none =>
    by_cases hlen : (doc.length : Int) > r.maxFrameSize
    · simp [yamlReader.ReadFrame, hr, hlen]
    · simp [yamlReader.ReadFrame, hr, hlen]

theorem countingReset_calls {κ : Type} (r : yamlReader κ) :
    ∀ (n : Nat) (s : κ) (c : Nat),
      (yamlReader.afterCalls (countingReset r) n (s, c)).2
          = c + (yamlReader.segmentCalls r n s).countP (fun x => decide (x.2 = none))
      ∧ yamlReader.readCalls (countingReset r) n (s, c) = yamlReader.readCalls r n s
      ∧ (yamlReader.segmentCalls r n s).countP (fun x => decide (x.2 = none))
          = (yamlReader.readCalls r n s).countP (fun x => decide (x.2 = none))
            + (yamlReader.segmentCalls r n s).countP
                (fun x => decide (x.2 = none ∧ (x.1.length : Int) > r.maxFrameSize)) := by
  intro n
  induction n with
  | zero => intro s c; exact ⟨rfl, rfl, rfl⟩
  | succ n ih =>
    intro s c
    have hstep := countingReset_ReadFrame r s c
    have hdel := ReadFrame_delivered_iff r s
    obtain ⟨ih1, ih2, ih3⟩ := ih (yamlReader.ReadFrame r s).1
      (if (r.cr.Read s).2.2 = none then c + 1 else c)
    refine ⟨?_, ?_, ?_⟩
    · simp only [yamlReader.afterCalls, yamlReader.segmentCalls, hstep, ih1, List.countP_cons]
      by_cases he : (r.cr.Read s).2.2 = none
      · simp only [he, if_true, decide_True]
        omega
      · simp only [he, if_false, decide_False, Bool.false_eq_true]
        omega
    · simp only [yamlReader.readCalls, hstep, ih2]
    · simp only [yamlReader.readCalls, yamlReader.segmentCalls, List.countP_cons, ih3]
      by_cases he : (r.cr.Read s).2.2 = none
      · by_cases hlen : ((r.cr.Read s).2.1.length : Int) > r.maxFrameSize
        · have hnd : ¬ (yamlReader.ReadFrame r s).2.2 = none := fun h => (hdel.1 h).2 hlen
          simp only [he, hlen, hnd, and_self, decide_True, decide_False, if_true,
            Bool.false_eq_true, if_false]
          omega
        · have hd : (yamlReader.ReadFrame r s).2.2 = none := hdel.2 ⟨he, hlen⟩
          simp only [he, hlen, hd, and_false, decide_True, decide_False, if_true,
            Bool.false_eq_true, if_false]
          omega
      · have hnd : ¬ (yamlReader.ReadFrame r s).2.2 = none := fun h => he (hdel.1 h).1
        simp only [he, hnd, false_and, decide_False, Bool.false_eq_true, if_false]
        omega

/-- C28, as stated, fails: `resetCounter` is invoked before the final size
check (reader_yaml.go:70-76). With `maxFrameSize = 7` over the content
`---\nfoo: 1\n` (11 bytes, the budget of the limiting wrapper) the first
`ReadFrame` call returns the frame-size-overflow error and has invoked the
reset function once: after one call there is one reset and no frame
delivered. -/
theorem yamlReader_resets_counterexample :
    yamlReader.ReadFrame (countingReset (memYAMLReader 7))
        (splitLines (ascii "---\nfoo: 1\n"), 0)
      = (([], 1), [], some (Err.FrameSizeOverflow 7))
    ∧ (yamlReader.afterCalls (countingReset (memYAMLReader 7)) 1
        (splitLines (ascii "---\nfoo: 1\n"), 0)).2 = 1
    ∧ (yamlReader.readCalls (countingReset (memYAMLReader 7)) 1
        (splitLines (ascii "---\nfoo: 1\n"), 0)).countP (fun x => decide (x.2 = none)) = 0 := by
  decide

/-- C28 (amended): for every `yamlReader`, with the invocations of
`resetCounter` counted beside its state:
(1) a call in which the segment reader returns an error returns that error
and invokes no reset;
(2) a call in which the segment reader returns a document without error
invokes the reset once, whether the document is then returned as the frame
or refused by the final size check;
(3) hence a call that returns a frame without error has invoked the reset
exactly once;
(4) over any `n` successive calls the number of resets equals the number of
documents the segment reader returned without error, which is the number of
frames delivered plus the number of documents refused by the final size
check; counting the resets does not change what the calls return. -/
theorem yamlReader_resets {κ : Type} (r : yamlReader κ) (s : κ) (c n : Nat) :
    (∀ e : Err, (r.cr.Read s).2.2 = some e →
        (yamlReader.ReadFrame (countingReset r) (s, c)).1.2 = c
        ∧ (yamlReader.ReadFrame (countingReset r) (s, c)).2 = ([], some e))
    ∧ ((r.cr.Read s).2.2 = none →
        (yamlReader.ReadFrame (countingReset r) (s, c)).1.2 = c + 1)
    ∧ ((yamlReader.ReadFrame (countingReset r) (s, c)).2.2 = none →
        (yamlReader.ReadFrame (countingReset r) (s, c)).1.2 = c + 1)
    ∧ ((yamlReader.afterCalls (countingReset r) n (s, c)).2
          = c + (yamlReader.readCalls r n s).countP (fun x => decide (x.2 = none))
            + (yamlReader.segmentCalls r n s).countP
                (fun x => decide (x.2 = none ∧ (x.1.length : Int) > r.maxFrameSize))
      ∧ (yamlReader.afterCalls (countingReset r) n (s, c)).2
          = c + (yamlReader.segmentCalls r n s).countP (fun x => decide (x.2 = none))
      ∧ yamlReader.readCalls (countingReset r) n (s, c) = yamlReader.readCalls r n s) := by
  have hstep := countingReset_ReadFrame r s c
  obtain ⟨h1, h2, h3⟩ := countingReset_calls r n s c
  refine ⟨?_, ?_, ?_, ?_, h1, h2⟩
  · intro e he
    refine ⟨by simp [hstep, he], ?_⟩
    rw [hstep]
    obtain ⟨s1, doc, err, hr⟩ : ∃ s1 doc err, r.cr.Read s = (s1, doc, err) := ⟨_, _, _, rfl⟩
    rw [hr] at he
    simp only at he
    subst he
    simp only [yamlReader.ReadFrame, hr]
  · intro he
    simp [hstep, he]
  · intro hd
    rw [hstep] at hd
    have he := ((ReadFrame_delivered_iff r s).1 hd).1
    simp [hstep, he]
  · rw [h1, h3]
    omega

/-- Over the content `---\nfoo: 1\n---\nbar: 22\n` with `maxFrameSize = 7`:
the first document (11 bytes) is refused after the reset, the second (8
bytes) too, the third call meets the end of the content. Two resets, no frame
delivered. With `maxFrameSize = 11` both documents are delivered, with two
resets. -/
theorem yamlReader_resets_witness :
    (yamlReader.afterCalls (countingReset (memYAMLReader 7)) 3
        (splitLines (ascii "---\nfoo: 1\n---\nbar: 22\n"), 0)).2 = 0 + 0 + 2
    ∧ (yamlReader.afterCalls (countingReset (memYAMLReader 11)) 3
        (splitLines (ascii "---\nfoo: 1\n---\nbar: 22\n"), 0)).2 = 0 + 2 + 0
    ∧ (yamlReader.ReadFrame (countingReset (memYAMLReader 11)) ([], 5)).1.2 = 5 :=
  ⟨(yamlReader_resets (memYAMLReader 7)
      (splitLines (ascii "---\nfoo: 1\n---\nbar: 22\n")) 0 3).2.2.2.1,
    (yamlReader_resets (memYAMLReader 11)
      (splitLines (ascii "---\nfoo: 1\n---\nbar: 22\n")) 0 3).2.2.2.1,
    ((yamlReader_resets (memYAMLReader 11) [] 5 0).1 Err.EOF (by decide)).1⟩

/-! ## Content streams: the closer of a wrapped stream -/

theorem NonClosingOver_close {χ Q R ρ S : Type} (child : Option χ → χ)
    (raw : content.RawStream Q R ρ) (L : content.Layer χ Q R S) (proj : S → ρ)
    (hL : content.NonClosingOver child raw L proj) :
    (∀ (c : Option χ) (s : S), proj (L.setCloseContext c s) = proj s)
    ∧ (∀ s : S, proj (L.Close s).1 = (raw.close (proj s)).1
        ∧ (L.Close s).2 = (raw.close (proj s)).2) := by
  induction hL with
  | base =>
    refine ⟨fun _ _ => rfl, fun s => ?_⟩
    simp only [content.reader.methods, content.closeContextLockImpl.Close,
      content.RawStream.close]
    split <;> exact ⟨rfl, rfl⟩
  | wrap U proj T _ hT ih =>
    obtain ⟨ih1, ih2⟩ := ih
    refine ⟨fun _ _ => rfl, fun s => ?_⟩
    simp only [content.reader.Wrap.methods, content.closeContextLockImpl.Close, hT,
      traceRegister]
    rw [ih1, (ih2 _).1, (ih2 _).2, ih1]
    exact ⟨rfl, rfl⟩

/-- C24: for every content stream `U` (a Reader or Writer with its methods),
every wrap result `T` that is not nil, and every execution context:
(1) when `T` exposes a closer, closing `U.Wrap(T)` through the handle of
`WithContext` runs exactly that closer (against the stream `U` it was given,
with the context attached to the `close` lock of `U` and cleared afterwards)
and returns its result;
(2) when `T` exposes no closer, closing `U.Wrap(T)` is `U.Close()` with the
context attached to the `close` lock of `U` and cleared afterwards; the state
of `T` is untouched;
(3) hence for a stream built by `NewReader` or `NewWriter` around a raw
stream and any number of wraps whose results expose no closer, a `Close`
through the handle does to the raw stream what one call of the closer of the
raw stream does, and returns its result; when the raw stream has no closer or
is a standard stream, the raw stream is untouched and the result is nil. -/
theorem Wrap_close {χ Q R S ω : Type} (child : Option χ → χ) (U : content.Layer χ Q R S)
    (T : content.WrapResult Q R ω) (ctx : χ) (s : content.stream χ (ω × S)) :
    (∀ newCloser : ω → content.Calls Q R (ω × Option Err), T.Closer = some newCloser →
        (content.closerWithContext.Close (content.reader.Wrap.methods child U T) ctx s).2
          = (content.Calls.run U.call U.Close (newCloser s.inner.1)
              (U.setCloseContext (some (child (some ctx))) s.inner.2)).2.2
        ∧ (content.closerWithContext.Close (content.reader.Wrap.methods child U T) ctx s).1.inner
          = ((content.Calls.run U.call U.Close (newCloser s.inner.1)
                (U.setCloseContext (some (child (some ctx))) s.inner.2)).2.1,
              U.setCloseContext none
                (content.Calls.run U.call U.Close (newCloser s.inner.1)
                  (U.setCloseContext (some (child (some ctx))) s.inner.2)).1))
    ∧ (T.Closer = none →
        (content.closerWithContext.Close (content.reader.Wrap.methods child U T) ctx s).2
          = (U.Close (U.setCloseContext (some (child (some ctx))) s.inner.2)).2
        ∧ (content.closerWithContext.Close (content.reader.Wrap.methods child U T) ctx s).1.inner
          = (s.inner.1,
              U.setCloseContext none
                (U.Close (U.setCloseContext (some (child (some ctx))) s.inner.2)).1))
    ∧ (∀ (ρ : Type) (raw : content.RawStream Q R ρ) (proj : S → ρ),
        content.NonClosingOver child raw U proj → T.Closer = none →
        ((content.closerWithContext.Close (content.reader.Wrap.methods child U T) ctx s).2
            = (raw.close (proj s.inner.2)).2
          ∧ proj (content.closerWithContext.Close
                (content.reader.Wrap.methods child U T) ctx s).1.inner.2
            = (raw.close (proj s.inner.2)).1)
        ∧ (∀ (u : S) (ctx1 : χ),
            (content.closerWithContext.Close U ctx1 u).2 = (raw.close (proj u)).2
            ∧ proj (content.closerWithContext.Close U ctx1 u).1 = (raw.close (proj u)).1)
        ∧ (∀ (c : ρ → ρ × Option Err) (r : ρ), raw.Closer = some c → raw.isStdio = false →
            raw.close r = c r)
        ∧ (∀ r : ρ, raw.Closer = none ∨ raw.isStdio = true → raw.close r = (r, none))) := by
  refine ⟨?_, ?_, ?_⟩
  · intro newCloser hT
    simp only [content.closerWithContext.Close, content.reader.Wrap.methods,
      content.closeContextLockImpl.Close, hT, traceRegister]
    constructor <;> trivial
  · intro hT
    simp only [content.closerWithContext.Close, content.reader.Wrap.methods,
      content.closeContextLockImpl.Close, hT, traceRegister]
    constructor <;> trivial
  · intro ρ raw proj hU hT
    obtain ⟨h1, h2⟩ := NonClosingOver_close child raw U proj hU
    refine ⟨?_, ?_, ?_, ?_⟩
    · simp only [content.closerWithContext.Close, content.reader.Wrap.methods,
        content.closeContextLockImpl.Close, hT, traceRegister]
      rw [h1, (h2 _).1, (h2 _).2, h1]
      exact ⟨rfl, rfl⟩
    · intro u ctx1
      simp only [content.closerWithContext.Close]
      rw [h1, (h2 _).1, (h2 _).2, h1]
      exact ⟨rfl, rfl⟩
    · intro c r hc hstd
      simp only [content.RawStream.close, hc, hstd, Bool.false_eq_true, if_false]
    · intro r hno
      rcases hno with hno | hno
      · simp only [content.RawStream.close, hno, ite_self]
      · simp only [content.RawStream.close, hno, if_true]

/-- The content writer of TestToIoWriteCloser (a buffer with a closer that
counts its calls) under two wraps of the YAML frame writer, which exposes no
closer: a `Close` at the top returns nil and the closer has been called once.
Under a wrap whose result has a closer of its own (it writes `END` and does
not close the stream it was given), a `Close` runs that closer and the closer
of the buffer is not called. Over standard output under a wrap of the YAML
frame writer no closer is called and `Close` returns nil. -/
theorem Wrap_close_witness :
    ((content.closerWithContext.Close
          (content.reader.Wrap.methods childContext
            (content.reader.Wrap.methods childContext
              (content.reader.methods childContext recordedBuffer) yamlFramer) yamlFramer) 5
          (content.reader.Wrap
            (content.reader.Wrap.methods childContext
              (content.reader.methods childContext recordedBuffer) yamlFramer) ()
            (content.reader.Wrap (content.reader.methods childContext recordedBuffer) ()
              (content.NewReader [] [] ([], 0)).2))).2 = none
      ∧ (content.closerWithContext.Close
          (content.reader.Wrap.methods childContext
            (content.reader.Wrap.methods childContext
              (content.reader.methods childContext recordedBuffer) yamlFramer) yamlFramer) 5
          (content.reader.Wrap
            (content.reader.Wrap.methods childContext
              (content.reader.methods childContext recordedBuffer) yamlFramer) ()
            (content.reader.Wrap (content.reader.methods childContext recordedBuffer) ()
              (content.NewReader [] [] ([], 0)).2))).1.inner.2.inner.2.inner = ([], 1))
    ∧ ((content.closerWithContext.Close
          (content.reader.Wrap.methods childContext
            (content.reader.methods childContext recordedBuffer) trailerWriter) 5
          (content.reader.Wrap (content.reader.methods childContext recordedBuffer) false
            (content.NewReader [] [] ([], 0)).2)).2 = none
      ∧ (content.closerWithContext.Close
          (content.reader.Wrap.methods childContext
            (content.reader.methods childContext recordedBuffer) trailerWriter) 5
          (content.reader.Wrap (content.reader.methods childContext recordedBuffer) false
            (content.NewReader [] [] ([], 0)).2)).1.inner
        = (true, (content.NewReader [] [] (ascii "END", 0)).2))
    ∧ ((content.closerWithContext.Close
          (content.reader.Wrap.methods childContext
            (content.reader.methods childContext stdoutStream) yamlFramer) 5
          (content.reader.Wrap (content.reader.methods childContext stdoutStream) ()
            (content.NewReader [] [] ([], 0)).2)).2 = none
      ∧ (content.closerWithContext.Close
          (content.reader.Wrap.methods childContext
            (content.reader.methods childContext stdoutStream) yamlFramer) 5
          (content.reader.Wrap (content.reader.methods childContext stdoutStream) ()
            (content.NewReader [] [] ([], 0)).2)).1.inner.2.inner = ([], 0)) :=
  ⟨((Wrap_close childContext
        (content.reader.Wrap.methods childContext
          (content.reader.methods childContext recordedBuffer) yamlFramer) yamlFramer 5
        (content.reader.Wrap
          (content.reader.Wrap.methods childContext
            (content.reader.methods childContext recordedBuffer) yamlFramer) ()
          (content.reader.Wrap (content.reader.methods childContext recordedBuffer) ()
            (content.NewReader [] [] ([], 0)).2))).2.2 _ recordedBuffer
        (fun s => s.inner.2.inner)
        (content.NonClosingOver.wrap _ _ yamlFramer content.NonClosingOver.base rfl) rfl).1,
    (Wrap_close childContext (content.reader.methods childContext recordedBuffer) trailerWriter 5
        (content.reader.Wrap (content.reader.methods childContext recordedBuffer) false
          (content.NewReader [] [] ([], 0)).2)).1 _ rfl,
    ((Wrap_close childContext (content.reader.methods childContext stdoutStream) yamlFramer 5
        (content.reader.Wrap (content.reader.methods childContext stdoutStream) ()
          (content.NewReader [] [] ([], 0)).2)).2.2 _ stdoutStream (fun s => s.inner)
        content.NonClosingOver.base rfl).1⟩

/-! ## Content streams: the execution context (content/reader.go, content/writer.go) -/

theorem Calls_run_scoped {χ Q R S α : Type} (L : content.Layer χ Q R S) (hL : L.Scoped)
    (t : content.Calls Q R α) :
    ∀ s : S, L.ctx (content.Calls.run L.call L.Close t s).1 = L.ctx s
      ∧ L.closeCtx (content.Calls.run L.call L.Close t s).1 = L.closeCtx s
      ∧ ((∀ c ∈ L.below s, c = none) →
          ∀ c ∈ L.below (content.Calls.run L.call L.Close t s).1, c = none) := by
  induction t with
  | ret a => intro s; exact ⟨rfl, rfl, fun h => h⟩
  | call q k ih =>
    intro s
    obtain ⟨h1, h2, h3⟩ := ih (L.call s q).2 (L.call s q).1
    refine ⟨?_, ?_, ?_⟩
    · rw [content.Calls.run, h1, hL.ctx_call]
    · rw [content.Calls.run, h2, hL.closeCtx_call]
    · intro hb
      rw [content.Calls.run]
      exact h3 (hL.below_call s q hb)
  | close k ih =>
    intro s
    obtain ⟨h1, h2, h3⟩ := ih (L.Close s).2 (L.Close s).1
    refine ⟨?_, ?_, ?_⟩
    · rw [content.Calls.run, h1, hL.ctx_Close]
    · rw [content.Calls.run, h2, hL.closeCtx_Close]
    · intro hb
      rw [content.Calls.run]
      exact h3 (hL.below_Close s hb)

theorem Scoped_base {χ Q R ρ : Type} (child : Option χ → χ) (raw : content.RawStream Q R ρ) :
    (content.reader.methods child raw).Scoped where
  ctx_setContext := fun _ _ => rfl
  closeCtx_setContext := fun _ _ => rfl
  below_setContext := fun _ _ => rfl
  ctx_setCloseContext := fun _ _ => rfl
  closeCtx_setCloseContext := fun _ _ => rfl
  below_setCloseContext := fun _ _ => rfl
  ctx_call := fun _ _ => rfl
  closeCtx_call := fun _ _ => rfl
  below_call := fun _ _ _ c hc => by simp [content.reader.methods] at hc
  ctx_Close := fun s => by
    simp only [content.reader.methods, content.closeContextLockImpl.Close]
    split <;> rfl
  closeCtx_Close := fun s => by
    simp only [content.reader.methods, content.closeContextLockImpl.Close]
    split <;> rfl
  below_Close := fun _ _ c hc => by simp [content.reader.methods] at hc

theorem Scoped_wrap {χ Q R S ω : Type} (child : Option χ → χ) (U : content.Layer χ Q R S)
    (T : content.WrapResult Q R ω) (hU : U.Scoped) :
    (content.reader.Wrap.methods child U T).Scoped where
  ctx_setContext := fun _ _ => rfl
  closeCtx_setContext := fun _ _ => rfl
  below_setContext := fun _ _ => rfl
  ctx_setCloseContext := fun _ _ => rfl
  closeCtx_setCloseContext := fun _ _ => rfl
  below_setCloseContext := fun _ _ => rfl
  ctx_call := fun _ _ => rfl
  closeCtx_call := fun _ _ => rfl
  below_call := fun s q hb c hc => by
    have hb1 : U.closeCtx s.inner.2 = none := hb _ (by simp [content.reader.Wrap.methods])
    have hb2 : ∀ c ∈ U.below s.inner.2, c = none := fun c hc =>
      hb c (by simp [content.reader.Wrap.methods, hc])
    obtain ⟨_, h2, h3⟩ := Calls_run_scoped U hU (T.call s.inner.1 q)
      (U.setContext (some (child s.read.ctx)) s.inner.2)
    rw [hU.closeCtx_setContext] at h2
    rw [hU.below_setContext] at h3
    simp only [content.reader.Wrap.methods, content.readContextLockImpl.Read,
      List.mem_cons] at hc
    rcases hc with hc | hc | hc
    · rw [hc, hU.ctx_setContext]
    · rw [hc, hU.closeCtx_setContext, h2, hb1]
    · rw [hU.below_setContext] at hc
      exact h3 hb2 c hc
  ctx_Close := fun _ => rfl
  closeCtx_Close := fun _ => rfl
  below_Close := fun s hb c hc => by
    have hb0 : U.ctx s.inner.2 = none := hb _ (by simp [content.reader.Wrap.methods])
    have hb2 : ∀ c ∈ U.below s.inner.2, c = none := fun c hc =>
      hb c (by simp [content.reader.Wrap.methods, hc])
    simp only [content.reader.Wrap.methods, content.closeContextLockImpl.Close,
      List.mem_cons] at hc
    cases hT : T.Closer with
    | none =>
      simp only [hT] at hc
      rcases hc with hc | hc | hc
      · rw [hc, hU.ctx_setCloseContext, hU.ctx_Close, hU.ctx_setCloseContext, hb0]
      · rw [hc, hU.closeCtx_setCloseContext]
      · rw [hU.below_setCloseContext] at hc
        exact hU.below_Close _ (by rw [hU.below_setCloseContext]; exact hb2) c hc
    | some newCloser =>
      simp only [hT] at hc
      obtain ⟨h1, _, h3⟩ := Calls_run_scoped U hU (newCloser s.inner.1)
        (U.setCloseContext (some (child s.close.ctx)) s.inner.2)
      rw [hU.ctx_setCloseContext] at h1
      rw [hU.below_setCloseContext] at h3
      rcases hc with hc | hc | hc
      · rw [hc, hU.ctx_setCloseContext, h1, hb0]
      · rw [hc, hU.closeCtx_setCloseContext]
      · rw [hU.below_setCloseContext] at hc
        exact h3 hb2 c hc

theorem IsStream_scoped {χ Q R S : Type} (child : Option χ → χ) (L : content.Layer χ Q R S)
    (hL : content.IsStream child L) : L.Scoped := by
  induction hL with
  | base raw => exact Scoped_base child raw
  | wrap U T _ ih => exact Scoped_wrap child U T ih

/-- C29: for every content stream that `NewReader` or `NewWriter` and any
number of `Wrap` calls build, with any raw stream and any wrap results, and
every execution context:
(1) a new stream has no context attached, and wrapping a stream that has none
attached gives a stream that has none attached;
(2) after a `Read` or `Write` through a `WithContext` handle has returned,
whatever it returned, the `ctx` field of the `read` (or `write`) lock of the
layer is nil, and after a `Close` that of its `close` lock;
(3) when no context is attached to any layer before the call, none is
attached to any layer after a `Read` or `Write` and after a `Close` through
the handle. -/
theorem WithContext_clears_context {χ Q R S : Type} (child : Option χ → χ)
    (L : content.Layer χ Q R S) (hL : content.IsStream child L) (ctx : χ) (s : S) (p : Q) :
    ((∀ (ρ : Type) (h : Heap) (opts : List SetMIMEHeaderOption) (r : ρ)
        (raw : content.RawStream Q R ρ),
        ∀ c ∈ (content.reader.methods child raw).contexts (content.NewReader h opts r).2,
          c = none)
      ∧ (∀ (ω : Type) (T : content.WrapResult Q R ω) (own : ω),
          (∀ c ∈ L.contexts s, c = none) →
          ∀ c ∈ (content.reader.Wrap.methods child L T).contexts (content.reader.Wrap L own s),
            c = none))
    ∧ (L.ctx (content.readerWithContext.Read L ctx s p).1 = none
      ∧ L.closeCtx (content.closerWithContext.Close L ctx s).1 = none)
    ∧ ((∀ c ∈ L.contexts s, c = none) →
        (∀ c ∈ L.contexts (content.readerWithContext.Read L ctx s p).1, c = none)
        ∧ (∀ c ∈ L.contexts (content.closerWithContext.Close L ctx s).1, c = none)) := by
  have hS := IsStream_scoped child L hL
  refine ⟨⟨?_, ?_⟩, ⟨?_, ?_⟩, ?_⟩
  · intro ρ h opts r raw c hc
    simp only [content.Layer.contexts, content.reader.methods, content.NewReader,
      List.mem_cons, List.mem_nil_iff, or_false, or_self] at hc
    exact hc
  · intro ω T own hclear c hc
    simp only [content.Layer.contexts, content.reader.Wrap.methods, content.reader.Wrap,
      List.mem_cons] at hc
    rcases hc with hc | hc | hc | hc | hc
    · exact hc
    · exact hc
    · exact hclear c (by simp [content.Layer.contexts, hc])
    · exact hclear c (by simp [content.Layer.contexts, hc])
    · exact hclear c (by simp [content.Layer.contexts, hc])
  · exact hS.ctx_setContext _ _
  · exact hS.closeCtx_setCloseContext _ _
  · intro hclear
    have h0 : L.ctx s = none := hclear _ (by simp [content.Layer.contexts])
    have h1 : L.closeCtx s = none := hclear _ (by simp [content.Layer.contexts])
    have h2 : ∀ c ∈ L.below s, c = none := fun c hc =>
      hclear c (by simp [content.Layer.contexts, hc])
    refine ⟨?_, ?_⟩
    · intro c hc
      simp only [content.Layer.contexts, content.readerWithContext.Read, List.mem_cons] at hc
      rcases hc with hc | hc | hc
      · rw [hc, hS.ctx_setContext]
      · rw [hc, hS.closeCtx_setContext, hS.closeCtx_call, hS.closeCtx_setContext, h1]
      · rw [hS.below_setContext] at hc
        exact hS.below_call _ p (by rw [hS.below_setContext]; exact h2) c hc
    · intro c hc
      simp only [content.Layer.contexts, content.closerWithContext.Close, List.mem_cons] at hc
      rcases hc with hc | hc | hc
      · rw [hc, hS.ctx_setCloseContext, hS.ctx_Close, hS.ctx_setCloseContext, h0]
      · rw [hc, hS.closeCtx_setCloseContext]
      · rw [hS.below_setCloseContext] at hc
        exact hS.below_Close _ (by rw [hS.below_setCloseContext]; exact h2) c hc

/-- The content writer over a buffer under a wrap of the YAML frame writer,
with no context attached: after a `Write` of `a` through the handle bound to
the context 7 the buffer holds `---\na` and no layer has a context attached,
and none has after a `Close` through the handle. -/
theorem WithContext_clears_context_witness :
    (content.reader.Wrap.methods childContext
        (content.reader.methods childContext recordedBuffer) yamlFramer).contexts
        (content.reader.Wrap (content.reader.methods childContext recordedBuffer) ()
          (content.NewReader [] [] ([], 0)).2) = [none, none, none, none]
    ∧ (content.readerWithContext.Read
        (content.reader.Wrap.methods childContext
          (content.reader.methods childContext recordedBuffer) yamlFramer) 7
        (content.reader.Wrap (content.reader.methods childContext recordedBuffer) ()
          (content.NewReader [] [] ([], 0)).2) (ascii "a")).1.inner.2.inner = (ascii "---\na", 0)
    ∧ (∀ c ∈ (content.reader.Wrap.methods childContext
          (content.reader.methods childContext recordedBuffer) yamlFramer).contexts
          (content.readerWithContext.Read
            (content.reader.Wrap.methods childContext
              (content.reader.methods childContext recordedBuffer) yamlFramer) 7
            (content.reader.Wrap (content.reader.methods childContext recordedBuffer) ()
              (content.NewReader [] [] ([], 0)).2) (ascii "a")).1, c = none)
    ∧ (∀ c ∈ (content.reader.Wrap.methods childContext
          (content.reader.methods childContext recordedBuffer) yamlFramer).contexts
          (content.closerWithContext.Close
            (content.reader.Wrap.methods childContext
              (content.reader.methods childContext recordedBuffer) yamlFramer) 7
            (content.reader.Wrap (content.reader.methods childContext recordedBuffer) ()
              (content.NewReader [] [] ([], 0)).2)).1, c = none) :=
  ⟨by decide, by decide,
    (WithContext_clears_context childContext
      (content.reader.Wrap.methods childContext
        (content.reader.methods childContext recordedBuffer) yamlFramer)
      (content.IsStream.wrap _ yamlFramer (content.IsStream.base recordedBuffer)) 7
      (content.reader.Wrap (content.reader.methods childContext recordedBuffer) ()
        (content.NewReader [] [] ([], 0)).2) (ascii "a")).2.2 (by decide)⟩

/-! ## Closing twice -/

/-- C23, as stated, fails: every `Close` is passed on to the underlying
closer, and the result of the second call is whatever that closer returns the
second time. Over a file (whose `Close` returns an error once it has been
called) the content stream of `NewWriter`, the document-separated writer of
the factory over it, and the high-level writer around that all return nil
for the first `Close` and the error of the file for the second. -/
theorem Close_twice_counterexample :
    (content.closerWithContext.Close (content.reader.methods childContext fileWriter) 1
        (content.NewReader [] [] ([], false)).2).2 = none
    ∧ (content.closerWithContext.Close (content.reader.methods childContext fileWriter) 1
        (content.closerWithContext.Close (content.reader.methods childContext fileWriter) 1
          (content.NewReader [] [] ([], false)).2).1).2
      = some (Err.other "close: file already closed")
    ∧ (highlevelWriter.Close (factoryWriter _)
        (NewWriter "application/yaml" "application/json" "application/yaml"
          (content.writer.WithContext (content.reader.methods childContext fileWriter) 1)
          (content.NewReader [] [] ([], false)).2
          (⟨1000, 10, identitySanitizer⟩ : WriterOptions Nat) 0)).2 = none
    ∧ (highlevelWriter.Close (factoryWriter _)
        (highlevelWriter.Close (factoryWriter _)
          (NewWriter "application/yaml" "application/json" "application/yaml"
            (content.writer.WithContext (content.reader.methods childContext fileWriter) 1)
            (content.NewReader [] [] ([], false)).2
            (⟨1000, 10, identitySanitizer⟩ : WriterOptions Nat) 0)).1).2
      = some (Err.other "close: file already closed") :=
  ⟨by decide, by decide, by decide, by decide⟩

/-- C23 (amended): `Close` is a total function on every reader and writer (no
call panics), and
(1) on a content stream of `NewReader` or `NewWriter`, every `Close` through
the handle of `WithContext` returns what the closer of the raw stream returns
for that call; a second `Close` returns the same result as the first whenever
the second call of that closer returns the same result as its first; on a
stream with no closer (or around a standard stream) every `Close` returns nil
and leaves the raw stream untouched;
(2) the `Close` of each low-level strategy (delegating and single-frame
writer, single-frame, document-separated and object-concatenated reader)
returns what the `Close` of its content stream returns, so a second `Close`
returns the same result as the first whenever that holds for the content
stream; the error reader and the error writer return nil every time;
(3) the `Close` of the high-level writer returns what the `Close` of the
low-level writer returns, so a second `Close` returns the same result as the
first whenever that holds for the low-level writer. -/
theorem Close_twice {χ Q R ρ : Type} (child : Option χ → χ) (raw : content.RawStream Q R ρ)
    (s : content.stream χ ρ) (ctx1 ctx2 : χ) :
    (((content.closerWithContext.Close (content.reader.methods child raw) ctx1 s).2
          = (raw.close s.inner).2
        ∧ (content.closerWithContext.Close (content.reader.methods child raw) ctx2
            (content.closerWithContext.Close (content.reader.methods child raw) ctx1 s).1).2
          = (raw.close (raw.close s.inner).1).2)
      ∧ ((∀ r : ρ, (raw.close (raw.close r).1).2 = (raw.close r).2) →
          (content.closerWithContext.Close (content.reader.methods child raw) ctx2
            (content.closerWithContext.Close (content.reader.methods child raw) ctx1 s).1).2
          = (content.closerWithContext.Close (content.reader.methods child raw) ctx1 s).2)
      ∧ (raw.Closer = none ∨ raw.isStdio = true →
          (content.closerWithContext.Close (content.reader.methods child raw) ctx1 s).2 = none
          ∧ (content.closerWithContext.Close (content.reader.methods child raw) ctx1 s).1.inner
            = s.inner
          ∧ (content.closerWithContext.Close (content.reader.methods child raw) ctx2
              (content.closerWithContext.Close (content.reader.methods child raw) ctx1 s).1).2
            = none
          ∧ (content.closerWithContext.Close (content.reader.methods child raw) ctx2
              (content.closerWithContext.Close (content.reader.methods child raw) ctx1 s).1).1.inner
            = s.inner))
    ∧ ((∀ (ω : Type) (cw : IoWriter ω),
          (∀ w : ω, (cw.Close (cw.Close w).1).2 = (cw.Close w).2) →
          (∀ dw : delegatingWriter ω,
            (delegatingWriter.Close cw dw).2 = (cw.Close dw.w).2
            ∧ (delegatingWriter.Close cw (delegatingWriter.Close cw dw).1).2
              = (delegatingWriter.Close cw dw).2)
          ∧ (∀ sw : singleWriter ω,
            (singleWriter.Close cw sw).2 = (cw.Close sw.w).2
            ∧ (singleWriter.Close cw (singleWriter.Close cw sw).1).2
              = (singleWriter.Close cw sw).2)
          ∧ (∀ (ft : FramingType) (dw : delegatingWriter ω) (sw : singleWriter ω),
            (lowlevelWriter.Close (lowlevelWriter.Close (lowlevelWriter.delegating cw dw)).1).2
              = (lowlevelWriter.Close (lowlevelWriter.delegating cw dw)).2
            ∧ (lowlevelWriter.Close (lowlevelWriter.Close (lowlevelWriter.single cw ft sw)).1).2
              = (lowlevelWriter.Close (lowlevelWriter.single cw ft sw)).2))
      ∧ (∀ (ω : Type) (ew : errWriter) (given : ω),
          (lowlevelWriter.Close (lowlevelWriter.err ew given)).2 = none
          ∧ (lowlevelWriter.Close (lowlevelWriter.Close (lowlevelWriter.err ew given)).1).2
            = none)
      ∧ (∀ (ρ1 : Type) (rd : IoReader ρ1),
          (∀ r : ρ1, (rd.Close (rd.Close r).1).2 = (rd.Close r).2) →
          ∀ sr : singleReader ρ1,
            (singleReader.Close rd sr).2 = (rd.Close sr.r).2
            ∧ (singleReader.Close rd (singleReader.Close rd sr).1).2
              = (singleReader.Close rd sr).2)
      ∧ (∀ (κ : Type) (yr : yamlReader κ),
          (∀ k : κ, (yr.cr.Close (yr.cr.Close k).1).2 = (yr.cr.Close k).2) →
          ∀ k : κ, (yamlReader.Close yr (yamlReader.Close yr k).1).2
            = (yamlReader.Close yr k).2)
      ∧ (∀ (κ : Type) (jr : streamingReader κ),
          (∀ k : κ, (jr.streamReader.Close (jr.streamReader.Close k).1).2
            = (jr.streamReader.Close k).2) →
          ∀ k : κ, (streamingReader.Close jr (streamingReader.Close jr k).1).2
            = (streamingReader.Close jr k).2)
      ∧ (∀ er : errReader,
          (errReader.Close er).2 = none ∧ (errReader.Close (errReader.Close er).1).2 = none))
    ∧ (∀ (σ τ : Type) (wr : Writer σ),
        (∀ w : σ, (wr.Close (wr.Close w).1).2 = (wr.Close w).2) →
        ∀ w : highlevelWriter σ τ,
          (highlevelWriter.Close wr w).2 = (wr.Close w.writer).2
          ∧ (highlevelWriter.Close wr (highlevelWriter.Close wr w).1).2
            = (highlevelWriter.Close wr w).2) := by
  have h1 : ∀ (ctx : χ) (t : content.stream χ ρ),
      (content.closerWithContext.Close (content.reader.methods child raw) ctx t).2
        = (raw.close t.inner).2
      ∧ (content.closerWithContext.Close (content.reader.methods child raw) ctx t).1.inner
        = (raw.close t.inner).1 := by
    intro ctx t
    simp only [content.closerWithContext.Close, content.reader.methods,
      content.closeContextLockImpl.Close, content.RawStream.close, traceRegister]
    split <;> exact ⟨rfl, rfl⟩
  refine ⟨⟨⟨(h1 ctx1 s).1, ?_⟩, ?_, ?_⟩, ⟨?_, ?_, ?_, ?_, ?_, ?_⟩, ?_⟩
  · rw [(h1 ctx2 _).1, (h1 ctx1 s).2]
  · intro hidem
    rw [(h1 ctx2 _).1, (h1 ctx1 s).2, (h1 ctx1 s).1]
    exact hidem _
  · intro hno
    have hclose : ∀ r : ρ, raw.close r = (r, none) := by
      intro r
      rcases hno with hno | hno
      · simp only [content.RawStream.close, hno, ite_self]
      · simp only [content.RawStream.close, hno, if_true]
    refine ⟨?_, ?_, ?_, ?_⟩
    · rw [(h1 ctx1 s).1, hclose]
    · rw [(h1 ctx1 s).2, hclose]
    · rw [(h1 ctx2 _).1, hclose]
    · rw [(h1 ctx2 _).2, hclose, (h1 ctx1 s).2, hclose]
  · intro ω cw hcw
    refine ⟨fun dw => ⟨rfl, hcw dw.w⟩, fun sw => ⟨rfl, hcw sw.w⟩, fun ft dw sw => ?_⟩
    exact ⟨hcw dw.w, hcw sw.w⟩
  · intro ω ew given
    exact ⟨rfl, rfl⟩
  · intro ρ1 rd hrd sr
    exact ⟨rfl, hrd sr.r⟩
  · intro κ yr hyr k
    exact hyr k
  · intro κ jr hjr k
    exact hjr k
  · intro er
    exact ⟨rfl, rfl⟩
  · intro σ τ wr hwr w
    exact ⟨rfl, hwr w.writer⟩

/-- Over the buffer with the counting closer of TestToIoWriteCloser (every
`Close` of which returns nil): two `Close` calls on the content stream make
two calls of the closer and both return nil; over standard output both return
nil and the closer is not called; the high-level writer around the
document-separated writer over the buffer returns nil twice. -/
theorem Close_twice_witness :
    (content.closerWithContext.Close (content.reader.methods childContext recordedBuffer) 2
        (content.closerWithContext.Close (content.reader.methods childContext recordedBuffer) 1
          (content.NewReader [] [] ([], 0)).2).1).2
      = (content.closerWithContext.Close (content.reader.methods childContext recordedBuffer) 1
          (content.NewReader [] [] ([], 0)).2).2
    ∧ (content.closerWithContext.Close (content.reader.methods childContext recordedBuffer) 2
        (content.closerWithContext.Close (content.reader.methods childContext recordedBuffer) 1
          (content.NewReader [] [] ([], 0)).2).1).1.inner = ([], 2)
    ∧ (content.closerWithContext.Close (content.reader.methods childContext stdoutStream) 2
        (content.closerWithContext.Close (content.reader.methods childContext stdoutStream) 1
          (content.NewReader [] [] ([], 0)).2).1).1.inner = ([], 0)
    ∧ (highlevelWriter.Close (factoryWriter _)
        (highlevelWriter.Close (factoryWriter _)
          (NewWriter "application/yaml" "application/json" "application/yaml"
            (content.writer.WithContext (content.reader.methods childContext recordedBuffer) 1)
            (content.NewReader [] [] ([], 0)).2
            (⟨1000, 10, identitySanitizer⟩ : WriterOptions Nat) 0)).1).2
      = none :=
  ⟨(Close_twice childContext recordedBuffer (content.NewReader [] [] ([], 0)).2 1 2).1.2.1
      (fun _ => rfl),
    by decide,
    ((Close_twice childContext stdoutStream (content.NewReader [] [] ([], 0)).2 1 2).1.2.2
      (Or.inr rfl)).2.2.2,
    by decide⟩

/-! ## Content sources (content/constructors.go) -/

theorem digitByte_toNat (d : Nat) (hd : d < 10) : (digitByte d).toNat = 48 + d := by
  interval_cases d <;> rfl

theorem formatBits_loop_spec :
    ∀ (fuel us : Nat) (a : Bytes), 0 < fuel → us < 100 ^ fuel →
      (formatBits.loop fuel us a).foldl (fun n c => n * 10 + (c.toNat - 48)) 0
          = a.foldl (fun n c => n * 10 + (c.toNat - 48)) us
      ∧ (formatBits.loop fuel us a).all (fun d => decide (48 ≤ d.toNat ∧ d.toNat ≤ 57))
          = a.all (fun d => decide (48 ≤ d.toNat ∧ d.toNat ≤ 57))
      ∧ (formatBits.loop fuel us a).length ≠ 0 := by
  intro fuel
  induction fuel with
  | zero => intro us a h; omega
  | succ fuel ih =>
    intro us a _ hus
    have hd0 := digitByte_toNat (us % 10) (Nat.mod_lt _ (by norm_num))
    by_cases h100 : us ≥ 100
    · have hd1 := digitByte_toNat (us % 100 / 10) (by omega)
      have hfuel : 0 < fuel := by
        rcases Nat.eq_zero_or_pos fuel with hz | hp
        · subst hz
          norm_num at hus
          omega
        · exact hp
      have hlt : us / 100 < 100 ^ fuel := by
        rw [Nat.div_lt_iff_lt_mul (by norm_num)]
        rw [pow_succ] at hus
        exact hus
      obtain ⟨ih1, ih2, ih3⟩ := ih (us / 100)
        (digitByte (us % 100 / 10) :: digitByte (us % 10) :: a) hfuel hlt
      rw [formatBits.loop, if_pos h100]
      refine ⟨?_, ?_, ih3⟩
      · rw [ih1, List.foldl_cons, List.foldl_cons, hd0, hd1]
        congr 1
        omega
      · rw [ih2, List.all_cons, List.all_cons, hd0, hd1]
        have e1 : decide (48 ≤ 48 + us % 100 / 10 ∧ 48 + us % 100 / 10 ≤ 57) = true :=
          decide_eq_true (by omega)
        have e0 : decide (48 ≤ 48 + us % 10 ∧ 48 + us % 10 ≤ 57) = true :=
          decide_eq_true (by omega)
        rw [e1, e0, Bool.true_and, Bool.true_and]
    · by_cases h10 : us ≥ 10
      · have hd1 := digitByte_toNat (us / 10) (by omega)
        rw [formatBits.loop, if_neg h100, if_pos h10]
        refine ⟨?_, ?_, by simp⟩
        · rw [List.foldl_cons, List.foldl_cons, hd0, hd1]
          congr 1
          omega
        · rw [List.all_cons, List.all_cons, hd0, hd1]
          have e1 : decide (48 ≤ 48 + us / 10 ∧ 48 + us / 10 ≤ 57) = true :=
            decide_eq_true (by omega)
          have e0 : decide (48 ≤ 48 + us % 10 ∧ 48 + us % 10 ≤ 57) = true :=
            decide_eq_true (by omega)
          rw [e1, e0, Bool.true_and, Bool.true_and]
      · have hd := digitByte_toNat us (by omega)
        rw [formatBits.loop, if_neg h100, if_neg h10]
        refine ⟨?_, ?_, by simp⟩
        · rw [List.foldl_cons, hd]
          congr 1
          omega
        · rw [List.all_cons, hd]
          have e : decide (48 ≤ 48 + us ∧ 48 + us ≤ 57) = true := decide_eq_true (by omega)
          rw [e, Bool.true_and]

theorem int64Literal_FormatInt (n : Nat) (hn : n < 2 ^ 63) :
    int64Literal (FormatInt (n : Int)) = some (n : Int) := by
  have hnonneg : ¬ ((n : Int) < 0) := by omega
  have hmod : (n : Int).toNat % 2 ^ 64 = n := by
    rw [Int.toNat_ofNat]
    omega
  obtain ⟨h1, h2, h3⟩ := formatBits_loop_spec 11 n [] (by norm_num)
    (by have : (2 : Nat) ^ 63 < 100 ^ 11 := by norm_num
        omega)
  rw [FormatInt, if_neg hnonneg, hmod]
  cases hs : formatBits.loop 11 n [] with
  | nil => rw [hs] at h3; simp at h3
  | cons c rest =>
    rw [hs] at h1 h2
    simp only [List.foldl_nil, List.all_nil] at h1 h2
    have hc : 48 ≤ c.toNat ∧ c.toNat ≤ 57 := by
      rw [List.all_cons, Bool.and_eq_true, decide_eq_true_eq] at h2
      exact h2.1
    have h43 : ¬ c = 43 := by
      intro h
      rw [h] at hc
      exact absurd hc (by decide)
    have h45 : ¬ c = 45 := by
      intro h
      rw [h] at hc
      exact absurd hc (by decide)
    have hsign : ¬ (c = 43 ∨ c = 45) := by
      rintro (h | h)
      · exact h43 h
      · exact h45 h
    have hval : decimalValue (c :: rest) = n := h1
    have hlt : decimalValue (c :: rest) < 2 ^ 63 := by rw [hval]; exact hn
    rw [int64Literal_cons]
    simp only [h43, h45, or_self, if_false, h2, hlt, hval, List.length_cons, ne_eq,
      Nat.add_one_ne_zero, not_false_eq_true, and_self, if_true]
    rw [if_pos hn]

theorem ApplyOptions_append (opts : List SetMIMEHeaderOption) (o : SetMIMEHeaderOption) :
    ∀ (h : Heap) (m : contentMetadata),
      contentMetadata.ApplyOptions h m (opts ++ [o])
        = ((MIMEHeader.Set (contentMetadata.ApplyOptions h m opts).1
              (contentMetadata.ApplyOptions h m opts).2.MIMEHeader o.Key o.Value).1,
            { MIMEHeader :=
                (MIMEHeader.Set (contentMetadata.ApplyOptions h m opts).1
                  (contentMetadata.ApplyOptions h m opts).2.MIMEHeader o.Key o.Value).2 }) := by
  induction opts with
  | nil => intro h m; rfl
  | cons opt rest ih =>
    intro h m
    rw [List.cons_append, contentMetadata.ApplyOptions, ih]
    rfl

theorem mapIndex_mapAssign_ne (m : List (Bytes × StringSlice)) (key other : Bytes)
    (v : StringSlice) (hne : key ≠ other) :
    mapIndex (mapAssign m key v) other = mapIndex m other := by
  induction m with
  | nil => simp [mapAssign, mapIndex, hne]
  | cons e rest ih =>
    obtain ⟨k, x⟩ := e
    by_cases hk : k = key
    · subst hk
      simp [mapAssign, mapIndex, hne]
    · by_cases hko : k = other
      · subst hko
        simp [mapAssign, mapIndex, hk]
      · simp [mapAssign, mapIndex, hk, hko, ih]

theorem Set_Set_Values (h : Heap) (m : MIMEHeader) (k1 v1 k2 v2 : Bytes)
    (hne : CanonicalMIMEHeaderKey k2 ≠ CanonicalMIMEHeaderKey k1) :
    MIMEHeader.Values
        (MIMEHeader.Set (MIMEHeader.Set h m k1 v1).1 (MIMEHeader.Set h m k1 v1).2 k2 v2).1
        (MIMEHeader.Set (MIMEHeader.Set h m k1 v1).1 (MIMEHeader.Set h m k1 v1).2 k2 v2).2 k1
      = [v1] := by
  simp only [MIMEHeader.Values, MIMEHeader.Set]
  rw [mapIndex_mapAssign_ne _ _ _ _ hne, mapIndex_mapAssign]
  have hget : ((h ++ [[v1]]) ++ [[v2]]).getD h.length [] = [v1] := by
    rw [List.getD_eq_getElem?_getD, List.getElem?_append_left (by simp),
      List.getElem?_append_right (le_refl _)]
    simp
  simp only [StringSlice.values, hget]
  rfl

theorem ContentLength_of_last_option (h : Heap) (opts : List SetMIMEHeaderOption) (n : Nat)
    (hn : n < 2 ^ 63) :
    contentMetadata.ContentLength
        (NewMetadata h (opts ++ [content.setContentLength (n : Int)])).1
        (NewMetadata h (opts ++ [content.setContentLength (n : Int)])).2
      = ((n : Int), true) := by
  rw [NewMetadata, ApplyOptions_append, contentMetadata.ContentLength, GetInt64_eq]
  have hget : ∀ (h1 : Heap) (m1 : MIMEHeader),
      MIMEHeader.Get (MIMEHeader.Set h1 m1 ContentLengthKey (FormatInt (n : Int))).1
        (MIMEHeader.Set h1 m1 ContentLengthKey (FormatInt (n : Int))).2 ContentLengthKey
        = FormatInt (n : Int) := by
    intro h1 m1
    rw [Get_of_Values, Set_Values h1 m1 ContentLengthKey ContentLengthKey _ rfl]
    rfl
  simp only [content.setContentLength, hget, int64Literal_FormatInt n hn]

/-- C22, as stated, fails for the standard input: `FromFile("-")` sets the
content location to `/dev/stdin` and no `Content-Length`
(constructors.go:27-32), so without options of the caller
`ContentLength()` returns `(0, false)`. -/
theorem constructors_ContentLength_counterexample :
    contentMetadata.ContentLength
        (content.FromFile noFiles [] (ascii "-") [] :
          Heap × content.stream Unit (content.Source Unit)).1
        (content.FromFile noFiles [] (ascii "-") [] :
          Heap × content.stream Unit (content.Source Unit)).2.MetadataBound
      = (0, false)
    ∧ contentMetadata.GetString
        (content.FromFile noFiles [] (ascii "-") [] :
          Heap × content.stream Unit (content.Source Unit)).1
        (content.FromFile noFiles [] (ascii "-") [] :
          Heap × content.stream Unit (content.Source Unit)).2.MetadataBound
        XContentLocationKey
      = (ascii "/dev/stdin", true) :=
  ⟨by decide, by decide⟩

/-- C22 (amended): for every byte block `b`, every string `s` and all options
of the caller, `ContentLength()` of `FromBytes(b, opts...)` is `(len(b), true)`
and of `FromString(s, opts...)` is `(len(s), true)`, whatever the options set
for `Content-Length`. For a path other than `-` and the standard-input path
that `FromFile` resolves, opens and inspects without error, the Reader has
the size of the file as `Content-Length` and the absolute path as content
location. For `-` and the standard-input path the Reader has the content
location `/dev/stdin`; its `Content-Length` is left to the options of the
caller and is not present when there are none. (A length is a Go `int`, a
file size a non-negative `int64`.) -/
theorem constructors_ContentLength {χ F : Type} (fs : content.FileSystem F) (h : Heap)
    (opts : List SetMIMEHeaderOption) (b s path abs : Bytes) (f : F) (size : Nat)
    (hb : b.length < 2 ^ 63) (hs : s.length < 2 ^ 63) (hsize : size < 2 ^ 63)
    (hpath : ¬ (path = ascii "-" ∨ path = content.stdinPath))
    (habs : fs.Abs path = Except.ok abs) (hopen : fs.Open abs = Except.ok f)
    (hstat : fs.Stat f = Except.ok (size : Int)) :
    contentMetadata.ContentLength
        (content.FromBytes h b opts : Heap × content.stream χ (content.Source F)).1
        (content.FromBytes h b opts : Heap × content.stream χ (content.Source F)).2.MetadataBound
      = ((b.length : Int), true)
    ∧ contentMetadata.ContentLength
        (content.FromString h s opts : Heap × content.stream χ (content.Source F)).1
        (content.FromString h s opts : Heap × content.stream χ (content.Source F)).2.MetadataBound
      = ((s.length : Int), true)
    ∧ (contentMetadata.ContentLength
          (content.FromFile fs h path opts : Heap × content.stream χ (content.Source F)).1
          (content.FromFile fs h path opts :
            Heap × content.stream χ (content.Source F)).2.MetadataBound
        = ((size : Int), true)
      ∧ contentMetadata.GetString
          (content.FromFile fs h path opts : Heap × content.stream χ (content.Source F)).1
          (content.FromFile fs h path opts :
            Heap × content.stream χ (content.Source F)).2.MetadataBound XContentLocationKey
        = (abs, true))
    ∧ (∀ p : Bytes, p = ascii "-" ∨ p = content.stdinPath →
        contentMetadata.GetString
            (content.FromFile fs h p opts : Heap × content.stream χ (content.Source F)).1
            (content.FromFile fs h p opts :
              Heap × content.stream χ (content.Source F)).2.MetadataBound XContentLocationKey
          = (content.stdinPath, true)
        ∧ contentMetadata.ContentLength
            (content.FromFile fs h p [] : Heap × content.stream χ (content.Source F)).1
            (content.FromFile fs h p [] :
              Heap × content.stream χ (content.Source F)).2.MetadataBound
          = (0, false)) := by
  have hwb : wrapInt64 (b.length : Int) = (b.length : Int) :=
    wrapInt64_of_inInt64 _ (by unfold InInt64; omega)
  have hws : wrapInt64 (s.length : Int) = (s.length : Int) :=
    wrapInt64_of_inInt64 _ (by unfold InInt64; omega)
  refine ⟨?_, ?_, ⟨?_, ?_⟩, ?_⟩
  · simp only [content.FromBytes, content.NewReader, hwb]
    exact ContentLength_of_last_option h opts b.length hb
  · simp only [content.FromString, content.NewReader, hws]
    exact ContentLength_of_last_option h opts s.length hs
  · simp only [content.FromFile, hpath, if_false, habs, hopen, hstat, content.NewReader]
    exact ContentLength_of_last_option h _ size hsize
  · simp only [content.FromFile, hpath, if_false, habs, hopen, hstat, content.NewReader]
    rw [NewMetadata, ApplyOptions_append, ApplyOptions_append]
    exact GetString_of_values _ _ XContentLocationKey abs []
      (Set_Set_Values _ _ XContentLocationKey abs ContentLengthKey _ (by decide))
  · intro p hp
    refine ⟨?_, ?_⟩
    · simp only [content.FromFile, hp, if_true, content.NewReader]
      rw [NewMetadata, ApplyOptions_append]
      exact GetString_of_values _ _ XContentLocationKey content.stdinPath []
        (Set_Values _ _ XContentLocationKey XContentLocationKey _ rfl)
    · simp only [content.FromFile, hp, if_true, content.NewReader]
      rw [contentMetadata.ContentLength, GetInt64_eq, Get_of_Values]
      have hv : MIMEHeader.Values
          (NewMetadata h ([] ++ [⟨XContentLocationKey, content.stdinPath⟩])).1
          (NewMetadata h ([] ++ [⟨XContentLocationKey, content.stdinPath⟩])).2.MIMEHeader
          ContentLengthKey = [] := by
        have hidx : mapIndex [(CanonicalMIMEHeaderKey XContentLocationKey,
            ({ array := h.length, len := 1, cap := 1 } : StringSlice))]
            (CanonicalMIMEHeaderKey ContentLengthKey) = StringSlice.nil := by
          have hne : ¬ CanonicalMIMEHeaderKey XContentLocationKey
              = CanonicalMIMEHeaderKey ContentLengthKey := by decide
          simp only [mapIndex, hne, if_false]
        simp only [List.nil_append, NewMetadata, contentMetadata.ApplyOptions,
          MIMEHeader.Values, MIMEHeader.Set, mapAssign, hidx, values_nil]
      rw [hv]
      rfl

/-- The file `/work/foo.yaml` of 9 bytes, as in TestFromConstructors
(utils_test.go:119-151), with an option of the caller that sets
`Content-Length` to 1: `FromBytes` and `FromString` of the 9 bytes `foo: bar\n`
and `FromFile` report the length 9, and `FromFile` reports the absolute path
as its location. -/
theorem constructors_ContentLength_witness :
    contentMetadata.ContentLength
        (content.FromBytes [] (ascii "foo: bar\n") [⟨ContentLengthKey, ascii "1"⟩] :
          Heap × content.stream Unit (content.Source Nat)).1
        (content.FromBytes [] (ascii "foo: bar\n") [⟨ContentLengthKey, ascii "1"⟩] :
          Heap × content.stream Unit (content.Source Nat)).2.MetadataBound
      = (9, true)
    ∧ contentMetadata.ContentLength
        (content.FromFile oneFile [] (ascii "foo.yaml") [⟨ContentLengthKey, ascii "1"⟩] :
          Heap × content.stream Unit (content.Source Nat)).1
        (content.FromFile oneFile [] (ascii "foo.yaml") [⟨ContentLengthKey, ascii "1"⟩] :
          Heap × content.stream Unit (content.Source Nat)).2.MetadataBound
      = (9, true)
    ∧ contentMetadata.GetString
        (content.FromFile oneFile [] (ascii "foo.yaml") [⟨ContentLengthKey, ascii "1"⟩] :
          Heap × content.stream Unit (content.Source Nat)).1
        (content.FromFile oneFile [] (ascii "foo.yaml") [⟨ContentLengthKey, ascii "1"⟩] :
          Heap × content.stream Unit (content.Source Nat)).2.MetadataBound XContentLocationKey
      = (ascii "/work/foo.yaml", true) :=
  have hw := constructors_ContentLength oneFile [] [⟨ContentLengthKey, ascii "1"⟩]
    (ascii "foo: bar\n") (ascii "foo: bar\n") (ascii "foo.yaml") (ascii "/work/foo.yaml") 3 9
    (by decide) (by decide) (by decide) (by decide) rfl rfl rfl
  ⟨hw.1, hw.2.2.1.1, hw.2.2.1.2⟩

/-! ## The object recognizer (storage/filesystem/unstructured/recognizer.go) -/

theorem GroupVersionKind_Kind (o : PartialObjectMetadata) : o.GroupVersionKind.Kind = o.Kind := by
  unfold PartialObjectMetadata.GroupVersionKind FromAPIVersionAndKind
  cases ParseGroupVersion o.APIVersion <;> rfl

theorem no_group_version_iff (o : PartialObjectMetadata) :
    (o.GroupVersionKind.Group = [] ∧ o.GroupVersionKind.Version = [])
      ↔ (o.APIVersion = [] ∨ o.APIVersion = ascii "/" ∨ 2 ≤ o.APIVersion.count 47) := by
  unfold PartialObjectMetadata.GroupVersionKind FromAPIVersionAndKind ParseGroupVersion
  by_cases h0 : o.APIVersion.length = 0 ∨ o.APIVersion = ascii "/"
  · rw [if_pos h0]
    simp only [and_self, true_iff]
    rcases h0 with h0 | h0
    · exact Or.inl (List.length_eq_zero.mp h0)
    · exact Or.inr (Or.inl h0)
  · rw [if_neg h0]
    have hne : o.APIVersion ≠ [] := fun h => h0 (Or.inl (by rw [h]; rfl))
    have hslash : o.APIVersion ≠ ascii "/" := fun h => h0 (Or.inr h)
    rcases hc : o.APIVersion.count 47 with _ | _ | n
    · simp only [hne, and_false, hslash, false_or, false_iff]
      omega
    · simp only [zero_add, hne, hslash, false_or]
      constructor
      · rintro ⟨h1, h2⟩
        exfalso
        cases hv : o.APIVersion with
        | nil => exact hne hv
        | cons c t =>
          rw [hv] at h1 h2
          by_cases hcs : c = 47
          · subst hcs
            simp only [List.dropWhile_cons, bne_self_eq_false, Bool.false_eq_true, if_false,
              List.tail_cons] at h2
            apply hslash
            rw [hv, h2]
            rfl
          · have hb : (c != 47) = true := by simpa using hcs
            simp only [List.takeWhile_cons, hb, if_true] at h1
            exact absurd h1 (by simp)
      · intro h
        omega
    · simp only [and_self, true_iff]
      exact Or.inr (Or.inr (by omega))

theorem RecognizeObjectIDs_loop_spec {δ : Type} (dec : Decoder δ) (allowDup : Bool)
    (x : PartialObjectMetadata) (e : Err) :
    ∀ (objs pre : List PartialObjectMetadata) (ids0 : ObjectIDSet) (s : δ) (fuel : Nat),
      dec.decodeCalls (objs.length + 1) s = objs.map (fun o => (o, none)) ++ [(x, some e)] →
      objs.length < fuel →
      ids0.Nodup → (∀ id, id ∈ ids0 ↔ id ∈ pre.map objectIDOf) →
      (allowDup = false → (pre.map objectIDOf).Nodup) →
      ∃ s1 res,
        RecognizeObjectIDs.loop
            { Decoder := some dec, AllowUnrecognized := true, AllowDuplicates := allowDup }
            dec fuel s ids0 = some (s1, res)
        ∧ (((∃ o ∈ objs, invalidObject o)
              ∨ (allowDup = false ∧ ¬ ((pre ++ objs).map objectIDOf).Nodup)) →
            ∃ err, res = Except.error err)
        ∧ (¬ ((∃ o ∈ objs, invalidObject o)
              ∨ (allowDup = false ∧ ¬ ((pre ++ objs).map objectIDOf).Nodup)) →
            (e = Err.EOF →
              ∃ ids, res = Except.ok ids ∧ ids.Nodup
                ∧ ∀ id, id ∈ ids ↔ id ∈ (pre ++ objs).map objectIDOf)
            ∧ (e ≠ Err.EOF → res = Except.error e)) := by
  intro objs
  induction objs with
  | nil =>
    intro pre ids0 s fuel hcalls hfuel hnodup hmem hpre
    obtain ⟨f, rfl⟩ : ∃ f, fuel = f + 1 := ⟨fuel - 1, by simp at hfuel; omega⟩
    obtain ⟨s1, m, err, hd⟩ : ∃ s1 m err, dec.DecodeInto s = (s1, m, err) := ⟨_, _, _, rfl⟩
    simp only [List.length_nil, zero_add, Decoder.decodeCalls, hd, List.map_nil, List.nil_append,
      List.cons.injEq, Prod.mk.injEq, and_true] at hcalls
    obtain ⟨_, herr⟩ := hcalls
    subst herr
    have hbad : ¬ ((∃ o ∈ ([] : List PartialObjectMetadata), invalidObject o)
        ∨ (allowDup = false ∧ ¬ ((pre ++ []).map objectIDOf).Nodup)) := by
      rintro (⟨o, ho, _⟩ | ⟨hd1, hd2⟩)
      · simp at ho
      · rw [List.append_nil] at hd2
        exact hd2 (hpre hd1)
    by_cases he : e = Err.EOF
    · subst he
      refine ⟨s1, Except.ok ids0, ?_, fun hb => absurd hb hbad,
        fun _ => ⟨fun _ => ?_, fun h => absurd rfl h⟩⟩
      · simp only [RecognizeObjectIDs.loop, hd, if_true]
      · exact ⟨ids0, rfl, hnodup, by rw [List.append_nil]; exact hmem⟩
    · refine ⟨s1, Except.error e, ?_, fun hb => absurd hb hbad,
        fun _ => ⟨fun h => absurd h he, fun _ => rfl⟩⟩
      have hne : ¬ (some e = some Err.EOF) := fun h => he (Option.some.inj h)
      simp only [RecognizeObjectIDs.loop, hd, hne, if_false]
  | cons o rest ih =>
    intro pre ids0 s fuel hcalls hfuel hnodup hmem hpre
    obtain ⟨f, rfl⟩ : ∃ f, fuel = f + 1 := ⟨fuel - 1, by simp at hfuel; omega⟩
    obtain ⟨s1, m, err, hd⟩ : ∃ s1 m err, dec.DecodeInto s = (s1, m, err) := ⟨_, _, _, rfl⟩
    simp only [List.length_cons, Decoder.decodeCalls, hd, List.map_cons, List.cons_append,
      List.cons.injEq, Prod.mk.injEq] at hcalls
    obtain ⟨⟨hm, herr⟩, hrest⟩ := hcalls
    subst hm
    subst herr
    have hfuel1 : rest.length < f := by simp at hfuel; omega
    have hnone : ¬ ((none : Option Err) = some Err.EOF) := by simp
    by_cases hinv : invalidObject m
    · -- the object fails the validation
      have hbadl : (∃ o ∈ m :: rest, invalidObject o) := ⟨m, by simp, hinv⟩
      unfold invalidObject at hinv
      by_cases h1 : m.GroupVersionKind.Group = [] ∧ m.GroupVersionKind.Version = []
      · refine ⟨s1, Except.error (Err.other ".apiVersion field must not be empty"), ?_,
          fun _ => ⟨_, rfl⟩, fun hb => (hb (Or.inl hbadl)).elim⟩
        simp only [RecognizeObjectIDs.loop, hd, hnone, if_false, h1, and_self, if_true]
      · by_cases h2 : m.GroupVersionKind.Kind = []
        · refine ⟨s1, Except.error (Err.other ".kind field must not be empty"), ?_,
          fun _ => ⟨_, rfl⟩, fun hb => (hb (Or.inl hbadl)).elim⟩
          simp only [RecognizeObjectIDs.loop, hd, hnone, if_false, h1, h2, if_true]
        · have h3 : m.Name = [] := by
            rcases hinv with h | h | h
            · exact absurd h h1
            · exact absurd h h2
            · exact h
          refine ⟨s1, Except.error (Err.other ".metadata.name field must not be empty"), ?_,
          fun _ => ⟨_, rfl⟩, fun hb => (hb (Or.inl hbadl)).elim⟩
          simp only [RecognizeObjectIDs.loop, hd, hnone, if_false, h1, h2, h3, if_true]
    · -- the object is valid
      have hinv0 := hinv
      unfold invalidObject at hinv
      have h1 : ¬ (m.GroupVersionKind.Group = [] ∧ m.GroupVersionKind.Version = []) :=
        fun h => hinv (Or.inl h)
      have h2 : ¬ m.GroupVersionKind.Kind = [] := fun h => hinv (Or.inr (Or.inl h))
      have h3 : ¬ m.Name = [] := fun h => hinv (Or.inr (Or.inr h))
      have hexists : (∃ o ∈ m :: rest, invalidObject o) ↔ (∃ o ∈ rest, invalidObject o) := by
        constructor
        · rintro ⟨o, ho, hio⟩
          rcases List.mem_cons.mp ho with h | h
          · subst h
            exact absurd hio hinv0
          · exact ⟨o, h, hio⟩
        · rintro ⟨o, ho, hio⟩
          exact ⟨o, List.mem_cons_of_mem _ ho, hio⟩
      have happ : pre ++ m :: rest = (pre ++ [m]) ++ rest := by simp
      have hloop : RecognizeObjectIDs.loop
          { Decoder := some dec, AllowUnrecognized := true, AllowDuplicates := allowDup }
          dec (f + 1) s ids0
          = if !(ObjectIDSet.InsertUnique ids0 (objectIDOf m)).2 && !allowDup then
              some (s1, Except.error (Err.other "invalid file: two Objects with the same ID"))
            else
              RecognizeObjectIDs.loop
                { Decoder := some dec, AllowUnrecognized := true, AllowDuplicates := allowDup }
                dec f s1 (ObjectIDSet.InsertUnique ids0 (objectIDOf m)).1 := by
        simp only [RecognizeObjectIDs.loop, hd, hnone, if_false, h1, h2, h3, Bool.not_true,
          Bool.false_and, Bool.false_eq_true, objectIDOf]
      rw [hloop]
      by_cases hin : objectIDOf m ∈ ids0
      · -- the ID is in the set already
        have hins : ObjectIDSet.InsertUnique ids0 (objectIDOf m) = (ids0, false) := by
          simp only [ObjectIDSet.InsertUnique, hin, if_true]
        have hdupl : ¬ ((pre ++ m :: rest).map objectIDOf).Nodup := by
          rw [List.map_append, List.map_cons]
          intro hnd
          have hdis := (List.nodup_append.mp hnd).2.2
          exact hdis ((hmem _).mp hin) (List.mem_cons_self _ _)
        cases hdup : allowDup with
        | false =>
          refine ⟨s1, Except.error (Err.other "invalid file: two Objects with the same ID"), ?_,
            fun _ => ⟨_, rfl⟩, fun hb => (hb (Or.inr ⟨rfl, hdupl⟩)).elim⟩
          simp only [hins, Bool.not_false, Bool.and_self, if_true]
        | true =>
          subst hdup
          obtain ⟨s2, res, hrun, hbad, hgood⟩ := ih (pre ++ [m]) ids0 s1 f hrest hfuel1 hnodup
            (by
              intro id
              rw [hmem, List.map_append, List.mem_append]
              constructor
              · exact fun h => Or.inl h
              · rintro (h | h)
                · exact h
                · simp only [List.map_cons, List.map_nil, List.mem_singleton] at h
                  rw [h]
                  exact (hmem _).mp hin)
            (by simp)
          refine ⟨s2, res, ?_, ?_, ?_⟩
          · simp only [hins, Bool.not_false, Bool.not_true, Bool.and_false, Bool.false_eq_true,
              if_false]
            exact hrun
          · intro hb
            apply hbad
            rcases hb with hb | hb
            · exact Or.inl (hexists.mp hb)
            · exact absurd hb.1 (by simp)
          · intro hb
            have hb1 : ¬ ((∃ o ∈ rest, invalidObject o)
                ∨ (true = false ∧ ¬ (((pre ++ [m]) ++ rest).map objectIDOf).Nodup)) := by
              rintro (h | h)
              · exact hb (Or.inl (hexists.mpr h))
              · exact absurd h.1 (by simp)
            rw [happ]
            exact hgood hb1
      · -- the ID is new
        have hins : ObjectIDSet.InsertUnique ids0 (objectIDOf m)
            = (ids0 ++ [objectIDOf m], true) := by
          simp only [ObjectIDSet.InsertUnique, hin, if_false]
        have hnotpre : objectIDOf m ∉ pre.map objectIDOf := fun h => hin ((hmem _).mpr h)
        obtain ⟨s2, res, hrun, hbad, hgood⟩ := ih (pre ++ [m]) (ids0 ++ [objectIDOf m]) s1 f
          hrest hfuel1
          (by
            rw [List.nodup_append]
            refine ⟨hnodup, List.nodup_singleton _, ?_⟩
            intro a ha hb
            rw [List.mem_singleton] at hb
            subst hb
            exact hin ha)
          (by
            intro id
            rw [List.mem_append, hmem, List.map_append, List.mem_append]
            simp only [List.map_cons, List.map_nil])
          (by
            intro hd1
            rw [List.map_append, List.nodup_append]
            refine ⟨hpre hd1, by simp, ?_⟩
            intro a ha hb
            simp only [List.map_cons, List.map_nil, List.mem_singleton] at hb
            subst hb
            exact hnotpre ha)
        refine ⟨s2, res, ?_, ?_, ?_⟩
        · simp only [hins, Bool.not_true, Bool.false_and, Bool.false_eq_true, if_false]
          exact hrun
        · intro hb
          apply hbad
          rcases hb with hb | hb
          · exact Or.inl (hexists.mp hb)
          · exact Or.inr (by rw [← happ]; exact hb)
        · intro hb
          have hb1 : ¬ ((∃ o ∈ rest, invalidObject o)
              ∨ (allowDup = false ∧ ¬ (((pre ++ [m]) ++ rest).map objectIDOf).Nodup)) := by
            rintro (h | h)
            · exact hb (Or.inl (hexists.mpr h))
            · exact hb (Or.inr (by rw [happ]; exact h))
          rw [happ]
          exact hgood hb1

/-- C27, as stated, fails: the recognizer rejects an object when its
apiVersion yields neither a group nor a version (recognizer.go:53-56), and
that is so for the apiVersion `/` and for an apiVersion with more than one
`/`, which are not empty. With AllowUnrecognized set, a decoder that yields
the one object with apiVersion `/`, kind `Pod` and name `a` and then
end-of-stream makes `RecognizeObjectIDs` return an error, and so does the
one object with apiVersion `apps/v1/beta`; in both, apiVersion, kind and name
are not empty and there is no second object. -/
theorem RecognizeObjectIDs_counterexample :
    KubeObjectRecognizer.RecognizeObjectIDs
        { Decoder := some scriptedDecoder, AllowUnrecognized := true, AllowDuplicates := false }
        5 [{ APIVersion := ascii "/", Kind := ascii "Pod", Namespace := [], Name := ascii "a" }]
      = some ([], Except.error (Err.other ".apiVersion field must not be empty"))
    ∧ KubeObjectRecognizer.RecognizeObjectIDs
        { Decoder := some scriptedDecoder, AllowUnrecognized := true, AllowDuplicates := false }
        5 [{ APIVersion := ascii "apps/v1/beta", Kind := ascii "Pod", Namespace := [],
             Name := ascii "a" }]
      = some ([], Except.error (Err.other ".apiVersion field must not be empty"))
    ∧ ascii "/" ≠ [] ∧ ascii "apps/v1/beta" ≠ [] ∧ ascii "Pod" ≠ [] ∧ ascii "a" ≠ [] :=
  ⟨rfl, rfl, by decide, by decide, by decide, by decide⟩

/-- C27 (amended): for a KubeObjectRecognizer with AllowUnrecognized set, over
any decoder that yields the objects `objs` and then the error `e`, with
enough fuel for these calls, `RecognizeObjectIDs` returns, and
(1) when `e` is end-of-stream, it returns an error if and only if some
object is invalid, or AllowDuplicates is false and two objects have the same
ObjectID; otherwise it returns a set whose members are exactly the ObjectIDs
of the objects;
(2) when `e` is another error and no object is rejected in that way, it
returns `e` unchanged;
(3) an object is invalid exactly when its apiVersion yields neither a
group nor a version (it is empty, it is `/`, or it has more than one `/`),
or its kind is empty, or its name is empty. -/
theorem RecognizeObjectIDs_result {δ : Type} (dec : Decoder δ) (allowDup : Bool) (s : δ)
    (objs : List PartialObjectMetadata) (x : PartialObjectMetadata) (e : Err) (fuel : Nat)
    (hcalls : dec.decodeCalls (objs.length + 1) s
      = objs.map (fun o => (o, none)) ++ [(x, some e)])
    (hfuel : objs.length < fuel) :
    (∃ s1 res,
      KubeObjectRecognizer.RecognizeObjectIDs
          { Decoder := some dec, AllowUnrecognized := true, AllowDuplicates := allowDup }
          fuel s = some (s1, res)
      ∧ (e = Err.EOF →
          ((∃ err, res = Except.error err) ↔ rejectedObjects allowDup objs)
          ∧ (¬ rejectedObjects allowDup objs →
              ∃ ids, res = Except.ok ids ∧ ids.Nodup
                ∧ ∀ id, id ∈ ids ↔ ∃ o ∈ objs, objectIDOf o = id))
      ∧ (e ≠ Err.EOF → ¬ rejectedObjects allowDup objs → res = Except.error e))
    ∧ (∀ o : PartialObjectMetadata,
        invalidObject o
          ↔ ((o.APIVersion = [] ∨ o.APIVersion = ascii "/" ∨ 2 ≤ o.APIVersion.count 47)
              ∨ o.Kind = [] ∨ o.Name = [])) := by
  refine ⟨?_, ?_⟩
  · obtain ⟨s1, res, hrun, hbad, hgood⟩ := RecognizeObjectIDs_loop_spec dec allowDup x e objs []
      [] s fuel hcalls hfuel List.nodup_nil (by simp) (by simp)
    simp only [List.nil_append] at hbad hgood
    refine ⟨s1, res, hrun, ?_, ?_⟩
    · intro he
      refine ⟨⟨?_, hbad⟩, ?_⟩
      · rintro ⟨err, herr⟩
        by_contra hb
        obtain ⟨ids, hids, _⟩ := (hgood hb).1 he
        rw [herr] at hids
        exact absurd hids (by simp)
      · intro hb
        obtain ⟨ids, hids, hnd, hm⟩ := (hgood hb).1 he
        refine ⟨ids, hids, hnd, ?_⟩
        intro id
        rw [hm, List.mem_map]
    · intro he hb
      exact (hgood hb).2 he
  · intro o
    unfold invalidObject
    rw [no_group_version_iff, GroupVersionKind_Kind]

/-- Over a decoder that yields two Pods of the apiVersion `v1` with the names
`a` and `b` and then end-of-stream, with duplicates not allowed:
`RecognizeObjectIDs` returns the set of the two ObjectIDs; over a decoder that
yields the Pod `a` twice, it returns an error. -/
theorem RecognizeObjectIDs_result_witness :
    (KubeObjectRecognizer.RecognizeObjectIDs
        { Decoder := some scriptedDecoder, AllowUnrecognized := true, AllowDuplicates := false }
        5 [{ APIVersion := ascii "v1", Kind := ascii "Pod", Namespace := [], Name := ascii "a" },
           { APIVersion := ascii "v1", Kind := ascii "Pod", Namespace := [], Name := ascii "b" }]
      = some ([], Except.ok
          [{ unversionedObjectID :=
               { gk := { Group := [], Kind := ascii "Pod" },
                 key := { Namespace := [], Name := ascii "a" } },
             version := ascii "v1" },
           { unversionedObjectID :=
               { gk := { Group := [], Kind := ascii "Pod" },
                 key := { Namespace := [], Name := ascii "b" } },
             version := ascii "v1" }]))
    ∧ (∃ s1 res,
        KubeObjectRecognizer.RecognizeObjectIDs
            { Decoder := some scriptedDecoder, AllowUnrecognized := true,
              AllowDuplicates := false }
            5 [{ APIVersion := ascii "v1", Kind := ascii "Pod", Namespace := [],
                 Name := ascii "a" },
               { APIVersion := ascii "v1", Kind := ascii "Pod", Namespace := [],
                 Name := ascii "a" }] = some (s1, res)
        ∧ ∃ err, res = Except.error err) :=
  ⟨rfl,
    have hw := (RecognizeObjectIDs_result scriptedDecoder false
      [{ APIVersion := ascii "v1", Kind := ascii "Pod", Namespace := [], Name := ascii "a" },
       { APIVersion := ascii "v1", Kind := ascii "Pod", Namespace := [], Name := ascii "a" }]
      [{ APIVersion := ascii "v1", Kind := ascii "Pod", Namespace := [], Name := ascii "a" },
       { APIVersion := ascii "v1", Kind := ascii "Pod", Namespace := [], Name := ascii "a" }]
      { APIVersion := [], Kind := [], Namespace := [], Name := [] } Err.EOF 5 (by decide)
      (by decide)).1
    hw.elim (fun s1 h1 => h1.elim (fun res h2 =>
      ⟨s1, res, h2.1, ((h2.2.1 rfl).1).2 (Or.inr ⟨rfl, by decide⟩)⟩))⟩

/-! ## Concurrent callers of the high-level writer -/

theorem Concurrent_of_swap {L Sh : Type} (who : Bool) (locked : Bool) (sh : Sh)
    (c other : Caller L Sh) :
    Concurrent.of who locked sh c other = Concurrent.of (!who) locked sh other c := by
  cases who <;> rfl

theorem Concurrent_step_self {L Sh : Type} (who : Bool) (locked : Bool) (sh : Sh)
    (c other : Caller L Sh) :
    (Concurrent.of who locked sh c other).step who
      = match c.rest with
        | [] => none
        | Instr.lock :: rest =>
          if locked then none
          else some (Concurrent.of who true sh { loc := c.loc, rest := rest } other)
        | Instr.unlock :: rest =>
          some (Concurrent.of who false sh { loc := c.loc, rest := rest } other)
        | Instr.act f :: rest =>
          some (Concurrent.of who locked (f c.loc sh).2
            { loc := (f c.loc sh).1, rest := rest } other) := by
  cases who <;> rfl

theorem Concurrent_step_other {L Sh : Type} (who : Bool) (locked : Bool) (sh : Sh)
    (c other : Caller L Sh) :
    (Concurrent.of who locked sh c other).step (!who)
      = match other.rest with
        | [] => none
        | Instr.lock :: rest =>
          if locked then none
          else some (Concurrent.of who true sh c { loc := other.loc, rest := rest })
        | Instr.unlock :: rest =>
          some (Concurrent.of who false sh c { loc := other.loc, rest := rest })
        | Instr.act f :: rest =>
          some (Concurrent.of who locked (f other.loc sh).2 c
            { loc := (f other.loc sh).1, rest := rest }) := by
  cases who <;> rfl

/-- The second caller alone: the first has finished, the second holds the
mutex and has the steps `acts` and the `Unlock` left. -/
theorem Concurrent_run_second {L Sh : Type} (who : Bool) (done : Caller L Sh)
    (hdone : done.rest = []) :
    ∀ (acts : List (L → Sh → L × Sh)) (l : L) (sh : Sh) (sched : List Bool)
      (g : Concurrent L Sh),
      Concurrent.run sched
          (Concurrent.of who true sh { loc := l, rest := acts.map Instr.act ++ [Instr.unlock] }
            done) = some g →
      (g.caller who).rest = [] →
      sched = List.replicate (acts.length + 1) who
      ∧ g = Concurrent.of who false (runBody acts l sh).2
          { loc := (runBody acts l sh).1, rest := [] } done := by
  intro acts
  induction acts with
  | nil =>
    intro l sh sched g hrun hfin
    cases sched with
    | nil =>
      simp only [Concurrent.run, Option.some.injEq] at hrun
      subst hrun
      cases who <;> simp [Concurrent.of, Concurrent.caller] at hfin
    | cons w t =>
      rcases Bool.eq_or_eq_not w who with hw | hw
      · subst hw
        simp only [Concurrent.run, Concurrent_step_self, List.map_nil, List.nil_append] at hrun
        cases t with
        | nil =>
          simp only [Concurrent.run, Option.some.injEq] at hrun
          exact ⟨rfl, hrun.symm⟩
        | cons w1 t1 =>
          exfalso
          rcases Bool.eq_or_eq_not w1 w with hw1 | hw1
          · subst hw1
            simp [Concurrent.run, Concurrent_step_self] at hrun
          · subst hw1
            simp [Concurrent.run, Concurrent_step_other, hdone] at hrun
      · subst hw
        exfalso
        simp [Concurrent.run, Concurrent_step_other, hdone] at hrun
  | cons f acts ih =>
    intro l sh sched g hrun hfin
    cases sched with
    | nil =>
      simp only [Concurrent.run, Option.some.injEq] at hrun
      subst hrun
      cases who <;> simp [Concurrent.of, Concurrent.caller] at hfin
    | cons w t =>
      rcases Bool.eq_or_eq_not w who with hw | hw
      · subst hw
        simp only [Concurrent.run, Concurrent_step_self, List.map_cons, List.cons_append] at hrun
        obtain ⟨h1, h2⟩ := ih (f l sh).1 (f l sh).2 t g hrun hfin
        refine ⟨?_, h2⟩
        rw [h1]
        rfl
      · subst hw
        exfalso
        simp [Concurrent.run, Concurrent_step_other, hdone] at hrun

/-- The first caller holds the mutex and has the steps `acts` and the `Unlock`
left; the second caller has not started. -/
theorem Concurrent_run_first {L Sh : Type} (who : Bool) (body2 : List (L → Sh → L × Sh))
    (l2 : L) :
    ∀ (acts : List (L → Sh → L × Sh)) (l : L) (sh : Sh) (sched : List Bool)
      (g : Concurrent L Sh),
      Concurrent.run sched
          (Concurrent.of who true sh { loc := l, rest := acts.map Instr.act ++ [Instr.unlock] }
            { loc := l2, rest := lockedCall body2 }) = some g →
      (g.caller who).rest = [] → (g.caller (!who)).rest = [] →
      sched = List.replicate (acts.length + 1) who ++ List.replicate (body2.length + 2) (!who)
      ∧ g = Concurrent.of who false (runBody body2 l2 (runBody acts l sh).2).2
          { loc := (runBody acts l sh).1, rest := [] }
          { loc := (runBody body2 l2 (runBody acts l sh).2).1, rest := [] } := by
  intro acts
  induction acts with
  | nil =>
    intro l sh sched g hrun hfin hfin2
    cases sched with
    | nil =>
      simp only [Concurrent.run, Option.some.injEq] at hrun
      subst hrun
      cases who <;> simp [Concurrent.of, Concurrent.caller] at hfin
    | cons w t =>
      rcases Bool.eq_or_eq_not w who with hw | hw
      · subst hw
        simp only [Concurrent.run, Concurrent_step_self, List.map_nil, List.nil_append] at hrun
        cases t with
        | nil =>
          exfalso
          simp only [Concurrent.run, Option.some.injEq] at hrun
          subst hrun
          cases w <;> simp [Concurrent.of, Concurrent.caller, lockedCall] at hfin2
        | cons w1 t1 =>
          rcases Bool.eq_or_eq_not w1 w with hw1 | hw1
          · subst hw1
            exfalso
            simp [Concurrent.run, Concurrent_step_self] at hrun
          · subst hw1
            simp only [Concurrent.run, Concurrent_step_other, lockedCall, Bool.false_eq_true,
              if_false] at hrun
            rw [Concurrent_of_swap] at hrun
            have hfin2' : (g.caller (!w)).rest = [] := hfin2
            obtain ⟨h1, h2⟩ := Concurrent_run_second (!w) { loc := l, rest := [] } rfl body2 l2 sh
              t1 g hrun hfin2'
            refine ⟨?_, ?_⟩
            · rw [h1]
              rfl
            · rw [h2, Concurrent_of_swap, Bool.not_not]
              rfl
      · subst hw
        exfalso
        simp [Concurrent.run, Concurrent_step_other, lockedCall] at hrun
  | cons f acts ih =>
    intro l sh sched g hrun hfin hfin2
    cases sched with
    | nil =>
      simp only [Concurrent.run, Option.some.injEq] at hrun
      subst hrun
      cases who <;> simp [Concurrent.of, Concurrent.caller] at hfin
    | cons w t =>
      rcases Bool.eq_or_eq_not w who with hw | hw
      · subst hw
        simp only [Concurrent.run, Concurrent_step_self, List.map_cons, List.cons_append] at hrun
        obtain ⟨h1, h2⟩ := ih (f l sh).1 (f l sh).2 t g hrun hfin hfin2
        refine ⟨?_, h2⟩
        rw [h1]
        rfl
      · subst hw
        exfalso
        simp [Concurrent.run, Concurrent_step_other, lockedCall] at hrun

/-- Every schedule that lets two locked calls finish runs one call from its
`Lock` to its `Unlock` and then the other. -/
theorem lockedCalls_serial {L Sh : Type} (body1 body2 : List (L → Sh → L × Sh)) (l1 l2 : L)
    (sh : Sh) (who : Bool) (sched : List Bool) (g : Concurrent L Sh)
    (hrun : Concurrent.run sched
      (Concurrent.of who false sh { loc := l1, rest := lockedCall body1 }
        { loc := l2, rest := lockedCall body2 }) = some g)
    (hfin : (g.caller who).rest = []) (hfin2 : (g.caller (!who)).rest = []) :
    (sched = List.replicate (body1.length + 2) who ++ List.replicate (body2.length + 2) (!who)
      ∧ g = Concurrent.of who false (runBody body2 l2 (runBody body1 l1 sh).2).2
          { loc := (runBody body1 l1 sh).1, rest := [] }
          { loc := (runBody body2 l2 (runBody body1 l1 sh).2).1, rest := [] })
    ∨ (sched = List.replicate (body2.length + 2) (!who) ++ List.replicate (body1.length + 2) who
      ∧ g = Concurrent.of who false (runBody body1 l1 (runBody body2 l2 sh).2).2
          { loc := (runBody body1 l1 (runBody body2 l2 sh).2).1, rest := [] }
          { loc := (runBody body2 l2 sh).1, rest := [] }) := by
  cases sched with
  | nil =>
    exfalso
    simp only [Concurrent.run, Option.some.injEq] at hrun
    subst hrun
    cases who <;> simp [Concurrent.of, Concurrent.caller, lockedCall] at hfin
  | cons w t =>
    rcases Bool.eq_or_eq_not w who with hw | hw
    · subst hw
      left
      simp only [Concurrent.run, Concurrent_step_self, lockedCall, Bool.false_eq_true,
        if_false] at hrun
      obtain ⟨h1, h2⟩ := Concurrent_run_first w body2 l2 body1 l1 sh t g hrun hfin hfin2
      refine ⟨?_, h2⟩
      rw [h1]
      rfl
    · subst hw
      right
      simp only [Concurrent.run, Concurrent_step_other, lockedCall, Bool.false_eq_true,
        if_false] at hrun
      rw [Concurrent_of_swap] at hrun
      have hfin' : (g.caller (!!who)).rest = [] := by rw [Bool.not_not]; exact hfin
      obtain ⟨h1, h2⟩ := Concurrent_run_first (!who) body1 l1 body2 l2 sh t g hrun hfin2 hfin'
      refine ⟨?_, ?_⟩
      · rw [h1, Bool.not_not]
        rfl
      · rw [h2, Concurrent_of_swap, Bool.not_not]

theorem Concurrent_run_append {L Sh : Type} (s1 s2 : List Bool) :
    ∀ g : Concurrent L Sh,
      Concurrent.run (s1 ++ s2) g
        = match Concurrent.run s1 g with
          | none => none
          | some g1 => Concurrent.run s2 g1 := by
  induction s1 with
  | nil => intro g; rfl
  | cons w t ih =>
    intro g
    simp only [List.cons_append, Concurrent.run]
    cases g.step w with
    | none => rfl
    | some g1 => exact ih g1

theorem Concurrent_run_inside {L Sh : Type} (who : Bool) (other : Caller L Sh) :
    ∀ (acts : List (L → Sh → L × Sh)) (l : L) (sh : Sh),
      Concurrent.run (List.replicate (acts.length + 1) who)
          (Concurrent.of who true sh { loc := l, rest := acts.map Instr.act ++ [Instr.unlock] }
            other)
        = some (Concurrent.of who false (runBody acts l sh).2
            { loc := (runBody acts l sh).1, rest := [] } other) := by
  intro acts
  induction acts with
  | nil =>
    intro l sh
    simp only [List.length_nil, zero_add, List.replicate_one, Concurrent.run,
      Concurrent_step_self, List.map_nil, List.nil_append, runBody]
  | cons f acts ih =>
    intro l sh
    rw [List.length_cons, List.replicate_succ, Concurrent.run, Concurrent_step_self]
    simp only [List.map_cons, List.cons_append, runBody]
    exact ih (f l sh).1 (f l sh).2

theorem Concurrent_run_lockedCall {L Sh : Type} (who : Bool) (other : Caller L Sh)
    (body : List (L → Sh → L × Sh)) (l : L) (sh : Sh) :
    Concurrent.run (List.replicate (body.length + 2) who)
        (Concurrent.of who false sh { loc := l, rest := lockedCall body } other)
      = some (Concurrent.of who false (runBody body l sh).2
          { loc := (runBody body l sh).1, rest := [] } other) := by
  rw [List.replicate_succ, Concurrent.run, Concurrent_step_self]
  simp only [lockedCall, Bool.false_eq_true, if_false]
  exact Concurrent_run_inside who other body l sh

theorem Concurrent_run_serial {L Sh : Type} (who : Bool) (body1 body2 : List (L → Sh → L × Sh))
    (l1 l2 : L) (sh : Sh) :
    Concurrent.run
        (List.replicate (body1.length + 2) who ++ List.replicate (body2.length + 2) (!who))
        (Concurrent.of who false sh { loc := l1, rest := lockedCall body1 }
          { loc := l2, rest := lockedCall body2 })
      = some (Concurrent.of who false (runBody body2 l2 (runBody body1 l1 sh).2).2
          { loc := (runBody body1 l1 sh).1, rest := [] }
          { loc := (runBody body2 l2 (runBody body1 l1 sh).2).1, rest := [] }) := by
  rw [Concurrent_run_append, Concurrent_run_lockedCall]
  simp only
  rw [Concurrent_of_swap, Concurrent_run_lockedCall, Concurrent_of_swap, Bool.not_not]

theorem WriteFrame_steps_run {σ τ : Type} (wr : Writer σ) (opts : WriterOptions τ)
    (w : highlevelWriter σ τ) (frame : Bytes) :
    (runBody (highlevelWriter.WriteFrame.steps wr opts)
        { frame := frame, err := none, returned := false } w).2
      = (highlevelWriter.WriteFrame wr opts w frame).1
    ∧ (runBody (highlevelWriter.WriteFrame.steps wr opts)
        { frame := frame, err := none, returned := false } w).1.err
      = (highlevelWriter.WriteFrame wr opts w frame).2 := by
  by_cases hsize : (frame.length : Int) > opts.MaxFrameSize
  · simp [highlevelWriter.WriteFrame.steps, runBody, highlevelWriter.WriteFrame, hsize]
  by_cases hcount : w.frameCount ≥ opts.MaxFrames
  · simp [highlevelWriter.WriteFrame.steps, runBody, highlevelWriter.WriteFrame, hsize, hcount]
  rcases hs : opts.Sanitizer.Sanitize w.sanitizer (highlevelWriter.FramingType wr w) frame
    with ⟨san, out, _ | e⟩
  swap
  · simp [highlevelWriter.WriteFrame.steps, runBody, highlevelWriter.WriteFrame, hsize, hcount,
      hs]
  by_cases hout : out.length = 0
  · simp [highlevelWriter.WriteFrame.steps, runBody, highlevelWriter.WriteFrame, hsize, hcount,
      hs, hout]
  rcases hw : wr.WriteFrame w.writer out with ⟨lw, _ | e⟩
  · simp [highlevelWriter.WriteFrame.steps, runBody, highlevelWriter.WriteFrame, hsize, hcount,
      hs, hout, hw, traceRegister]
  · simp [highlevelWriter.WriteFrame.steps, runBody, highlevelWriter.WriteFrame, hsize, hcount,
      hs, hout, hw, traceRegister]

/-- C26: two callers share one high-level writer and each calls `WriteFrame`
once, with the frames `fa` and `fb`. Each call is `Lock`, a body of atomic
steps, `Unlock`; the body may be cut into atomic steps in any way, as long as
the steps executed without interruption are `highlevelWriter.WriteFrame`
(`hA`, `hB`). Then
(1) every schedule that lets both calls finish executes all instructions of
one call, from its `Lock` to its `Unlock`, before the first instruction of the
other; the mutex is free at the end, the writer is in the state that the two
calls leave when one is made after the other (frames written, `frameCount`
incremented), and each caller has the result of its call in that order;
(2) both orders occur: the schedule that runs the caller `a` first and the
one that runs the caller `b` first let both calls finish;
(3) the body cut statement by statement (`highlevelWriter.WriteFrame.steps`)
is such a cut. -/
theorem WriteFrame_concurrent {σ τ L : Type} (wr : Writer σ) (opts : WriterOptions τ)
    (w : highlevelWriter σ τ) (fa fb : Bytes)
    (bodyA bodyB : List (L → highlevelWriter σ τ → L × highlevelWriter σ τ)) (la lb : L)
    (res : L → Option Err)
    (hA : ∀ w1 : highlevelWriter σ τ,
      (runBody bodyA la w1).2 = (highlevelWriter.WriteFrame wr opts w1 fa).1
      ∧ res (runBody bodyA la w1).1 = (highlevelWriter.WriteFrame wr opts w1 fa).2)
    (hB : ∀ w1 : highlevelWriter σ τ,
      (runBody bodyB lb w1).2 = (highlevelWriter.WriteFrame wr opts w1 fb).1
      ∧ res (runBody bodyB lb w1).1 = (highlevelWriter.WriteFrame wr opts w1 fb).2) :
    (∀ (sched : List Bool) (g : Concurrent L (highlevelWriter σ τ)),
        Concurrent.run sched
            { locked := false, shared := w, a := { loc := la, rest := lockedCall bodyA },
              b := { loc := lb, rest := lockedCall bodyB } } = some g →
        g.a.rest = [] → g.b.rest = [] →
        g.locked = false
        ∧ ((sched = List.replicate (bodyA.length + 2) false
                ++ List.replicate (bodyB.length + 2) true
            ∧ g.shared
              = (highlevelWriter.WriteFrame wr opts
                  (highlevelWriter.WriteFrame wr opts w fa).1 fb).1
            ∧ res g.a.loc = (highlevelWriter.WriteFrame wr opts w fa).2
            ∧ res g.b.loc
              = (highlevelWriter.WriteFrame wr opts
                  (highlevelWriter.WriteFrame wr opts w fa).1 fb).2)
          ∨ (sched = List.replicate (bodyB.length + 2) true
                ++ List.replicate (bodyA.length + 2) false
            ∧ g.shared
              = (highlevelWriter.WriteFrame wr opts
                  (highlevelWriter.WriteFrame wr opts w fb).1 fa).1
            ∧ res g.b.loc = (highlevelWriter.WriteFrame wr opts w fb).2
            ∧ res g.a.loc
              = (highlevelWriter.WriteFrame wr opts
                  (highlevelWriter.WriteFrame wr opts w fb).1 fa).2)))
    ∧ ((∃ g : Concurrent L (highlevelWriter σ τ),
          Concurrent.run
              (List.replicate (bodyA.length + 2) false ++ List.replicate (bodyB.length + 2) true)
              { locked := false, shared := w, a := { loc := la, rest := lockedCall bodyA },
                b := { loc := lb, rest := lockedCall bodyB } } = some g
          ∧ g.a.rest = [] ∧ g.b.rest = []
          ∧ g.shared
            = (highlevelWriter.WriteFrame wr opts
                (highlevelWriter.WriteFrame wr opts w fa).1 fb).1)
      ∧ (∃ g : Concurrent L (highlevelWriter σ τ),
          Concurrent.run
              (List.replicate (bodyB.length + 2) true ++ List.replicate (bodyA.length + 2) false)
              { locked := false, shared := w, a := { loc := la, rest := lockedCall bodyA },
                b := { loc := lb, rest := lockedCall bodyB } } = some g
          ∧ g.a.rest = [] ∧ g.b.rest = []
          ∧ g.shared
            = (highlevelWriter.WriteFrame wr opts
                (highlevelWriter.WriteFrame wr opts w fb).1 fa).1))
    ∧ (∀ (frame : Bytes) (w1 : highlevelWriter σ τ),
        (runBody (highlevelWriter.WriteFrame.steps wr opts)
            { frame := frame, err := none, returned := false } w1).2
          = (highlevelWriter.WriteFrame wr opts w1 frame).1
        ∧ (runBody (highlevelWriter.WriteFrame.steps wr opts)
            { frame := frame, err := none, returned := false } w1).1.err
          = (highlevelWriter.WriteFrame wr opts w1 frame).2) := by
  refine ⟨?_, ⟨?_, ?_⟩, fun frame w1 => WriteFrame_steps_run wr opts w1 frame⟩
  · intro sched g hrun hfa hfb
    have hserial := lockedCalls_serial bodyA bodyB la lb w false sched g hrun hfa hfb
    rcases hserial with ⟨hs, hg⟩ | ⟨hs, hg⟩
    · subst hg
      refine ⟨rfl, Or.inl ⟨hs, ?_, ?_, ?_⟩⟩
      · show (runBody bodyB lb (runBody bodyA la w).2).2 = _
        rw [(hB _).1, (hA _).1]
      · show res (runBody bodyA la w).1 = _
        exact (hA w).2
      · show res (runBody bodyB lb (runBody bodyA la w).2).1 = _
        rw [(hB _).2, (hA _).1]
    · subst hg
      refine ⟨rfl, Or.inr ⟨hs, ?_, ?_, ?_⟩⟩
      · show (runBody bodyA la (runBody bodyB lb w).2).2 = _
        rw [(hA _).1, (hB _).1]
      · show res (runBody bodyB lb w).1 = _
        exact (hB w).2
      · show res (runBody bodyA la (runBody bodyB lb w).2).1 = _
        rw [(hA _).2, (hB _).1]
  · refine ⟨_, Concurrent_run_serial false bodyA bodyB la lb w, ?_, ?_, ?_⟩
    · rfl
    · rfl
    · show (runBody bodyB lb (runBody bodyA la w).2).2 = _
      rw [(hB _).1, (hA _).1]
  · refine ⟨_, Concurrent_run_serial true bodyB bodyA lb la w, ?_, ?_, ?_⟩
    · rfl
    · rfl
    · show (runBody bodyA la (runBody bodyB lb w).2).2 = _
      rw [(hA _).1, (hB _).1]

/-- Scenario D: two callers write the frames `a: 1\n` and `b: 2\n` through one
high-level writer over the document-separated writer of the factory and a
buffer, each call cut statement by statement. The schedule that runs the
caller `b` first lets both calls finish, and the buffer then holds
`---\nb: 2\n---\na: 1\n` with `frameCount = 2`; the schedule that alternates
between the callers does not run, because the second caller cannot lock the
mutex. -/
theorem WriteFrame_concurrent_witness :
    (∃ g : Concurrent WriteFrame.Local (highlevelWriter (lowlevelWriter Bytes) Nat),
        Concurrent.run (List.replicate 8 true ++ List.replicate 8 false)
            { locked := false,
              shared := NewWriter "application/yaml" "application/json" "application/yaml"
                bytesBuffer [] (⟨1000, 10, identitySanitizer⟩ : WriterOptions Nat) 0,
              a := { loc := { frame := ascii "a: 1\n", err := none, returned := false },
                     rest := lockedCall (highlevelWriter.WriteFrame.steps (factoryWriter Bytes)
                       (⟨1000, 10, identitySanitizer⟩ : WriterOptions Nat)) },
              b := { loc := { frame := ascii "b: 2\n", err := none, returned := false },
                     rest := lockedCall (highlevelWriter.WriteFrame.steps (factoryWriter Bytes)
                       (⟨1000, 10, identitySanitizer⟩ : WriterOptions Nat)) } } = some g
        ∧ lowlevelWriter.content g.shared.writer = ascii "---\nb: 2\n---\na: 1\n"
        ∧ g.shared.frameCount = 2)
    ∧ (Concurrent.run [false, true]
          { locked := false,
            shared := NewWriter "application/yaml" "application/json" "application/yaml"
              bytesBuffer [] (⟨1000, 10, identitySanitizer⟩ : WriterOptions Nat) 0,
            a := { loc := { frame := ascii "a: 1\n", err := none, returned := false },
                   rest := lockedCall (highlevelWriter.WriteFrame.steps (factoryWriter Bytes)
                     (⟨1000, 10, identitySanitizer⟩ : WriterOptions Nat)) },
            b := { loc := { frame := ascii "b: 2\n", err := none, returned := false },
                   rest := lockedCall (highlevelWriter.WriteFrame.steps (factoryWriter Bytes)
                     (⟨1000, 10, identitySanitizer⟩ : WriterOptions Nat)) } }).isNone = true :=
  have hw := WriteFrame_concurrent (factoryWriter Bytes)
    (⟨1000, 10, identitySanitizer⟩ : WriterOptions Nat)
    (NewWriter "application/yaml" "application/json" "application/yaml"
      bytesBuffer [] (⟨1000, 10, identitySanitizer⟩ : WriterOptions Nat) 0)
    (ascii "a: 1\n") (ascii "b: 2\n")
    (highlevelWriter.WriteFrame.steps (factoryWriter Bytes)
      (⟨1000, 10, identitySanitizer⟩ : WriterOptions Nat))
    (highlevelWriter.WriteFrame.steps (factoryWriter Bytes)
      (⟨1000, 10, identitySanitizer⟩ : WriterOptions Nat))
    { frame := ascii "a: 1\n", err := none, returned := false }
    { frame := ascii "b: 2\n", err := none, returned := false }
    (fun l => l.err)
    (fun w1 => WriteFrame_steps_run _ _ w1 _) (fun w1 => WriteFrame_steps_run _ _ w1 _)
  ⟨hw.2.1.2.elim (fun g hg =>
      ⟨g, hg.1, by rw [hg.2.2.2]; decide, by rw [hg.2.2.2]; decide⟩),
    rfl⟩

end Libgitops
